import Mathlib

/-!
Verification development for the 2D robotics simulation environment.

The Python sources are shallowly embedded over the real numbers: every float
becomes a real number, every guarded float division is reproduced with its
guard, and mutation becomes explicit state passing.  Real arithmetic has no
NaN/inf values, so `math.isfinite` guards from the source are always true in
the embedding and are noted where they occur.  `float("inf")` sentinels
(initial best-distance / best-penetration values) are embedded as `Option`
states where `none` stands for "still infinite".  All embedded functions are
total, which is the shallow counterpart of "never raises"; purity of the
embedding is the counterpart of "mutates no input".
-/

namespace SimEnv

/-! ## Spatial math (`low_level_mechanics/world.py`) -/

/-- Embedding of `Pose2D` from `low_level_mechanics/world.py`: a 2D pose with
translation and rotation (radians). -/
structure Pose2D where
  x : ℝ
  y : ℝ
  theta : ℝ

/-- `Pose2D.translated`. -/
def Pose2D.translated (p : Pose2D) (dx dy : ℝ) : Pose2D :=
  ⟨p.x + dx, p.y + dy, p.theta⟩

/-- `Pose2D.rotated`. -/
def Pose2D.rotated (p : Pose2D) (dtheta : ℝ) : Pose2D :=
  ⟨p.x, p.y, p.theta + dtheta⟩

/-- `Pose2D.transform_point`: maps a body-local point to world space. -/
noncomputable def Pose2D.transform_point (p : Pose2D) (pt : ℝ × ℝ) : ℝ × ℝ :=
  (p.x + Real.cos p.theta * pt.1 - Real.sin p.theta * pt.2,
   p.y + Real.sin p.theta * pt.1 + Real.cos p.theta * pt.2)

/-- `Pose2D.compose`: rigid-transform multiplication. -/
noncomputable def Pose2D.compose (p other : Pose2D) : Pose2D :=
  let t := p.transform_point (other.x, other.y)
  ⟨t.1, t.2, p.theta + other.theta⟩

/-- `Pose2D.inverse`: the inverse rigid transform. -/
noncomputable def Pose2D.inverse (p : Pose2D) : Pose2D :=
  ⟨-p.x * Real.cos p.theta - p.y * Real.sin p.theta,
    p.x * Real.sin p.theta - p.y * Real.cos p.theta,
    -p.theta⟩

/-- The identity pose. -/
def Pose2D.ident : Pose2D := ⟨0, 0, 0⟩

/-! ## Shapes and collision manifolds (`low_level_mechanics/geometry.py`) -/

/-- `math.hypot`. -/
noncomputable def hypotR (x y : ℝ) : ℝ := Real.sqrt (x ^ 2 + y ^ 2)

/-- The shape variant: `Circle` and `Polygon` from
`low_level_mechanics/geometry.py`.  `Polygon.__post_init__` rejects fewer than
three vertices, so every constructible polygon has `3 ≤ vertices.length`. -/
inductive Shape2D where
  | circle (radius : ℝ)
  | poly (vertices : List (ℝ × ℝ))

/-- `Polygon._world_vertices` under a pose. -/
noncomputable def worldVertices (verts : List (ℝ × ℝ)) (pose : Pose2D) : List (ℝ × ℝ) :=
  verts.map pose.transform_point

/-- The index pairs `(verts[i], verts[(i+1) % n])` traversed by the edge
loops in `geometry.py`. -/
def cyclicPairs {α : Type} (l : List α) : List (α × α) :=
  match l with
  | [] => []
  | x :: xs => l.zip (xs ++ [x])

/-- `_distance_point_to_segment`. -/
noncomputable def distancePointToSegment (p s e : ℝ × ℝ) : ℝ :=
  let dx := e.1 - s.1
  let dy := e.2 - s.2
  if dx = 0 ∧ dy = 0 then hypotR (p.1 - s.1) (p.2 - s.2)
  else
    let t := ((p.1 - s.1) * dx + (p.2 - s.2) * dy) / (dx * dx + dy * dy)
    let t' := max 0 (min 1 t)
    hypotR (p.1 - (s.1 + t' * dx)) (p.2 - (s.2 + t' * dy))

/-- `CollisionManifold`: contact normal (A→B), penetration, contact point. -/
structure CollisionManifold where
  normal : ℝ × ℝ
  penetration : ℝ
  contact_point : ℝ × ℝ

/-- `_circle_vs_circle_manifold`. -/
noncomputable def circleVsCircleManifold (ra : ℝ) (pa : Pose2D) (rb : ℝ) (pb : Pose2D) :
    Option CollisionManifold :=
  let dx := pb.x - pa.x
  let dy := pb.y - pa.y
  let dist_sq := dx * dx + dy * dy
  let radius_sum := ra + rb
  if radius_sum * radius_sum ≤ dist_sq then none
  else
    let dist := if 1 / 10 ^ 12 < dist_sq then Real.sqrt dist_sq else 0
    let penetration := radius_sum - dist
    if 1 / 10 ^ 6 < dist then
      some ⟨(dx / dist, dy / dist), penetration,
        (pa.x + dx / dist * ra, pa.y + dy / dist * ra)⟩
    else
      some ⟨(1, 0), penetration, (pa.x, pa.y)⟩

/-- One iteration of the vertex loop of `_circle_vs_polygon_manifold`
(tracking `closest_dist`/`closest_point`; `none` is the initial
`float("inf")` state, which any finite distance beats). -/
noncomputable def closestVertexStep (center : ℝ × ℝ) (acc : Option (ℝ × (ℝ × ℝ)))
    (v : ℝ × ℝ) : Option (ℝ × (ℝ × ℝ)) :=
  let d := hypotR (center.1 - v.1) (center.2 - v.2)
  match acc with
  | none => some (d, v)
  | some (cd, cp) => if d < cd then some (d, v) else some (cd, cp)

/-- One iteration of the edge loop of `_circle_vs_polygon_manifold`: when the
segment distance beats the best so far, the closest point is recomputed as the
clamped projection of the center onto the edge. -/
noncomputable def closestEdgeStep (center : ℝ × ℝ) (acc : Option (ℝ × (ℝ × ℝ)))
    (seg : (ℝ × ℝ) × (ℝ × ℝ)) : Option (ℝ × (ℝ × ℝ)) :=
  let d := distancePointToSegment center seg.1 seg.2
  let dx := seg.2.1 - seg.1.1
  let dy := seg.2.2 - seg.1.2
  let proj : ℝ × ℝ :=
    if dx = 0 ∧ dy = 0 then seg.1
    else
      let t := ((center.1 - seg.1.1) * dx + (center.2 - seg.1.2) * dy) / (dx * dx + dy * dy)
      let t' := max 0 (min 1 t)
      (seg.1.1 + t' * dx, seg.1.2 + t' * dy)
  match acc with
  | none => some (d, proj)
  | some (cd, cp) => if d < cd then some (d, proj) else some (cd, cp)

/-- The closest boundary feature (distance and point) of a polygon's world
vertices to a point: the vertex loop followed by the edge loop of
`_circle_vs_polygon_manifold`. -/
noncomputable def closestFeature (center : ℝ × ℝ) (world_verts : List (ℝ × ℝ)) :
    Option (ℝ × (ℝ × ℝ)) :=
  (cyclicPairs world_verts).foldl (closestEdgeStep center)
    (world_verts.foldl (closestVertexStep center) none)

/-- `_circle_vs_polygon_manifold`: the normal points from the nearest boundary
feature to the circle center.  `closest_point is None` together with
`penetration = radius - float("inf") ≤ 0` is the `none` accumulator case. -/
noncomputable def circleVsPolygonManifold (radius : ℝ) (pose_c : Pose2D)
    (verts : List (ℝ × ℝ)) (pose_p : Pose2D) : Option CollisionManifold :=
  let world_verts := worldVertices verts pose_p
  let center : ℝ × ℝ := (pose_c.x, pose_c.y)
  let acc2 := closestFeature center world_verts
  match acc2 with
  | none => none
  | some (closest_dist, closest_point) =>
    let penetration := radius - closest_dist
    if penetration ≤ 0 then none
    else
      let nx := center.1 - closest_point.1
      let ny := center.2 - closest_point.2
      let norm_len := if hypotR nx ny = 0 then 1 else hypotR nx ny
      some ⟨(nx / norm_len, ny / norm_len), penetration, closest_point⟩

/-- `_project`: projects vertices onto a (normalized) axis and returns the
min/max dot products.  Python's `min()`/`max()` raise on an empty list; the
`(0, 0)` default is unreachable because polygons have at least 3 vertices. -/
noncomputable def projectVerts (axis : ℝ × ℝ) (verts : List (ℝ × ℝ)) : ℝ × ℝ :=
  let length := if hypotR axis.1 axis.2 = 0 then 1 else hypotR axis.1 axis.2
  let ax := axis.1 / length
  let ay := axis.2 / length
  match verts with
  | [] => (0, 0)
  | v :: vs =>
    vs.foldl (fun mm w => (min mm.1 (w.1 * ax + w.2 * ay), max mm.2 (w.1 * ax + w.2 * ay)))
      (v.1 * ax + v.2 * ay, v.1 * ax + v.2 * ay)

/-- `_check_axes` inside `_polygon_vs_polygon_manifold`.  The running state
`(pen, axis, point)` starts as `(inf, None, None)`, embedded as `none`; the
outer `Option` is the `(None, None, None)` separation early-return. -/
noncomputable def checkAxes (verts1 verts2 : List (ℝ × ℝ)) :
    List ((ℝ × ℝ) × (ℝ × ℝ)) → Option (ℝ × (ℝ × ℝ) × (ℝ × ℝ)) →
      Option (Option (ℝ × (ℝ × ℝ) × (ℝ × ℝ)))
  | [], st => some st
  | e :: rest, st =>
    let normal : ℝ × ℝ := (-(e.2.2 - e.1.2), e.2.1 - e.1.1)
    let m1 := projectVerts normal verts1
    let m2 := projectVerts normal verts2
    let overlap := min m1.2 m2.2 - max m1.1 m2.1
    if overlap ≤ 0 then none
    else
      let length := if hypotR normal.1 normal.2 = 0 then 1 else hypotR normal.1 normal.2
      let upd : ℝ × (ℝ × ℝ) × (ℝ × ℝ) := (overlap, (normal.1 / length, normal.2 / length), e.1)
      match st with
      | none => checkAxes verts1 verts2 rest (some upd)
      | some (pen, ax, pt) =>
        if overlap < pen then checkAxes verts1 verts2 rest (some upd)
        else checkAxes verts1 verts2 rest (some (pen, ax, pt))

/-- `_centroid`. -/
noncomputable def centroid (verts : List (ℝ × ℝ)) : ℝ × ℝ :=
  match verts with
  | [] => (0, 0)
  | _ => ((verts.map Prod.fst).sum / verts.length, (verts.map Prod.snd).sum / verts.length)

/-- `_polygon_vs_polygon_manifold`: minimum-overlap SAT axis over both
polygons' edge normals, oriented from A to B via the centroid direction. -/
noncomputable def polygonVsPolygonManifold (vertsA : List (ℝ × ℝ)) (pa : Pose2D)
    (vertsB : List (ℝ × ℝ)) (pb : Pose2D) : Option CollisionManifold :=
  let va := worldVertices vertsA pa
  let vb := worldVertices vertsB pb
  match checkAxes va vb (cyclicPairs va) none with
  | none => none
  | some st1 =>
    match st1 with
    | none => none
    | some _ =>
      match checkAxes vb va (cyclicPairs vb) st1 with
      | none => none
      | some st2 =>
        match st2 with
        | none => none
        | some (pen, axis, point) =>
          let ca := centroid va
          let cb := centroid vb
          let dab : ℝ × ℝ := (cb.1 - ca.1, cb.2 - ca.2)
          let axis' := if axis.1 * dab.1 + axis.2 * dab.2 < 0 then (-axis.1, -axis.2) else axis
          some ⟨axis', pen, point⟩

/-- `collision_manifold`: dispatch over the shape-variant pairs; the
polygon–circle case reuses the circle–polygon manifold with the normal
negated. -/
noncomputable def collision_manifold (sa : Shape2D) (pa : Pose2D) (sb : Shape2D) (pb : Pose2D) :
    Option CollisionManifold :=
  match sa, sb with
  | .circle ra, .circle rb => circleVsCircleManifold ra pa rb pb
  | .circle r, .poly vb => circleVsPolygonManifold r pa vb pb
  | .poly va, .circle r =>
    match circleVsPolygonManifold r pb va pa with
    | some m => some ⟨(-m.normal.1, -m.normal.2), m.penetration, m.contact_point⟩
    | none => none
  | .poly va, .poly vb => polygonVsPolygonManifold va pa vb pb

/-! ## Rigid bodies (`low_level_mechanics/entities.py`)

A `Body` is the embedding of a `SimObject` together with its `DynamicState`
and the physics-relevant part of its `MaterialProperties`. -/

/-- Rigid body: pose, velocity state, pending force/torque accumulators,
material coefficients and shape. -/
structure Body where
  can_move : Bool
  mass : ℝ
  moment_of_inertia : ℝ
  pose : Pose2D
  vx : ℝ
  vy : ℝ
  omega : ℝ
  fx : ℝ
  fy : ℝ
  torque : ℝ
  restitution : ℝ
  friction : ℝ
  shape : Shape2D

/-! ## Traction-limited wheel motors (`middle_level_library/motors.py`) -/

/-- `_clamp` from `motors.py` (also `sensors.py`): `max(lo, min(hi, value))`. -/
def clampF (value lo hi : ℝ) : ℝ := max lo (min hi value)

/-- `_apply_impulse`: apply an impulse at a world point, updating linear and
angular velocity. -/
noncomputable def applyImpulse (body : Body) (impulse contact_point : ℝ × ℝ) : Body :=
  if ¬ body.can_move ∨ body.mass ≤ 0 then body
  else
    let inv_mass := 1 / max body.mass (1 / 10 ^ 9)
    let inv_inertia := if body.moment_of_inertia ≤ 0 then 0 else 1 / body.moment_of_inertia
    let rx := contact_point.1 - body.pose.x
    let ry := contact_point.2 - body.pose.y
    { body with
      vx := body.vx + impulse.1 * inv_mass
      vy := body.vy + impulse.2 * inv_mass
      omega := body.omega + (rx * impulse.2 - ry * impulse.1) * inv_inertia }

/-- `_contact_velocity`: velocity of a world-space contact point on the body. -/
noncomputable def contactVelocity (body : Body) (contact_point : ℝ × ℝ) : ℝ × ℝ :=
  let rx := contact_point.1 - body.pose.x
  let ry := contact_point.2 - body.pose.y
  (body.vx - body.omega * ry, body.vy + body.omega * rx)

/-- `_inv_mass_term`: effective inverse mass along an axis at a contact
point. -/
noncomputable def invMassTerm (body : Body) (contact_point axis : ℝ × ℝ) : ℝ :=
  let inv_mass := if ¬ body.can_move ∨ body.mass ≤ 0 then 0 else 1 / body.mass
  let inv_inertia := if body.moment_of_inertia ≤ 0 then 0 else 1 / body.moment_of_inertia
  let rx := contact_point.1 - body.pose.x
  let ry := contact_point.2 - body.pose.y
  let r_cross_n := rx * axis.2 - ry * axis.1
  inv_mass + r_cross_n * r_cross_n * inv_inertia

/-- `TractionReport` telemetry (`slip_ratio` is named `slip_ratio_val`
here). -/
structure TractionReport where
  step : Option ℕ
  slip_ratio_val : ℝ
  lateral_slip : ℝ
  wheel_speed : ℝ
  preferred_speed : ℝ
  contact_speed : ℝ
  contact_speed_after : ℝ
  desired_longitudinal_impulse : ℝ
  applied_longitudinal_impulse : ℝ
  applied_lateral_impulse : ℝ
  normal_load : ℝ

/-- The `long_limit` computation of `_solve_wheel_traction` (lines 106–111):
start from the traction budget, reduce it proportionally if the lateral
budget was heavily used (coupled friction circle), then cap by the drive
budget — falling back to the drive cap alone when the running limit is not
positive. -/
noncomputable def longitudinalLimit (max_long_impulse max_lat_impulse drive_cap j_lat : ℝ) :
    ℝ :=
  let long_limit1 :=
    if 0 < max_long_impulse ∧ 0 < max_lat_impulse then
      let lat_ratio_val := min 1 (|j_lat| / (max_lat_impulse + 1 / 10 ^ 9))
      max_long_impulse * max 0 (1 - 1 / 2 * lat_ratio_val)
    else max_long_impulse
  if 0 < drive_cap then
    if 0 < long_limit1 then min long_limit1 drive_cap else drive_cap
  else long_limit1

/-- The final drive-impulse clamp of `_solve_wheel_traction` (lines 112–113):
clamp the desired impulse to `[-long_limit, long_limit]` when the limit is
positive, else drive nothing. -/
noncomputable def driveClamp (desired long_limit : ℝ) : ℝ :=
  if 0 < long_limit then clampF desired (-long_limit) long_limit else 0

/-- `_solve_wheel_traction`: track a preferred tangential speed with
friction/traction-limited impulses.  Returns the updated body together with
the `TractionReport` (with `step = None`, as in the source before the caller
overwrites it). -/
noncomputable def solveWheelTraction (body : Body) (contact_point forward : ℝ × ℝ)
    (preferred_speed drive_impulse_cap mu_long mu_lat normal_load lateral_damping dt : ℝ) :
    Body × TractionReport :=
  if ¬ body.can_move then
    (body, ⟨none, 0, 0, preferred_speed, preferred_speed, 0, 0, 0, 0, 0, normal_load⟩)
  else
    let normal_load := max normal_load 0
    let lateral_damping := clampF lateral_damping 0 1
    let lateral : ℝ × ℝ := (-forward.2, forward.1)
    let max_long_impulse := max 0 (|mu_long| * normal_load * dt)
    let max_lat_impulse := max 0 (|mu_lat| * normal_load * dt)
    let drive_cap := max 0 |drive_impulse_cap|
    let vc := contactVelocity body contact_point
    let v_long := vc.1 * forward.1 + vc.2 * forward.2
    let v_lat := vc.1 * lateral.1 + vc.2 * lateral.2
    let slip_denom := max (max |preferred_speed| |v_long|) (1 / 20)
    let slip_ratio_val := (preferred_speed - v_long) / slip_denom
    -- Lateral slip correction (constraint-like)
    let latPair : Body × ℝ :=
      if 0 < max_lat_impulse ∧ 1 / 10 ^ 6 < |v_lat| then
        let inv_mass_lat := invMassTerm body contact_point lateral
        if 1 / 10 ^ 9 < inv_mass_lat then
          let target := (-v_lat / inv_mass_lat) * (1 - lateral_damping)
          let j := clampF target (-max_lat_impulse) max_lat_impulse
          (applyImpulse body (lateral.1 * j, lateral.2 * j) contact_point, j)
        else (body, 0)
      else (body, 0)
    let body1 := latPair.1
    let j_lat := latPair.2
    -- Longitudinal drive toward preferred speed with traction + drive caps
    let inv_mass_long := invMassTerm body1 contact_point forward
    let desiredPair : ℝ × ℝ :=
      if 1 / 10 ^ 9 < inv_mass_long then
        let desired := (preferred_speed - v_long) / inv_mass_long
        (desired,
         driveClamp desired (longitudinalLimit max_long_impulse max_lat_impulse drive_cap j_lat))
      else (0, 0)
    let desired_impulse := desiredPair.1
    let j_drive := desiredPair.2
    let body2 :=
      if j_drive ≠ 0 then applyImpulse body1 (forward.1 * j_drive, forward.2 * j_drive) contact_point
      else body1
    let v_post := contactVelocity body2 contact_point
    let v_post_long := v_post.1 * forward.1 + v_post.2 * forward.2
    (body2, ⟨none, slip_ratio_val, v_lat, preferred_speed, preferred_speed, v_long, v_post_long,
      desired_impulse, j_drive, j_lat, normal_load⟩)

/-- `WheelMotor` (`motors.py`) with the `Motor` base-class state
(`max_command`, `_last_command`) inlined. -/
structure WheelMotor where
  max_command : ℝ
  last_command : ℝ
  max_force : ℝ
  mu_long : ℝ
  mu_lat : ℝ
  g_equiv : ℝ
  normal_force : Option ℝ
  lateral_damping : ℝ
  wheel_count : ℕ
  wheel_radius : ℝ
  response_time : ℝ
  max_wheel_omega : ℝ
  mount_pose : Pose2D
  angular_speed : ℝ
  last_report : Option TractionReport

/-- `WheelMotor._apply`: low-pass filter toward the target wheel speed, run
the traction solver, partially feed back the post-impulse contact speed into
the internal wheel speed.  `step_idx` is `world.step_index` recorded into the
report. -/
noncomputable def WheelMotor.applyCmd (m : WheelMotor) (value : ℝ) (parent : Body) (dt : ℝ)
    (step_idx : Option ℕ) : WheelMotor × Body :=
  if ¬ parent.can_move then (m, parent)
  else
    let pose := parent.pose.compose m.mount_pose
    let direction : ℝ × ℝ := (Real.cos pose.theta, Real.sin pose.theta)
    let normal_load :=
      match m.normal_force with
      | some nf => nf
      | none => parent.mass * m.g_equiv / (max m.wheel_count 1 : ℕ)
    let blend := min 1 (dt / m.response_time)
    let target_omega := value * m.max_wheel_omega
    let as1 := m.angular_speed + (target_omega - m.angular_speed) * blend
    let wheel_speed := as1 * m.wheel_radius
    let drive_impulse_cap := |m.max_force| * dt
    let solved := solveWheelTraction parent (pose.x, pose.y) direction wheel_speed
      drive_impulse_cap m.mu_long m.mu_lat normal_load m.lateral_damping dt
    let report := solved.2
    let traction_ratio_val :=
      if 1 / 10 ^ 9 < |report.desired_longitudinal_impulse| then
        min 1 (|report.applied_longitudinal_impulse| / |report.desired_longitudinal_impulse|)
      else 0
    let ground_omega := report.contact_speed_after / max m.wheel_radius (1 / 10 ^ 6)
    let as2 := as1 * (1 - 2 / 5 * traction_ratio_val) + ground_omega * (2 / 5 * traction_ratio_val)
    ({ m with angular_speed := as2, last_report := some { report with step := step_idx } },
     solved.1)

/-- `Motor.command` (`middle_level_library/base.py`): clamp the commanded
value into `[-max_command, max_command]`, store it as `_last_command`, then
dispatch to `_apply`. -/
noncomputable def WheelMotor.command (m : WheelMotor) (value : ℝ) (parent : Body) (dt : ℝ)
    (step_idx : Option ℕ) : WheelMotor × Body :=
  let v := max (-m.max_command) (min m.max_command value)
  WheelMotor.applyCmd { m with last_command := v } v parent dt step_idx

/-! ## Sensors (`middle_level_library/base.py`, `middle_level_library/sensors.py`) -/

/-- Sample-and-hold state of a `Sensor` (`base.py`): update period derived
from the configured rate, accumulated time, last reading, noise profile. -/
structure SensorState where
  update_period : ℝ
  time_since_update : ℝ
  last_reading : Option ℝ
  noise_bias : ℝ
  noise_std : ℝ

/-- `Sensor.should_update` (`base.py` lines 92–99): accumulate `dt`; once a
full period has accumulated, reset the accumulator to zero and report a fresh
sample. -/
noncomputable def shouldUpdate (s : SensorState) (dt : ℝ) : Bool × SensorState :=
  if s.update_period = 0 then (true, s)
  else
    let t := s.time_since_update + dt
    if s.update_period ≤ t then (true, { s with time_since_update := 0 })
    else (false, { s with time_since_update := t })

/-- The shared shape of every `read` implementation in `sensors.py`:
`if not self.parent or not self.should_update(dt): return None` (short-circuit:
with no parent `should_update` is not called), else compute the sensor-specific
value, store it as `_last_reading` and return it.  `value` is that
sensor-specific value (ray march / field sample / velocity readout, noise and
clamping included). -/
noncomputable def sensorRead (hasParent : Bool) (value : ℝ) (s : SensorState) (dt : ℝ) :
    Option ℝ × SensorState :=
  if ¬ hasParent then (none, s)
  else
    let g := shouldUpdate s dt
    if ¬ g.1 then (none, g.2)
    else (some value, { g.2 with last_reading := some value })

/-- `NoiseProfile.sample` (`base.py` lines 24–28) drawing from the
world's seed-derived RNG: with zero standard deviation the bias is returned
and no RNG draw is consumed; otherwise one Gaussian draw is consumed.
`noiseFn seed count` stands for the deterministic Mersenne-Twister Gaussian
stream of `random.Random(seed)`. -/
noncomputable def sampleNoise (bias std : ℝ) (noiseFn : ℤ → ℕ → ℝ) (seed : ℤ) (count : ℕ) :
    ℝ × ℕ :=
  if std = 0 then (bias, count)
  else (bias + std * noiseFn seed count, count + 1)

/-! ## Joints (`core/simulator.py`) -/

/-- The joint fields read by `Simulator._solve_joints`. -/
structure JointConfig where
  parent : String
  child : String
  anchor_parent : ℝ × ℝ
  anchor_child : ℝ × ℝ
  lower_limit : ℝ
  upper_limit : ℝ

/-- `JointRuntime`: config plus XPBD parameters and the accumulated
multiplier. -/
structure JointRuntime where
  cfg : JointConfig
  compliance : ℝ
  damping : ℝ
  lambda_accum : ℝ

/-! ## Simulator state (`core/simulator.py`) -/

/-- Association-list lookup, mirroring Python `dict.get`. -/
def alistLookup {α : Type} (l : List (String × α)) (k : String) : Option α :=
  (l.find? (fun p => p.1 = k)).map Prod.snd

/-- Association-list pointwise update of one key. -/
def alistUpdate {α : Type} (l : List (String × α)) (k : String) (f : α → α) :
    List (String × α) :=
  l.map (fun p => if p.1 = k then (p.1, f p.2) else p)

/-- Association-list insert-or-overwrite, mirroring Python `dict.__setitem__`
(an existing key keeps its position; a new key is appended). -/
def alistInsert {α : Type} (l : List (String × α)) (k : String) (v : α) : List (String × α) :=
  if (l.find? (fun p => p.1 = k)).isSome then l.map (fun p => if p.1 = k then (k, v) else p)
  else l ++ [(k, v)]

/-- Association-list erase, mirroring Python `dict.pop(k, None)`. -/
def alistErase {α : Type} (l : List (String × α)) (k : String) : List (String × α) :=
  l.filter (fun p => ¬ p.1 = k)

/-- The unique unordered pairs `(names[i], names[j])`, `i < j`, in the order
traversed by the nested loops of `_solve_contacts`. -/
def allPairs {α : Type} : List α → List (α × α)
  | [] => []
  | x :: xs => (xs.map (fun y => (x, y))) ++ allPairs xs

/-- The `Simulator` state: the fields of `Simulator.__init__` that the physics
pipeline, snapshots and controller bookkeeping touch.  The RNG
(`random.Random(seed)`) is embedded as its seed plus a draw counter; the
controller instance's opaque state (`get_state`/`set_state`) as
`controller_internal`. -/
structure SimState where
  dt : ℝ
  gravity : ℝ × ℝ
  time : ℝ
  step_index : ℕ
  bodies : List (String × Body)
  joints : List JointRuntime
  motors : List (String × WheelMotor × String)
  sensors : List (String × SensorState × String)
  robot_ids : List String
  last_controller_errors : List (String × String)
  last_controller_error : Option String
  last_physics_warning : Option String
  last_sensor_readings : List (String × ℝ)
  rng_seed : ℤ
  rng_count : ℕ
  controller_internal : Option ℝ
  linear_damping : ℝ
  angular_damping : ℝ
  max_linear_speed : ℝ
  max_angular_speed : ℝ
  contact_correction_percent : ℝ
  contact_slop : ℝ
  max_penetration_correction : ℝ
  max_step_translation : ℝ

/-- `Simulator._sanitize_velocity` (lines 643–661): the `isfinite` resets can
never fire over ℝ (reals have no NaN/inf); the two speed clamps are embedded
with their warning messages (returned instead of flagged, for the caller to
store). -/
noncomputable def sanitizeVelocity (max_linear_speed max_angular_speed : ℝ) (body : Body) :
    Body × Option String :=
  let speed := hypotR body.vx body.vy
  let linPair : Body × Option String :=
    if 0 < max_linear_speed ∧ max_linear_speed < speed then
      let scale := max_linear_speed / max speed (1 / 10 ^ 9)
      ({ body with vx := body.vx * scale, vy := body.vy * scale },
       some "clamped linear speed")
    else (body, none)
  let b1 := linPair.1
  let angPair : Body × Option String :=
    if 0 < max_angular_speed ∧ max_angular_speed < |b1.omega| then
      ({ b1 with omega := if b1.omega < 0 then -max_angular_speed else max_angular_speed },
       some "clamped angular speed")
    else (b1, none)
  (angPair.1, match angPair.2 with | some m => some m | none => linPair.2)

/-- `SimObject.integrate` (`entities.py` lines 94–108): sum pending forces
into velocity, advance the pose, clear the accumulators. -/
noncomputable def bodyIntegrate (b : Body) (dt : ℝ) : Body :=
  if ¬ b.can_move then { b with fx := 0, fy := 0, torque := 0 }
  else
    let vx1 := if 0 < b.mass then b.vx + b.fx / b.mass * dt else b.vx
    let vy1 := if 0 < b.mass then b.vy + b.fy / b.mass * dt else b.vy
    let omega1 :=
      if 0 < b.moment_of_inertia then b.omega + b.torque / b.moment_of_inertia * dt
      else b.omega
    let pose1 := b.pose.translated (vx1 * dt) (vy1 * dt)
    let pose2 := if omega1 ≠ 0 then pose1.rotated (omega1 * dt) else pose1
    { b with vx := vx1, vy := vy1, omega := omega1, pose := pose2, fx := 0, fy := 0, torque := 0 }

/-- The per-body part of `Simulator._integrate_bodies` (lines 758–772):
gravity force, damping, velocity sanitize, integration.  `_sanitize_pose`'s
`isfinite` reset can never fire over ℝ and is a no-op here. -/
noncomputable def integrateBody (gravity : ℝ × ℝ) (lin_damp ang_damp max_lin max_ang dt : ℝ)
    (b : Body) : Body × Option String :=
  if ¬ b.can_move ∨ b.mass ≤ 0 then ({ b with fx := 0, fy := 0, torque := 0 }, none)
  else
    let b0 := { b with fx := b.fx + gravity.1 * b.mass, fy := b.fy + gravity.2 * b.mass }
    let b1 := { b0 with vx := b0.vx * lin_damp, vy := b0.vy * lin_damp,
                        omega := b0.omega * ang_damp }
    let sv := sanitizeVelocity max_lin max_ang b1
    (bodyIntegrate sv.1 dt, sv.2)

/-- `Simulator._integrate_bodies` over the whole body table, threading the
latest physics warning. -/
noncomputable def integrateBodies (s : SimState) (dt : ℝ) : SimState :=
  let res := s.bodies.foldl
    (fun (acc : List (String × Body) × Option String) nb =>
      let r := integrateBody s.gravity s.linear_damping s.angular_damping
        s.max_linear_speed s.max_angular_speed dt nb.2
      (acc.1 ++ [(nb.1, r.1)], match r.2 with | some m => some m | none => acc.2))
    ([], s.last_physics_warning)
  { s with bodies := res.1, last_physics_warning := res.2 }

/-- One iteration of the `_solve_joints` loop (lines 775–805) for one
constraint.  The `isfinite(dlambda)` guard always passes over ℝ. -/
noncomputable def solveJointStep (dt : ℝ) (acc : SimState × List JointRuntime)
    (jr : JointRuntime) : SimState × List JointRuntime :=
  let st := acc.1
  match alistLookup st.bodies jr.cfg.parent, alistLookup st.bodies jr.cfg.child with
  | some parent, some child =>
        if ¬ parent.can_move ∧ ¬ child.can_move then (st, acc.2 ++ [jr])
        else
          let pa := parent.pose.transform_point jr.cfg.anchor_parent
          let pb := child.pose.transform_point jr.cfg.anchor_child
          let dx := pb.1 - pa.1
          let dy := pb.2 - pa.2
          let dist := hypotR dx dy
          let target := if jr.cfg.lower_limit = jr.cfg.upper_limit then jr.cfg.upper_limit else 0
          let err := dist - target
          if |err| < 1 / 10 ^ 5 then (st, acc.2 ++ [jr])
          else
            let n : ℝ × ℝ := (dx / (dist + 1 / 10 ^ 6), dy / (dist + 1 / 10 ^ 6))
            let inv_mass_a := if ¬ parent.can_move then 0 else 1 / max parent.mass (1 / 10 ^ 6)
            let inv_mass_b := if ¬ child.can_move then 0 else 1 / max child.mass (1 / 10 ^ 6)
            let w := inv_mass_a + inv_mass_b
            if w = 0 then (st, acc.2 ++ [jr])
            else
              let alpha := 1 / (jr.compliance + 1 / 10 ^ 9)
              let dlambda := -err * alpha / (w + alpha * dt * dt)
              let jr' := { jr with lambda_accum := jr.lambda_accum + dlambda }
              let correction := max (-st.max_penetration_correction)
                (min st.max_penetration_correction dlambda)
              let st1 :=
                if parent.can_move then
                  { st with bodies := alistUpdate st.bodies jr.cfg.parent (fun b =>
                      { b with pose := (b.pose.translated (-n.1 * correction * inv_mass_a)
                          (-n.2 * correction * inv_mass_a)) }) }
                else st
              let st2 :=
                if child.can_move then
                  { st1 with bodies := alistUpdate st1.bodies jr.cfg.child (fun b =>
                      { b with pose := (b.pose.translated (n.1 * correction * inv_mass_b)
                          (n.2 * correction * inv_mass_b)) }) }
                else st1
              (st2, acc.2 ++ [jr'])
  | _, _ => (st, acc.2 ++ [jr])

/-- `Simulator._solve_joints` (lines 774–805): one XPBD-style positional
correction per constraint; the accumulated multiplier persists. -/
noncomputable def solveJoints (s : SimState) (dt : ℝ) : SimState :=
  let res := s.joints.foldl (solveJointStep dt) (s, [])
  { res.1 with joints := res.2 }

/-- The inverse mass used by the contact solver:
`0.0 if not can_move else 1.0 / max(mass, 1e-6)`. -/
noncomputable def contactInvMass (x : Body) : ℝ :=
  if ¬ x.can_move then 0 else 1 / max x.mass (1 / 10 ^ 6)

/-- The velocity-resolution + Coulomb-friction part of
`Simulator._solve_contacts` (lines 837–881) for one colliding pair, after the
positional correction: `none` is the `continue` on a separating (positive)
relative normal velocity, in which case no velocity impulse is applied;
otherwise the result is the two updated bodies together with the normal
impulse `j` and the clamped tangential impulse `jt`.  The
`isfinite(vel_along_normal)`, `isfinite(j)` and `isfinite(jt)` guards always
pass over ℝ. -/
noncomputable def contactVelocityUpdate (a b : Body) (normal : ℝ × ℝ) :
    Option (Body × Body × ℝ × ℝ) :=
  let inv_mass_a := contactInvMass a
  let inv_mass_b := contactInvMass b
  let inv_mass_sum := inv_mass_a + inv_mass_b
  let rvx := a.vx - b.vx
  let rvy := a.vy - b.vy
  let vel_along_normal := rvx * normal.1 + rvy * normal.2
  if 0 < vel_along_normal then none
  else
    let restitution := max 0 (min 1 (max a.restitution b.restitution))
    let j := -(1 + restitution) * vel_along_normal / inv_mass_sum
    let impulse := (j * normal.1, j * normal.2)
    let a1 := if a.can_move then
        { a with vx := a.vx - inv_mass_a * impulse.1, vy := a.vy - inv_mass_a * impulse.2 }
      else a
    let b1 := if b.can_move then
        { b with vx := b.vx + inv_mass_b * impulse.1, vy := b.vy + inv_mass_b * impulse.2 }
      else b
    let rvx2 := a1.vx - b1.vx
    let rvy2 := a1.vy - b1.vy
    let tangent : ℝ × ℝ := (-normal.2, normal.1)
    let vt := rvx2 * tangent.1 + rvy2 * tangent.2
    let jt0 := -vt / inv_mass_sum
    let mu := 1 / 2 * (a.friction + b.friction)
    let jt_limit := mu * |j|
    let jt := max (-jt_limit) (min jt_limit jt0)
    let t_impulse := (jt * tangent.1, jt * tangent.2)
    let a2 := if a1.can_move then
        { a1 with vx := a1.vx - inv_mass_a * t_impulse.1, vy := a1.vy - inv_mass_a * t_impulse.2 }
      else a1
    let b2 := if b1.can_move then
        { b1 with vx := b1.vx + inv_mass_b * t_impulse.1, vy := b1.vy + inv_mass_b * t_impulse.2 }
      else b1
    some (a2, b2, j, jt)

/-- One iteration of the pair loop of `Simulator._solve_contacts`
(lines 809–885): manifold test, positional correction, velocity resolution,
friction, final sanitize of the touched movable bodies (the sanitize is
skipped — as in the source — when the pair separates). -/
noncomputable def solveContactPair (st : SimState) (name_i name_j : String) : SimState :=
  match alistLookup st.bodies name_i, alistLookup st.bodies name_j with
  | some a, some b =>
    if ¬ (a.can_move ∨ b.can_move) then st
    else
      match collision_manifold a.shape a.pose b.shape b.pose with
      | none => st
      | some manifold =>
        let normal := manifold.normal
        let inv_mass_a := contactInvMass a
        let inv_mass_b := contactInvMass b
        let inv_mass_sum := inv_mass_a + inv_mass_b
        if inv_mass_sum = 0 then st
        else
          let correction_mag0 := max (manifold.penetration - st.contact_slop) 0 *
            st.contact_correction_percent / inv_mass_sum
          let correction_mag := min correction_mag0 st.max_penetration_correction
          let correction := (normal.1 * correction_mag, normal.2 * correction_mag)
          let a1 := if a.can_move then
              { a with pose := (a.pose.translated (-correction.1 * inv_mass_a)
                  (-correction.2 * inv_mass_a)) }
            else a
          let b1 := if b.can_move then
              { b with pose := (b.pose.translated (correction.1 * inv_mass_b)
                  (correction.2 * inv_mass_b)) }
            else b
          match contactVelocityUpdate a1 b1 normal with
          | none =>
            { st with bodies := (alistUpdate (alistUpdate st.bodies name_i (fun _ => a1))
                name_j (fun _ => b1)) }
          | some (a2, b2, _, _) =>
            let sa := if a2.can_move then
                sanitizeVelocity st.max_linear_speed st.max_angular_speed a2
              else (a2, none)
            let sb := if b2.can_move then
                sanitizeVelocity st.max_linear_speed st.max_angular_speed b2
              else (b2, none)
            let warn1 := match sa.2 with | some m => some m | none => st.last_physics_warning
            let warn2 := match sb.2 with | some m => some m | none => warn1
            { st with
              bodies := (alistUpdate (alistUpdate st.bodies name_i (fun _ => sa.1))
                name_j (fun _ => sb.1)),
              last_physics_warning := warn2 }
  | _, _ => st

/-- `Simulator._solve_contacts`: all unique body pairs, in order. -/
noncomputable def solveContacts (s : SimState) : SimState :=
  (allPairs (s.bodies.map Prod.fst)).foldl (fun st p => solveContactPair st p.1 p.2) s

/-- `Simulator._check_step_sanity` (lines 669–692): anti-tunneling clamp on
the per-tick translation of each movable body.  The `isfinite(dist)` reset
can never fire over ℝ. -/
noncomputable def checkStepSanity (prev : List (String × Pose2D)) (s : SimState) : SimState :=
  if s.max_step_translation ≤ 0 then s
  else
    let limit := s.max_step_translation
    let res := s.bodies.foldl
      (fun (acc : List (String × Body) × Option String) nb =>
        if ¬ nb.2.can_move then (acc.1 ++ [nb], acc.2)
        else
          match alistLookup prev nb.1 with
          | none => (acc.1 ++ [nb], acc.2)
          | some pv =>
            let dx := nb.2.pose.x - pv.x
            let dy := nb.2.pose.y - pv.y
            let dist := hypotR dx dy
            if limit < dist then
              let body' :=
                if 1 / 10 ^ 9 < dist then
                  { nb.2 with pose := (Pose2D.mk (pv.x + dx * (limit / dist))
                      (pv.y + dy * (limit / dist)) nb.2.pose.theta) }
                else { nb.2 with pose := pv }
              (acc.1 ++ [(nb.1, body')], some "large step clamped")
            else (acc.1 ++ [nb], acc.2))
      ([], s.last_physics_warning)
    { s with bodies := res.1, last_physics_warning := res.2 }

/-! ## Sensor phase, controller phase and stepping (`core/simulator.py`) -/

/-- `Simulator._update_sensors` (lines 606–617): each sensor reads; fresh
readings are collected (with their owners).  The sensor-specific deterministic
value is supplied by `sval` (ray march / field sample / velocity readout as a
function of the sensor name and the current state); the noise term follows
`NoiseProfile.sample` on the simulator's seed-derived RNG.  Returns the new
state together with the list of fresh readings `(name, value, owner)`. -/
noncomputable def updateSensors (sval : String → SimState → ℝ) (noiseFn : ℤ → ℕ → ℝ)
    (s : SimState) (dt : ℝ) : SimState × List (String × ℝ × String) :=
  let res := s.sensors.foldl
    (fun (acc : List (String × SensorState × String) × ℕ × List (String × ℝ × String)) entry =>
      let (name, st, owner) := entry
      let ns := sampleNoise st.noise_bias st.noise_std noiseFn s.rng_seed acc.2.1
      let value := sval name s + ns.1
      let r := sensorRead true value st dt
      let collected := match r.1 with
        | some v => acc.2.2 ++ [(name, v, owner)]
        | none => acc.2.2
      (acc.1 ++ [(name, r.2, owner)],
       (match r.1 with | some _ => ns.2 | none => acc.2.1),
       collected))
    ([], s.rng_count, [])
  ({ s with
      sensors := res.1
      rng_count := res.2.1
      last_sensor_readings := res.2.2.map (fun t => (t.1, t.2.1)) },
   res.2.2)

/-- The controller plugin contract (spec §6): given the robot id, that robot's
sensor readings, `dt` and the step index, a controller issues a sequence of
motor commands and either returns normally (`none`) or raises with a
traceback message (`some msg`); commands issued before the raise persist,
matching in-place mutation up to the exception point. -/
def ControllerFun : Type :=
  String → List (String × ℝ) → ℝ → ℕ → List (String × ℝ) × Option String

/-- `Simulator._record_controller_error` (lines 382–387): a truthy message is
stored under the robot id, a falsy one (`None` or `""`) removes the entry;
`last_controller_error` mirrors the first remaining entry. -/
def recordControllerError (s : SimState) (rid : String) (message : Option String) : SimState :=
  let errs := match message with
    | some m => if m = "" then alistErase s.last_controller_errors rid
                else alistInsert s.last_controller_errors rid m
    | none => alistErase s.last_controller_errors rid
  { s with last_controller_errors := errs,
           last_controller_error := (errs.head?.map Prod.snd) }

/-- `Simulator.clear_controller_error` (lines 937–942). -/
def clearControllerError (s : SimState) (rid : Option String) : SimState :=
  match rid with
  | none => { s with last_controller_errors := [], last_controller_error := none }
  | some r =>
    let errs := alistErase s.last_controller_errors r
    { s with last_controller_errors := errs,
             last_controller_error := (errs.head?.map Prod.snd) }

/-- A motor command issued through a motor handle
(`self.motors[name].command(value, world, dt)`): clamp, store, run the wheel
model on the parent body, write both back.  Unknown motor or parent names
leave the state unchanged (in Python the lookup itself would raise inside the
controller and be recorded as a controller error). -/
noncomputable def applyMotorCommand (s : SimState) (mname : String) (value dt : ℝ) : SimState :=
  match alistLookup s.motors mname with
  | none => s
  | some mp =>
    match alistLookup s.bodies mp.2 with
    | none => s
    | some body =>
      let r := WheelMotor.command mp.1 value body dt (some s.step_index)
      { s with motors := alistUpdate s.motors mname (fun _ => (r.1, mp.2)),
               bodies := alistUpdate s.bodies mp.2 (fun _ => r.2) }

/-- One iteration of the `_tick_controller` loop (lines 622–635) for robot
`rid`: skip when there is no controller with a `step`/`update` method
(`hasController`), skip when a (truthy) controller error is recorded,
otherwise invoke the controller, apply the motor commands it issues and
record its error if it raises.  The second accumulator component instruments
the loop with the robot ids whose controller was actually invoked. -/
noncomputable def tickRobot (hasController : String → Bool) (ctrl : ControllerFun)
    (readingsByRobot : String → List (String × ℝ)) (dt : ℝ)
    (acc : SimState × List String) (rid : String) : SimState × List String :=
  if ¬ hasController rid then acc
  else
    let skip : Bool := match alistLookup acc.1.last_controller_errors rid with
      | some msg => !(msg == "")
      | none => false
    if skip then acc
    else
      let r := ctrl rid (readingsByRobot rid) dt acc.1.step_index
      let st1 := r.1.foldl (fun t c => applyMotorCommand t c.1 c.2 dt) acc.1
      let st2 := match r.2 with
        | some e => recordControllerError st1 rid (some e)
        | none => st1
      (st2, acc.2 ++ [rid])

/-- `Simulator._tick_controller` (lines 619–635): the per-robot loop over
`robot_ids` in order. -/
noncomputable def tickController (hasController : String → Bool) (ctrl : ControllerFun)
    (s : SimState) (readingsByRobot : String → List (String × ℝ)) (dt : ℝ) :
    SimState × List String :=
  s.robot_ids.foldl (tickRobot hasController ctrl readingsByRobot dt) (s, [])

/-- `Simulator.step` (lines 552–579): clear the tick's physics warning, read
sensors, tick controllers, integrate with gravity, solve joints, solve
contacts, apply the anti-tunneling sanity clamp, advance time and the step
index.  (The `last_motor_commands` bookkeeping and optional trace recording
are pure telemetry and are not modeled.) -/
noncomputable def simStep (sval : String → SimState → ℝ) (noiseFn : ℤ → ℕ → ℝ)
    (hasController : String → Bool) (ctrl : ControllerFun) (s : SimState)
    (dtOpt : Option ℝ) : SimState :=
  let dt := match dtOpt with | some d => d | none => s.dt
  let s0 := { s with last_physics_warning := none }
  let prev := s0.bodies.map (fun nb => (nb.1, nb.2.pose))
  let sens := updateSensors sval noiseFn s0 dt
  let readingsByRobot : String → List (String × ℝ) := fun rid =>
    (sens.2.filter (fun t => t.2.2 = rid)).map (fun t => (t.1, t.2.1))
  let s2 := (tickController hasController ctrl sens.1 readingsByRobot dt).1
  let s3 := integrateBodies s2 dt
  let s4 := solveJoints s3 dt
  let s5 := solveContacts s4
  let s6 := checkStepSanity prev s5
  { s6 with time := s6.time + dt, step_index := s6.step_index + 1 }

/-! ## Snapshots (`core/simulator.py` lines 888–924, `core/config.py`) -/

/-- The per-body snapshot record `{pose, lin_vel, ang_vel}`. -/
structure SnapBody where
  pose : Pose2D
  lin_vel : ℝ × ℝ
  ang_vel : ℝ

/-- `SnapshotState`: `{time, step, bodies, controller_state}`. -/
structure SnapshotState where
  time : ℝ
  step : ℕ
  bodies : List (String × SnapBody)
  controller_state : Option ℝ

/-- `Simulator.snapshot`: capture time, step index, every body's pose and
velocities, and the primary controller's `get_state()` (embedded as the
`controller_internal` slot; a `get_state` exception yields `None`, i.e. the
slot itself). -/
noncomputable def snapshot (s : SimState) : SnapshotState :=
  ⟨s.time, s.step_index,
   s.bodies.map (fun nb => (nb.1, ⟨nb.2.pose, (nb.2.vx, nb.2.vy), nb.2.omega⟩)),
   s.controller_internal⟩

/-- `Simulator.apply_snapshot`: restore time and step index, restore pose and
velocities of every snapshot body present in the body table (unknown names
are skipped), and forward a present truthy `controller_state` to the
controller's `set_state` (Python truthiness: a `0.0` state is falsy and is
not forwarded). -/
noncomputable def applySnapshot (s : SimState) (snap : SnapshotState) : SimState :=
  let s1 := { s with time := snap.time, step_index := snap.step }
  let s2 := snap.bodies.foldl
    (fun st nb =>
      if (alistLookup st.bodies nb.1).isSome then
        { st with bodies := alistUpdate st.bodies nb.1 (fun b =>
            { b with pose := nb.2.pose, vx := nb.2.lin_vel.1, vy := nb.2.lin_vel.2,
                     omega := nb.2.ang_vel }) }
      else st) s1
  match snap.controller_state with
  | some cs => if cs = 0 then s2 else { s2 with controller_internal := some cs }
  | none => s2

/-! ## Loading (`core/simulator.py` lines 85–130 and 132–236) -/

/-- The scene configuration consumed by `load`: timestep, seed, gravity and
the constructed body/joint/motor/sensor tables (body construction from the
raw config records is itself a pure function of the configuration). -/
structure WorldCfg where
  timestep : ℝ
  seed : ℤ
  gravity : ℝ × ℝ
  bodies : List (String × Body)
  joints : List JointRuntime
  motors : List (String × WheelMotor × String)
  sensors : List (String × SensorState × String)
  robot_ids : List String

/-- `Simulator.__init__` defaults (the unseeded `random.Random()` is reseeded
by `load` before any draw; its placeholder seed is 0). -/
noncomputable def simInit : SimState :=
  { dt := 1 / 120, gravity := (0, -981 / 100), time := 0, step_index := 0,
    bodies := [], joints := [], motors := [], sensors := [], robot_ids := [],
    last_controller_errors := [], last_controller_error := none,
    last_physics_warning := none, last_sensor_readings := [],
    rng_seed := 0, rng_count := 0, controller_internal := none,
    linear_damping := 995 / 1000, angular_damping := 995 / 1000,
    max_linear_speed := 15, max_angular_speed := 40,
    contact_correction_percent := 1 / 4, contact_slop := 2 / 1000,
    max_penetration_correction := 5 / 100, max_step_translation := 1 / 2 }

/-- `Simulator.load` (lines 132–236): reset time, step index, RNG (seeded from
the scene seed), error/warning state and all tables, install the configured
scene, disable gravity in top-down mode, and tighten the step clamp for
multi-robot scenes. -/
noncomputable def loadSim (cfg : WorldCfg) (top_down : Bool) (s : SimState) : SimState :=
  { s with dt := cfg.timestep,
           gravity := if top_down then (0, 0) else cfg.gravity,
           time := 0, step_index := 0,
           rng_seed := cfg.seed, rng_count := 0,
           last_controller_error := none, last_controller_errors := [],
           last_physics_warning := none,
           bodies := cfg.bodies, joints := cfg.joints, motors := cfg.motors,
           sensors := cfg.sensors, robot_ids := cfg.robot_ids,
           last_sensor_readings := [],
           max_step_translation := if 1 < cfg.robot_ids.length then 1 / 4 else 1 / 2,
           contact_correction_percent := 1 / 4 }

/-- Run a simulator through a sequence of ticks; each element supplies the
tick's `dt` and the external motor command sequence issued before that
`step(dt)` call. -/
noncomputable def runSim (sval : String → SimState → ℝ) (noiseFn : ℤ → ℕ → ℝ)
    (hasController : String → Bool) (ctrl : ControllerFun) (s : SimState) :
    List (ℝ × List (String × ℝ)) → SimState
  | [] => s
  | (dt, cmds) :: rest =>
    let s1 := cmds.foldl (fun st c => applyMotorCommand st c.1 c.2 dt) s
    runSim sval noiseFn hasController ctrl
      (simStep sval noiseFn hasController ctrl s1 (some dt)) rest

/-- The pose/velocity trajectory observation of C5: every body's pose, linear
velocity and angular velocity. -/
noncomputable def poseVelObs (s : SimState) : List (String × Pose2D × (ℝ × ℝ) × ℝ) :=
  s.bodies.map (fun nb => (nb.1, nb.2.pose, (nb.2.vx, nb.2.vy), nb.2.omega))

/-- `k` ticks of `Sensor.read` with a fixed timestep, the sensor-specific
value of tick `i` supplied by `vf i`. -/
noncomputable def sensorIter (vf : ℕ → ℝ) (dt : ℝ) (s0 : SensorState) : ℕ → SensorState
  | 0 => s0
  | k + 1 => (sensorRead true (vf (k + 1)) (sensorIter vf dt s0 k) dt).2

/-- The validity predicate of C6's nondegenerate contacts: circle radii are
nonnegative, and in a circle–polygon contact the circle center does not lie
exactly on the nearest polygon boundary feature. -/
def NondegContact : Shape2D → Pose2D → Shape2D → Pose2D → Prop
  | .circle ra, _, .circle rb, _ => 0 ≤ ra ∧ 0 ≤ rb
  | .circle _, pa, .poly vb, pb =>
      ∀ d cp, closestFeature (pa.x, pa.y) (worldVertices vb pb) = some (d, cp) →
        cp ≠ (pa.x, pa.y)
  | .poly va, pa, .circle _, pb =>
      ∀ d cp, closestFeature (pb.x, pb.y) (worldVertices va pa) = some (d, cp) →
        cp ≠ (pb.x, pb.y)
  | .poly _, _, .poly _, _ => True

/-- The per-body conclusion of C7: a movable body's linear speed is within
`bound` and its angular speed within `maxA`. -/
def SpeedBounded (maxA bound : ℝ) (b : Body) : Prop :=
  b.can_move = true → hypotR b.vx b.vy ≤ bound ∧ |b.omega| ≤ maxA

/-- The entry hypothesis of C7: no pending forces or torque, and movable
bodies have positive mass (as every loaded scene provides). -/
def CleanBody (b : Body) : Prop :=
  b.fx = 0 ∧ b.fy = 0 ∧ b.torque = 0 ∧ (b.can_move = true → 0 < b.mass)

/-! ## Concrete sample data used to instantiate the theorems -/

/-- A concrete movable unit body at the origin. -/
noncomputable def sampleBody : Body :=
  { can_move := true, mass := 1, moment_of_inertia := 1, pose := Pose2D.ident,
    vx := 0, vy := 0, omega := 0, fx := 0, fy := 0, torque := 0,
    restitution := 1 / 10, friction := 1 / 2, shape := .circle 1 }

/-- A concrete wheel motor with the `WheelMotor.__init__` defaults. -/
noncomputable def sampleMotor : WheelMotor :=
  { max_command := 1, last_command := 0, max_force := 2, mu_long := 9 / 10,
    mu_lat := 8 / 10, g_equiv := 981 / 100, normal_force := none,
    lateral_damping := 1 / 4, wheel_count := 2, wheel_radius := 3 / 100,
    response_time := 1 / 20, max_wheel_omega := 40, mount_pose := Pose2D.ident,
    angular_speed := 0, last_report := none }

/-- Single-body simulator state (default `__init__` tunables, gravity on) with
one movable body of mass 2 moving downward at the linear speed limit. -/
noncomputable def cxStateC7 : SimState :=
  { simInit with bodies := [("b", { sampleBody with mass := 2, vy := -15 })] }

/-- The single body of `cxStateC7` after one `simStep` with the default
timestep: damping then gravity leave it one gravity increment past the
linear speed limit. -/
noncomputable def cxBodyC7 : Body :=
  { can_move := true, mass := 2, moment_of_inertia := 1,
    pose := ⟨0, -20009 / 160000, 0⟩, vx := 0, vy := -60027 / 4000, omega := 0,
    fx := 0, fy := 0, torque := 0, restitution := 1 / 10, friction := 1 / 2,
    shape := .circle 1 }

/-- A trivial sensor-value model: every sensor reads 0. -/
noncomputable def svalZero : String → SimState → ℝ := fun _ _ => 0

/-- A trivial RNG stream: every Gaussian draw is 0. -/
noncomputable def noiseZero : ℤ → ℕ → ℝ := fun _ _ => 0

/-- A controller that issues no motor commands and never raises. -/
def ctrlIdle : ControllerFun := fun _ _ _ _ => ([], none)

/-- A controller that issues no motor commands and always raises. -/
def ctrlBoom : ControllerFun := fun _ _ _ _ => ([], some "boom traceback")

/-- A two-robot simulator state with a recorded controller error for
`robot_1`. -/
noncomputable def cxStateC3 : SimState :=
  { simInit with robot_ids := ["robot_1", "robot_2"],
                 last_controller_errors := [("robot_1", "old traceback")],
                 last_controller_error := some "old traceback" }

/-- An empty concrete scene configuration. -/
noncomputable def sampleCfg : WorldCfg :=
  { timestep := 1 / 120, seed := 7, gravity := (0, -981 / 100), bodies := [],
    joints := [], motors := [], sensors := [], robot_ids := [] }

/-- A concrete sensor at 50 Hz with no accumulated time and no reading. -/
noncomputable def sampleSensor : SensorState :=
  { update_period := 1 / 50, time_since_update := 0, last_reading := none,
    noise_bias := 0, noise_std := 0 }

end SimEnv

open SimEnv

/-- Clamping into `[-L, L]` lands in `[-L, L]` when `0 ≤ L`. -/
theorem clamp_abs_le (v L : ℝ) (hL : 0 ≤ L) : |max (-L) (min L v)| ≤ L := by
  rw [abs_le]
  exact ⟨le_max_left _ _, max_le (by linarith) (min_le_left _ _)⟩

/-- `WheelMotor._apply` never touches `_last_command`. -/
theorem applyCmd_last_command (m : WheelMotor) (v : ℝ) (p : Body) (dt : ℝ) (si : Option ℕ) :
    (WheelMotor.applyCmd m v p dt si).1.last_command = m.last_command := by
  unfold WheelMotor.applyCmd
  by_cases h : p.can_move <;> simp [h]

/-- C10: for every motor and every real commanded value `v` (also outside
`[-1, 1]`), `Motor.command` clamps `v` into `[-max_command, max_command]`
before applying it, so `last_command` always lies in that interval (for
`WheelMotor`, `max_command = 1`).  The embedding is a total function, the
counterpart of "never raises".  (`0 ≤ max_command` holds for every motor the
code constructs: `WheelMotor` passes 1.0 and presets are positive.) -/
theorem motor_command_clamps (m : WheelMotor) (v : ℝ) (parent : Body) (dt : ℝ)
    (si : Option ℕ) (h : 0 ≤ m.max_command) :
    (WheelMotor.command m v parent dt si).1.last_command =
      max (-m.max_command) (min m.max_command v) ∧
    -m.max_command ≤ (WheelMotor.command m v parent dt si).1.last_command ∧
    (WheelMotor.command m v parent dt si).1.last_command ≤ m.max_command := by
  have hlc : (WheelMotor.command m v parent dt si).1.last_command =
      max (-m.max_command) (min m.max_command v) := by
    unfold WheelMotor.command
    rw [applyCmd_last_command]
  refine ⟨hlc, ?_, ?_⟩
  · rw [hlc]; exact le_max_left _ _
  · rw [hlc]
    exact max_le (by linarith) (min_le_left _ _)

/-- C10 witness: the clamp theorem at the sample motor and an out-of-range
command 5. -/
theorem motor_command_clamps_witness :
    (0 : ℝ) ≤ sampleMotor.max_command ∧
    ((WheelMotor.command sampleMotor 5 sampleBody (1 / 100) none).1.last_command =
        max (-sampleMotor.max_command) (min sampleMotor.max_command 5) ∧
      -sampleMotor.max_command ≤
        (WheelMotor.command sampleMotor 5 sampleBody (1 / 100) none).1.last_command ∧
      (WheelMotor.command sampleMotor 5 sampleBody (1 / 100) none).1.last_command ≤
        sampleMotor.max_command) :=
  ⟨by norm_num [sampleMotor],
   motor_command_clamps sampleMotor 5 sampleBody (1 / 100) none
     (by norm_num [sampleMotor])⟩

/-- C5: two simulator instances loaded from the same scene configuration that
receive identical `step(dt)` sequences and identical external motor command
sequences produce identical pose/velocity trajectories at every tick.  The
embedded pipeline is a pure state-transition function; the only random source,
the seed-derived RNG, is threaded through the state as a seed plus draw
counter, and both the sensor model `sval` and the Gaussian stream `noiseFn`
are fixed deterministic functions, so the two runs agree definitionally. -/
theorem determinism_identical_runs (sval : String → SimState → ℝ) (noiseFn : ℤ → ℕ → ℝ)
    (hasC : String → Bool) (ctrl : ControllerFun) (cfg : WorldCfg) (top_down : Bool)
    (cmds₁ cmds₂ : List (ℝ × List (String × ℝ))) (h : cmds₁ = cmds₂) (k : ℕ) :
    poseVelObs (runSim sval noiseFn hasC ctrl (loadSim cfg top_down simInit) (cmds₁.take k)) =
    poseVelObs (runSim sval noiseFn hasC ctrl (loadSim cfg top_down simInit) (cmds₂.take k)) := by
  subst h
  rfl

/-- C5 witness: determinism at the empty sample scene over two (equal) empty
command sequences. -/
theorem determinism_identical_runs_witness :
    poseVelObs (runSim svalZero noiseZero (fun _ => false) ctrlIdle
      (loadSim sampleCfg true simInit) (List.take 3 [])) =
    poseVelObs (runSim svalZero noiseZero (fun _ => false) ctrlIdle
      (loadSim sampleCfg true simInit) (List.take 3 [])) :=
  determinism_identical_runs svalZero noiseZero (fun _ => false) ctrlIdle sampleCfg true
    [] [] rfl 3

/-- C2: in contact resolution for a colliding pair with at least one movable
body: if the relative velocity along the contact normal is separating
(positive), the velocity/friction stage is skipped (`none`: no velocity
impulse); otherwise the normal impulse magnitude equals
`(1 + e) * |v_n| / (inv_mass_a + inv_mass_b)` with
`e = clamp(max(restitution_a, restitution_b), 0, 1)`, and the tangential
friction impulse applied afterwards has magnitude at most
`mu_avg * |normal impulse|`, `mu_avg` the arithmetic mean of the two
materials' friction coefficients (nonnegative, as all materials are). -/
theorem contact_impulse_resolution (a b : Body) (n : ℝ × ℝ)
    (hm : a.can_move = true ∨ b.can_move = true)
    (hfa : 0 ≤ a.friction) (hfb : 0 ≤ b.friction) :
    (0 < (a.vx - b.vx) * n.1 + (a.vy - b.vy) * n.2 →
      contactVelocityUpdate a b n = none) ∧
    (¬ 0 < (a.vx - b.vx) * n.1 + (a.vy - b.vy) * n.2 →
      ∃ a2 b2 j jt, contactVelocityUpdate a b n = some (a2, b2, j, jt) ∧
        |j| = (1 + max 0 (min 1 (max a.restitution b.restitution))) *
            |(a.vx - b.vx) * n.1 + (a.vy - b.vy) * n.2| /
            (contactInvMass a + contactInvMass b) ∧
        |jt| ≤ (a.friction + b.friction) / 2 * |j|) := by
  constructor
  · intro hsep
    unfold contactVelocityUpdate
    rw [if_pos hsep]
  · intro hns
    unfold contactVelocityUpdate
    rw [if_neg hns]
    refine ⟨_, _, _, _, rfl, ?_, ?_⟩
    · have he : 0 ≤ max 0 (min 1 (max a.restitution b.restitution)) := le_max_left _ _
      have hsum : 0 ≤ contactInvMass a + contactInvMass b := by
        have ha : 0 ≤ contactInvMass a := by
          unfold contactInvMass
          split
          · exact le_refl 0
          · positivity
        have hb : 0 ≤ contactInvMass b := by
          unfold contactInvMass
          split
          · exact le_refl 0
          · positivity
        linarith
      rw [abs_div, abs_mul, abs_neg]
      rw [abs_of_nonneg (by linarith : (0:ℝ) ≤ 1 + max 0 (min 1 (max a.restitution b.restitution)))]
      rw [abs_of_nonneg hsum]
    · have hj : 0 ≤ (a.friction + b.friction) / 2 *
          |-(1 + max 0 (min 1 (max a.restitution b.restitution))) *
            ((a.vx - b.vx) * n.1 + (a.vy - b.vy) * n.2) /
            (contactInvMass a + contactInvMass b)| := by
        have : 0 ≤ (a.friction + b.friction) / 2 := by linarith
        positivity
      calc _ ≤ (1 / 2 * (a.friction + b.friction)) *
            |-(1 + max 0 (min 1 (max a.restitution b.restitution))) *
              ((a.vx - b.vx) * n.1 + (a.vy - b.vy) * n.2) /
              (contactInvMass a + contactInvMass b)| := by
              apply clamp_abs_le
              have : 0 ≤ 1 / 2 * (a.friction + b.friction) := by linarith
              positivity
        _ = _ := by ring

/-- C2 witness: the contact resolution theorem at a concrete approaching
pair (a movable sample body moving with `v_x = -1` into a static copy, normal
`(1, 0)`). -/
theorem contact_impulse_resolution_witness :
    (sampleBody.can_move = true ∨ sampleBody.can_move = true) ∧
    ¬ 0 < (({ sampleBody with vx := -1 } : Body).vx - sampleBody.vx) * (1 : ℝ) +
        (({ sampleBody with vx := -1 } : Body).vy - sampleBody.vy) * (0 : ℝ) ∧
    (∃ a2 b2 j jt,
      contactVelocityUpdate { sampleBody with vx := -1 } sampleBody ((1 : ℝ), (0 : ℝ)) =
        some (a2, b2, j, jt) ∧
      |j| = (1 + max 0 (min 1 (max ({ sampleBody with vx := -1 } : Body).restitution
            sampleBody.restitution))) *
          |(({ sampleBody with vx := -1 } : Body).vx - sampleBody.vx) * (1 : ℝ) +
            (({ sampleBody with vx := -1 } : Body).vy - sampleBody.vy) * (0 : ℝ)| /
          (contactInvMass { sampleBody with vx := -1 } + contactInvMass sampleBody) ∧
      |jt| ≤ (({ sampleBody with vx := -1 } : Body).friction + sampleBody.friction) / 2 * |j|) := by
  have hm : ({ sampleBody with vx := -1 } : Body).can_move = true ∨
      sampleBody.can_move = true := by
    left
    norm_num [sampleBody]
  have hns : ¬ 0 < (({ sampleBody with vx := -1 } : Body).vx - sampleBody.vx) * (1 : ℝ) +
      (({ sampleBody with vx := -1 } : Body).vy - sampleBody.vy) * (0 : ℝ) := by
    norm_num [sampleBody]
  refine ⟨by norm_num [sampleBody], hns, ?_⟩
  exact (contact_impulse_resolution { sampleBody with vx := -1 } sampleBody (1, 0) hm
    (by norm_num [sampleBody]) (by norm_num [sampleBody])).2 hns

/-- C1 (amended): for every wheel motor and tick, whenever the traction
budget is positive (`0 < mu_long`, `0 < normal_load`, `0 < dt`), the
longitudinal impulse the traction solver applies satisfies
`|applied_longitudinal_impulse| ≤ mu_long * normal_load * dt`, regardless of
the commanded magnitude and of the drive-force budget.  (When the traction
budget is exactly zero, `_solve_wheel_traction` instead falls back to the
drive-impulse cap alone — see the counterexample.) -/
theorem traction_impulse_within_cone (body : Body) (contact forward : ℝ × ℝ)
    (pref cap mu_long mu_lat N damp dt : ℝ)
    (hmu : 0 < mu_long) (hN : 0 < N) (hdt : 0 < dt) :
    |(solveWheelTraction body contact forward pref cap mu_long mu_lat N damp
        dt).2.applied_longitudinal_impulse| ≤ mu_long * N * dt := by
  have hprod : 0 < mu_long * N * dt := by positivity
  have hlim : ∀ mlat dc jl,
      longitudinalLimit (mu_long * N * dt) mlat dc jl ≤ mu_long * N * dt ∧
      0 < longitudinalLimit (mu_long * N * dt) mlat dc jl := by
    intro mlat dc jl
    unfold longitudinalLimit
    by_cases hcpl : 0 < mu_long * N * dt ∧ 0 < mlat
    · have hden : (0:ℝ) < mlat + 1 / 10 ^ 9 := by
        have := hcpl.2
        positivity
      have hq : 0 ≤ |jl| / (mlat + 1 / 10 ^ 9) := div_nonneg (abs_nonneg _) hden.le
      have hr1 : min 1 (|jl| / (mlat + 1 / 10 ^ 9)) ≤ 1 := min_le_left _ _
      have hr0 : 0 ≤ min 1 (|jl| / (mlat + 1 / 10 ^ 9)) := le_min (by norm_num) hq
      have hf1 : max 0 (1 - 1 / 2 * min 1 (|jl| / (mlat + 1 / 10 ^ 9))) ≤ 1 :=
        max_le (by norm_num) (by linarith)
      have hf0 : (1:ℝ) / 2 ≤ max 0 (1 - 1 / 2 * min 1 (|jl| / (mlat + 1 / 10 ^ 9))) :=
        le_max_of_le_right (by linarith)
      have hl1le : mu_long * N * dt * max 0 (1 - 1 / 2 * min 1 (|jl| / (mlat + 1 / 10 ^ 9))) ≤
          mu_long * N * dt := by
        nlinarith
      have hl1pos : 0 < mu_long * N * dt *
          max 0 (1 - 1 / 2 * min 1 (|jl| / (mlat + 1 / 10 ^ 9))) := by
        nlinarith
      simp only [if_pos hcpl]
      by_cases hdcp : 0 < dc
      · rw [if_pos hdcp, if_pos hl1pos]
        exact ⟨le_trans (min_le_left _ _) hl1le, lt_min hl1pos hdcp⟩
      · rw [if_neg hdcp]
        exact ⟨hl1le, hl1pos⟩
    · simp only [if_neg hcpl]
      by_cases hdcp : 0 < dc
      · rw [if_pos hdcp, if_pos hprod]
        exact ⟨le_trans (min_le_left _ _) le_rfl, lt_min hprod hdcp⟩
      · rw [if_neg hdcp]
        exact ⟨le_rfl, hprod⟩
  have hdrive : ∀ d mlat dc jl,
      |driveClamp d (longitudinalLimit (mu_long * N * dt) mlat dc jl)| ≤ mu_long * N * dt := by
    intro d mlat dc jl
    unfold driveClamp
    obtain ⟨hle, hpos⟩ := hlim mlat dc jl
    rw [if_pos hpos]
    exact le_trans (clamp_abs_le d _ hpos.le) hle
  unfold solveWheelTraction
  by_cases hcm : body.can_move
  · simp only [hcm, not_true_eq_false, if_false, Bool.not_true, ite_false, ite_true]
    simp only [max_eq_left hN.le, abs_of_pos hmu, max_eq_right hprod.le]
    split_ifs <;> simp only [] <;>
      first
        | (rw [abs_zero]; exact hprod.le)
        | apply hdrive
  · simp [hcm, hprod.le]

/-- C1 witness: the friction-cone bound at a concrete wheel contact
(`mu_long = 0.9`, `normal_load = 1`, `dt = 0.01`). -/
theorem traction_impulse_within_cone_witness :
    (0 : ℝ) < 9 / 10 ∧ (0 : ℝ) < 1 ∧ (0 : ℝ) < 1 / 100 ∧
    |(solveWheelTraction sampleBody (0, 0) (1, 0) 1 1 (9 / 10) (8 / 10) 1 (1 / 4)
        (1 / 100)).2.applied_longitudinal_impulse| ≤ 9 / 10 * 1 * (1 / 100) :=
  ⟨by norm_num, by norm_num, by norm_num,
   traction_impulse_within_cone sampleBody (0, 0) (1, 0) 1 1 (9 / 10) (8 / 10) 1 (1 / 4)
     (1 / 100) (by norm_num) (by norm_num) (by norm_num)⟩

/-- C1 counterexample: with a zero traction budget (`mu_long = 0`,
`normal_load = 1`, `dt = 1`) but a positive drive budget
(`drive_impulse_cap = 1`), `_solve_wheel_traction` falls back to the drive cap
(`long_limit = min(...) if long_limit > 0.0 else drive_cap`) and applies a
full unit of longitudinal impulse, violating
`|applied_longitudinal_impulse| ≤ mu_long * normal_load * dt = 0`. -/
theorem traction_cone_counterexample :
    (solveWheelTraction sampleBody (0, 0) (1, 0) 1 1 0 0 1 0
        1).2.applied_longitudinal_impulse = 1 ∧
    ¬ (|(solveWheelTraction sampleBody (0, 0) (1, 0) 1 1 0 0 1 0
        1).2.applied_longitudinal_impulse| ≤ 0 * 1 * 1) := by
  have h : (solveWheelTraction sampleBody (0, 0) (1, 0) 1 1 0 0 1 0
      1).2.applied_longitudinal_impulse = 1 := by
    norm_num [solveWheelTraction, contactVelocity, invMassTerm, applyImpulse, clampF,
      longitudinalLimit, driveClamp, sampleBody, Pose2D.ident]
  refine ⟨h, ?_⟩
  rw [h]
  norm_num

/-- `Sensor.should_update` with a nonzero period accumulates and compares. -/
theorem shouldUpdate_spec (s : SensorState) (dt : ℝ) (hp : s.update_period ≠ 0) :
    shouldUpdate s dt =
      if s.update_period ≤ s.time_since_update + dt
      then (true, { s with time_since_update := 0 })
      else (false, { s with time_since_update := s.time_since_update + dt }) := by
  unfold shouldUpdate
  rw [if_neg hp]

/-- `Sensor.read` never changes the configured update period. -/
theorem sensorRead_period (hp : Bool) (v : ℝ) (s : SensorState) (dt : ℝ) :
    (sensorRead hp v s dt).2.update_period = s.update_period := by
  simp only [sensorRead, shouldUpdate]
  split_ifs <;> rfl

/-- If `k mod n` is one short of `n`, then `n` divides `k + 1`. -/
theorem mod_succ_eq_dvd (k n : ℕ) (h : k % n + 1 = n) : n ∣ (k + 1) := by
  have h1 : (k + 1) ≡ (k % n + 1) [MOD n] :=
    Nat.ModEq.add_right 1 (Nat.mod_modEq k n).symm
  rw [h] at h1
  exact Nat.modEq_zero_iff_dvd.mp (h1.trans (Nat.modEq_zero_iff_dvd.mpr dvd_rfl))

/-- If `n` divides `k + 1` (`0 < n`), then `k mod n` is one short of `n`. -/
theorem dvd_mod_succ_eq (k n : ℕ) (hn : 0 < n) (h : n ∣ (k + 1)) : k % n + 1 = n := by
  have h1 : (k % n + 1) ≡ 0 [MOD n] :=
    (Nat.ModEq.add_right 1 (Nat.mod_modEq k n)).trans (Nat.modEq_zero_iff_dvd.mpr h)
  have h2 : (k % n + 1) % n = 0 := by
    have := h1
    unfold Nat.ModEq at this
    simpa using this
  have hlt : k % n < n := Nat.mod_lt _ hn
  rcases Nat.lt_or_ge (k % n + 1) n with h3 | h3
  · rw [Nat.mod_eq_of_lt h3] at h2
    omega
  · omega

/-- The integer threshold behind the sample-and-hold cadence: with positive
period and timestep, a full period has accumulated after `m + 1` ticks iff
`⌈period / dt⌉ ≤ m + 1`. -/
theorem period_threshold (R dt : ℝ) (hR : 0 < R) (hdt : 0 < dt) (m : ℕ) :
    (1 / R ≤ (m + 1 : ℕ) * dt) ↔ ((⌈(1 / R) / dt⌉).toNat ≤ m + 1) := by
  have hq : 0 < (1 / R) / dt := by positivity
  have hcpos : 0 < ⌈(1 / R) / dt⌉ := Int.ceil_pos.mpr hq
  constructor
  · intro h
    have h2 : ⌈(1 / R) / dt⌉ ≤ ((m + 1 : ℕ) : ℤ) := by
      apply Int.ceil_le.mpr
      rw [div_le_iff₀ hdt]
      push_cast
      push_cast at h
      linarith
    omega
  · intro h
    have h2 : ⌈(1 / R) / dt⌉ ≤ ((m + 1 : ℕ) : ℤ) := by omega
    have h3 := Int.ceil_le.mp h2
    rw [div_le_iff₀ hdt] at h3
    push_cast at h3
    push_cast
    linarith

/-- The accumulator of the iterated sensor: after `k` ticks of fixed `dt` it
holds `(k mod n) * dt`, `n = ⌈(1/R)/dt⌉`. -/
theorem sensorIter_time (R dt : ℝ) (hR : 0 < R) (hdt : 0 < dt) (vf : ℕ → ℝ) (l0 : Option ℝ) :
    ∀ k : ℕ,
      (sensorIter vf dt ⟨1 / R, 0, l0, 0, 0⟩ k).update_period = 1 / R ∧
      (sensorIter vf dt ⟨1 / R, 0, l0, 0, 0⟩ k).time_since_update =
        ((k % (⌈(1 / R) / dt⌉).toNat : ℕ) : ℝ) * dt := by
  have hq : 0 < (1 / R) / dt := by positivity
  have hcpos : 0 < ⌈(1 / R) / dt⌉ := Int.ceil_pos.mpr hq
  have hn : 0 < (⌈(1 / R) / dt⌉).toNat := by omega
  have hper : (0:ℝ) < 1 / R := by positivity
  intro k
  induction k with
  | zero =>
    refine ⟨rfl, ?_⟩
    show (0:ℝ) = _
    simp
  | succ k ih =>
    obtain ⟨ihp, iht⟩ := ih
    have hstep : sensorIter vf dt ⟨1 / R, 0, l0, 0, 0⟩ (k + 1) =
        (sensorRead true (vf (k + 1)) (sensorIter vf dt ⟨1 / R, 0, l0, 0, 0⟩ k) dt).2 := rfl
    set s := sensorIter vf dt ⟨1 / R, 0, l0, 0, 0⟩ k with hs
    set n := (⌈(1 / R) / dt⌉).toNat with hndef
    have hlt : k % n < n := Nat.mod_lt _ hn
    have hcond : (s.update_period ≤ s.time_since_update + dt) ↔ (n ∣ (k + 1)) := by
      rw [ihp, iht]
      have harith : ((k % n : ℕ) : ℝ) * dt + dt = ((k % n + 1 : ℕ) : ℝ) * dt := by
        push_cast
        ring
      rw [harith, period_threshold R dt hR hdt (k % n)]
      constructor
      · intro h
        exact mod_succ_eq_dvd k n (by omega)
      · intro h
        have := dvd_mod_succ_eq k n hn h
        omega
    have hne' : s.update_period ≠ 0 := by rw [ihp]; exact ne_of_gt hper
    have hrw : sensorRead true (vf (k + 1)) s dt =
        (if s.update_period ≤ s.time_since_update + dt
          then (some (vf (k + 1)), { ({ s with time_since_update := 0 } : SensorState) with
            last_reading := some (vf (k + 1)) })
          else (none, { s with time_since_update := s.time_since_update + dt })) := by
      unfold sensorRead
      rw [shouldUpdate_spec s dt hne']
      by_cases hcnd : s.update_period ≤ s.time_since_update + dt
      · rw [if_pos hcnd, if_pos hcnd]
        simp
      · rw [if_neg hcnd, if_neg hcnd]
        simp
    by_cases hc : s.update_period ≤ s.time_since_update + dt
    · have hdvd := hcond.mp hc
      rw [hstep, hrw, if_pos hc]
      refine ⟨ihp, ?_⟩
      have hz : (k + 1) % n = 0 := (Nat.modEq_zero_iff_dvd.mpr hdvd)
      rw [hz]
      simp
    · have hndvd : ¬ n ∣ (k + 1) := fun h => hc (hcond.mpr h)
      rw [hstep, hrw, if_neg hc]
      refine ⟨ihp, ?_⟩
      have hne : k % n + 1 ≠ n := fun h => hndvd (mod_succ_eq_dvd k n h)
      have hlt2 : k % n + 1 < n := by omega
      have hmod : (k + 1) % n = k % n + 1 := by
        have h1 : (k + 1) % n = (k % n + 1) % n :=
          (Nat.ModEq.add_right 1 (Nat.mod_modEq k n)).symm
        rw [h1, Nat.mod_eq_of_lt hlt2]
      rw [iht, hmod]
      push_cast
      ring

/-- C4: for a sensor with positive update rate `R` stepped with fixed
timestep `dt` (tick `k+1` reads value `vf (k+1)`): `read` returns a fresh
reading at tick `k+1` iff `⌈(1/R)/dt⌉` divides `k+1` (so exactly once per
`⌈(1/R)/dt⌉` ticks); it returns `None` exactly on the ticks where the time
accumulated since the last returned reading is still less than the period
`1/R`; on `None` ticks `last_reading` continues to hold the previous reading;
and each returned reading resets the accumulator to zero. -/
theorem sensor_sample_and_hold (R dt : ℝ) (hR : 0 < R) (hdt : 0 < dt)
    (vf : ℕ → ℝ) (l0 : Option ℝ) (k : ℕ) :
    ((sensorRead true (vf (k + 1)) (sensorIter vf dt ⟨1 / R, 0, l0, 0, 0⟩ k) dt).1 =
        some (vf (k + 1)) ↔ (⌈(1 / R) / dt⌉).toNat ∣ (k + 1)) ∧
    ((sensorRead true (vf (k + 1)) (sensorIter vf dt ⟨1 / R, 0, l0, 0, 0⟩ k) dt).1 = none ↔
      (sensorIter vf dt ⟨1 / R, 0, l0, 0, 0⟩ k).time_since_update + dt < 1 / R) ∧
    ((sensorRead true (vf (k + 1)) (sensorIter vf dt ⟨1 / R, 0, l0, 0, 0⟩ k) dt).1 = none →
      (sensorIter vf dt ⟨1 / R, 0, l0, 0, 0⟩ (k + 1)).last_reading =
        (sensorIter vf dt ⟨1 / R, 0, l0, 0, 0⟩ k).last_reading) ∧
    ((sensorRead true (vf (k + 1)) (sensorIter vf dt ⟨1 / R, 0, l0, 0, 0⟩ k) dt).1 =
        some (vf (k + 1)) →
      (sensorIter vf dt ⟨1 / R, 0, l0, 0, 0⟩ (k + 1)).time_since_update = 0) := by
  obtain ⟨ihp, iht⟩ := sensorIter_time R dt hR hdt vf l0 k
  have hq : 0 < (1 / R) / dt := by positivity
  have hn : 0 < (⌈(1 / R) / dt⌉).toNat := by
    have := Int.ceil_pos.mpr hq
    omega
  have hper : (0:ℝ) < 1 / R := by positivity
  set s := sensorIter vf dt ⟨1 / R, 0, l0, 0, 0⟩ k with hs
  set n := (⌈(1 / R) / dt⌉).toNat with hndef
  have hlt : k % n < n := Nat.mod_lt _ hn
  have hcond : (s.update_period ≤ s.time_since_update + dt) ↔ (n ∣ (k + 1)) := by
    rw [ihp, iht]
    have harith : ((k % n : ℕ) : ℝ) * dt + dt = ((k % n + 1 : ℕ) : ℝ) * dt := by
      push_cast
      ring
    rw [harith, period_threshold R dt hR hdt (k % n)]
    constructor
    · intro h
      exact mod_succ_eq_dvd k n (by omega)
    · intro h
      have := dvd_mod_succ_eq k n hn h
      omega
  have hne' : s.update_period ≠ 0 := by rw [ihp]; exact ne_of_gt hper
  have hrw : sensorRead true (vf (k + 1)) s dt =
      (if s.update_period ≤ s.time_since_update + dt
        then (some (vf (k + 1)), { ({ s with time_since_update := 0 } : SensorState) with
          last_reading := some (vf (k + 1)) })
        else (none, { s with time_since_update := s.time_since_update + dt })) := by
    unfold sensorRead
    rw [shouldUpdate_spec s dt hne']
    by_cases hcnd : s.update_period ≤ s.time_since_update + dt
    · rw [if_pos hcnd, if_pos hcnd]
      simp
    · rw [if_neg hcnd, if_neg hcnd]
      simp
  have hstep : sensorIter vf dt ⟨1 / R, 0, l0, 0, 0⟩ (k + 1) =
      (sensorRead true (vf (k + 1)) s dt).2 := rfl
  by_cases hc : s.update_period ≤ s.time_since_update + dt
  · refine ⟨⟨fun _ => hcond.mp hc, fun _ => by rw [hrw, if_pos hc]⟩, ?_, ?_, ?_⟩
    · constructor
      · intro hnone
        rw [hrw, if_pos hc] at hnone
        simp at hnone
      · intro hlt'
        rw [ihp] at hc
        linarith
    · intro hnone
      rw [hrw, if_pos hc] at hnone
      simp at hnone
    · intro _
      rw [hstep, hrw, if_pos hc]
  · have hnd : ¬ n ∣ (k + 1) := fun h => hc (hcond.mpr h)
    refine ⟨⟨?_, fun h => absurd h hnd⟩, ⟨fun _ => ?_, fun _ => by rw [hrw, if_neg hc]⟩,
      fun _ => ?_, ?_⟩
    · intro hsome
      rw [hrw, if_neg hc] at hsome
      simp at hsome
    · rw [ihp] at hc
      linarith
    · rw [hstep, hrw, if_neg hc]
    · intro hsome
      rw [hrw, if_neg hc] at hsome
      simp at hsome

/-- C4 witness: the sample-and-hold theorem at `R = 50 Hz`, `dt = 0.01 s`,
tick 2 (`n = ⌈2⌉ = 2` divides 2). -/
theorem sensor_sample_and_hold_witness :
    (0 : ℝ) < 50 ∧ (0 : ℝ) < 1 / 100 ∧
    ((sensorRead true ((fun _ => (0:ℝ)) 2)
        (sensorIter (fun _ => (0:ℝ)) (1 / 100) ⟨1 / 50, 0, none, 0, 0⟩ 1) (1 / 100)).1 =
          some ((fun _ => (0:ℝ)) 2) ↔
      (⌈(1 / 50 : ℝ) / (1 / 100)⌉).toNat ∣ 2) :=
  ⟨by norm_num, by norm_num,
   (sensor_sample_and_hold 50 (1 / 100) (by norm_num) (by norm_num) (fun _ => 0) none 1).1⟩

/-- Folding a step that preserves a predicate preserves it. -/
theorem foldl_preserves {α β : Type} (P : β → Prop) (f : β → α → β) (l : List α)
    (h : ∀ b a, P b → P (f b a)) : ∀ b, P b → P (List.foldl f b l) := by
  induction l with
  | nil => intro b hb; exact hb
  | cons hd tl ih => intro b hb; exact ih _ (h b hd hb)

/-- Unfolding an association-list lookup over a cons cell. -/
theorem alistLookup_cons {α : Type} (hd : String × α) (tl : List (String × α)) (k : String) :
    alistLookup (hd :: tl) k = if hd.1 = k then some hd.2 else alistLookup tl k := by
  unfold alistLookup
  by_cases hh : hd.1 = k <;> simp [List.find?, hh]

/-- A lookup is `none` exactly when the underlying `find?` misses. -/
theorem alistLookup_none_iff {α : Type} (l : List (String × α)) (k : String) :
    alistLookup l k = none ↔ ¬ (l.find? (fun p => p.1 = k)).isSome = true := by
  unfold alistLookup
  cases l.find? (fun p => p.1 = k) <;> simp

/-- Looking up the freshly inserted key. -/
theorem alistLookup_insert_self {α : Type} (l : List (String × α)) (k : String) (v : α) :
    alistLookup (alistInsert l k v) k = some v := by
  unfold alistInsert
  split_ifs with h
  · revert h
    induction l with
    | nil =>
      intro h
      simp at h
    | cons hd tl ih =>
      intro h
      rw [List.map_cons]
      by_cases hh : hd.1 = k
      · rw [show (if hd.1 = k then (k, v) else hd) = (k, v) from if_pos hh, alistLookup_cons]
        simp
      · have h' : (List.find? (fun p => decide (p.1 = k)) tl).isSome = true := by
          rw [List.find?_cons_of_neg] at h
          · exact h
          · simp [hh]
        rw [show (if hd.1 = k then (k, v) else hd) = hd from if_neg hh,
          alistLookup_cons, if_neg hh]
        exact ih h'
  · have hnone : alistLookup l k = none := (alistLookup_none_iff l k).mpr h
    clear h
    revert hnone
    induction l with
    | nil =>
      intro _
      simp [alistLookup_cons]
    | cons hd tl ih =>
      intro hnone
      rw [alistLookup_cons] at hnone
      by_cases hh : hd.1 = k
      · rw [if_pos hh] at hnone
        exact absurd hnone (by simp)
      · rw [if_neg hh] at hnone
        rw [List.cons_append, alistLookup_cons, if_neg hh]
        exact ih hnone

/-- Insertion does not disturb lookups of other keys. -/
theorem alistLookup_insert_ne {α : Type} (l : List (String × α)) (k : String) (v : α)
    (k' : String) (h : k' ≠ k) :
    alistLookup (alistInsert l k v) k' = alistLookup l k' := by
  have hkk : ¬ (k : String) = k' := fun e => h e.symm
  unfold alistInsert
  split_ifs with hf
  · clear hf
    induction l with
    | nil => simp
    | cons hd tl ih =>
      rw [List.map_cons]
      by_cases hh : hd.1 = k
      · rw [show (if hd.1 = k then (k, v) else hd) = (k, v) from if_pos hh,
          alistLookup_cons, alistLookup_cons]
        rw [if_neg hkk, if_neg (show ¬ hd.1 = k' by rw [hh]; exact hkk)]
        exact ih
      · rw [show (if hd.1 = k then (k, v) else hd) = hd from if_neg hh,
          alistLookup_cons, alistLookup_cons]
        by_cases hk' : hd.1 = k'
        · rw [if_pos hk', if_pos hk']
        · rw [if_neg hk', if_neg hk']
          exact ih
  · clear hf
    induction l with
    | nil =>
      show alistLookup ((k, v) :: []) k' = _
      rw [alistLookup_cons, if_neg hkk]
    | cons hd tl ih =>
      rw [List.cons_append, alistLookup_cons, alistLookup_cons]
      by_cases hk' : hd.1 = k'
      · rw [if_pos hk', if_pos hk']
      · rw [if_neg hk', if_neg hk']
        exact ih

/-- Looking up an erased key. -/
theorem alistLookup_erase_self {α : Type} (l : List (String × α)) (k : String) :
    alistLookup (alistErase l k) k = none := by
  unfold alistErase
  induction l with
  | nil => simp [alistLookup]
  | cons hd tl ih =>
    rw [List.filter_cons]
    by_cases hh : hd.1 = k
    · rw [if_neg (by simp [hh])]
      exact ih
    · rw [if_pos (by simp [hh]), alistLookup_cons, if_neg hh]
      exact ih

/-- Erasure does not disturb lookups of other keys. -/
theorem alistLookup_erase_ne {α : Type} (l : List (String × α)) (k k' : String) (h : k' ≠ k) :
    alistLookup (alistErase l k) k' = alistLookup l k' := by
  unfold alistErase
  induction l with
  | nil => simp
  | cons hd tl ih =>
    rw [List.filter_cons, alistLookup_cons]
    by_cases hh : hd.1 = k
    · rw [if_neg (by simp [hh]), if_neg (show ¬ hd.1 = k' by rw [hh]; exact fun e => h e.symm)]
      exact ih
    · rw [if_pos (by simp [hh]), alistLookup_cons]
      by_cases hk' : hd.1 = k'
      · rw [if_pos hk', if_pos hk']
      · rw [if_neg hk', if_neg hk']
        exact ih

/-- C9: for every pose `p`, `p.compose(p.inverse())` is the identity pose
(x=0, y=0, theta=0), and for every point `q`,
`p.inverse().transform_point(p.transform_point(q)) = q`, over exact real
arithmetic. -/
theorem pose_compose_inverse_ident (p : SimEnv.Pose2D) (q : ℝ × ℝ) :
    p.compose p.inverse = SimEnv.Pose2D.ident ∧
    p.inverse.transform_point (p.transform_point q) = q :=
  by
  have h := Real.sin_sq_add_cos_sq p.theta
  constructor
  · simp only [SimEnv.Pose2D.compose, SimEnv.Pose2D.inverse,
      SimEnv.Pose2D.transform_point, SimEnv.Pose2D.ident, SimEnv.Pose2D.mk.injEq]
    refine ⟨?_, ?_, ?_⟩
    · linear_combination (-p.x) * h
    · linear_combination (-p.y) * h
    · ring
  · simp only [SimEnv.Pose2D.inverse, SimEnv.Pose2D.transform_point,
      Real.cos_neg, Real.sin_neg]
    obtain ⟨qx, qy⟩ := q
    simp only [Prod.mk.injEq]
    constructor
    · linear_combination qx * h
    · linear_combination qy * h

/-- `_record_controller_error` touches only the error bookkeeping. -/
theorem recordControllerError_fields (s : SimEnv.SimState) (rid : String)
    (msg : Option String) :
    (SimEnv.recordControllerError s rid msg).step_index = s.step_index ∧
    (SimEnv.recordControllerError s rid msg).robot_ids = s.robot_ids ∧
    (SimEnv.recordControllerError s rid msg).bodies = s.bodies := by
  unfold SimEnv.recordControllerError
  exact ⟨rfl, rfl, rfl⟩

/-- Recording an error for one robot leaves other robots' entries alone. -/
theorem recordControllerError_lookup_ne (s : SimEnv.SimState) (rid : String)
    (msg : Option String) (rid' : String) (h : rid' ≠ rid) :
    SimEnv.alistLookup (SimEnv.recordControllerError s rid msg).last_controller_errors rid' =
      SimEnv.alistLookup s.last_controller_errors rid' := by
  rcases msg with _ | m
  · simp only [SimEnv.recordControllerError]
    exact alistLookup_erase_ne _ _ _ h
  · simp only [SimEnv.recordControllerError]
    split_ifs with hm
    · exact alistLookup_erase_ne _ _ _ h
    · exact alistLookup_insert_ne _ _ _ _ h

/-- Recording a nonempty message stores it under the robot's id. -/
theorem recordControllerError_lookup_self (s : SimEnv.SimState) (rid : String) (m : String)
    (hm : ¬ m = "") :
    SimEnv.alistLookup
      (SimEnv.recordControllerError s rid (some m)).last_controller_errors rid = some m := by
  simp only [SimEnv.recordControllerError]
  rw [if_neg hm]
  exact alistLookup_insert_self _ _ _

/-- A motor command touches only the motor and body tables. -/
theorem applyMotorCommand_fields (s : SimEnv.SimState) (mn : String) (v dt : ℝ) :
    (SimEnv.applyMotorCommand s mn v dt).last_controller_errors = s.last_controller_errors ∧
    (SimEnv.applyMotorCommand s mn v dt).step_index = s.step_index ∧
    (SimEnv.applyMotorCommand s mn v dt).robot_ids = s.robot_ids := by
  unfold SimEnv.applyMotorCommand
  split
  · exact ⟨rfl, rfl, rfl⟩
  · split
    · exact ⟨rfl, rfl, rfl⟩
    · exact ⟨rfl, rfl, rfl⟩

/-- Folding a controller's motor commands preserves those fields. -/
theorem cmdsFold_fields (cmds : List (String × ℝ)) (dt : ℝ) :
    ∀ s : SimEnv.SimState,
      (cmds.foldl (fun t c => SimEnv.applyMotorCommand t c.1 c.2 dt) s).last_controller_errors
          = s.last_controller_errors ∧
      (cmds.foldl (fun t c => SimEnv.applyMotorCommand t c.1 c.2 dt) s).step_index
          = s.step_index ∧
      (cmds.foldl (fun t c => SimEnv.applyMotorCommand t c.1 c.2 dt) s).robot_ids
          = s.robot_ids := by
  induction cmds with
  | nil => intro s; exact ⟨rfl, rfl, rfl⟩
  | cons hd tl ih =>
    intro s
    obtain ⟨h1, h2, h3⟩ := ih (SimEnv.applyMotorCommand s hd.1 hd.2 dt)
    obtain ⟨g1, g2, g3⟩ := applyMotorCommand_fields s hd.1 hd.2 dt
    refine ⟨?_, ?_, ?_⟩
    · rw [List.foldl_cons, h1, g1]
    · rw [List.foldl_cons, h2, g2]
    · rw [List.foldl_cons, h3, g3]

/-- One controller-loop iteration preserves the step index and robot list. -/
theorem tickRobot_fields (hc : String → Bool) (ctrl : SimEnv.ControllerFun)
    (rbr : String → List (String × ℝ)) (dt : ℝ) (acc : SimEnv.SimState × List String)
    (rid' : String) :
    (SimEnv.tickRobot hc ctrl rbr dt acc rid').1.step_index = acc.1.step_index ∧
    (SimEnv.tickRobot hc ctrl rbr dt acc rid').1.robot_ids = acc.1.robot_ids := by
  simp only [SimEnv.tickRobot]
  split_ifs <;> try exact ⟨rfl, rfl⟩
  obtain ⟨f1, f2, f3⟩ :=
    cmdsFold_fields (ctrl rid' (rbr rid') dt acc.1.step_index).1 dt acc.1
  split
  · constructor
    · rw [(recordControllerError_fields _ _ _).1, f2]
    · rw [(recordControllerError_fields _ _ _).2.1, f3]
  · exact ⟨f2, f3⟩

/-- One controller-loop iteration either skips or appends the robot id to the
invoked list. -/
theorem tickRobot_invoked (hc : String → Bool) (ctrl : SimEnv.ControllerFun)
    (rbr : String → List (String × ℝ)) (dt : ℝ) (acc : SimEnv.SimState × List String)
    (rid' : String) :
    (SimEnv.tickRobot hc ctrl rbr dt acc rid').2 = acc.2 ∨
    (SimEnv.tickRobot hc ctrl rbr dt acc rid').2 = acc.2 ++ [rid'] := by
  simp only [SimEnv.tickRobot]
  split_ifs <;> try (left; rfl)
  right
  split
  · rfl
  · rfl

/-- One controller-loop iteration for another robot preserves this robot's
recorded error entry. -/
theorem tickRobot_errors_ne (hc : String → Bool) (ctrl : SimEnv.ControllerFun)
    (rbr : String → List (String × ℝ)) (dt : ℝ) (acc : SimEnv.SimState × List String)
    (rid' rid : String) (h : rid ≠ rid') :
    SimEnv.alistLookup (SimEnv.tickRobot hc ctrl rbr dt acc rid').1.last_controller_errors rid
      = SimEnv.alistLookup acc.1.last_controller_errors rid := by
  simp only [SimEnv.tickRobot]
  split_ifs <;> try rfl
  obtain ⟨f1, _, _⟩ :=
    cmdsFold_fields (ctrl rid' (rbr rid') dt acc.1.step_index).1 dt acc.1
  split
  · rw [recordControllerError_lookup_ne _ _ _ _ h, f1]
  · rw [f1]

/-- A robot with a recorded truthy error is skipped entirely. -/
theorem tickRobot_skip (hc : String → Bool) (ctrl : SimEnv.ControllerFun)
    (rbr : String → List (String × ℝ)) (dt : ℝ) (acc : SimEnv.SimState × List String)
    (rid' : String) (e : String)
    (he : SimEnv.alistLookup acc.1.last_controller_errors rid' = some e) (hne : e ≠ "") :
    SimEnv.tickRobot hc ctrl rbr dt acc rid' = acc := by
  simp only [SimEnv.tickRobot]
  split_ifs with h1 h2 <;> try rfl
  exfalso
  apply h2
  rw [he]
  simp [hne]

/-- A robot with a controller and no (truthy) recorded error is invoked. -/
theorem tickRobot_invoke (hc : String → Bool) (ctrl : SimEnv.ControllerFun)
    (rbr : String → List (String × ℝ)) (dt : ℝ) (acc : SimEnv.SimState × List String)
    (rid' : String) (hhc : hc rid' = true)
    (he : SimEnv.alistLookup acc.1.last_controller_errors rid' = none ∨
          SimEnv.alistLookup acc.1.last_controller_errors rid' = some "") :
    SimEnv.tickRobot hc ctrl rbr dt acc rid' =
      (let r := ctrl rid' (rbr rid') dt acc.1.step_index
       let st1 := r.1.foldl (fun t c => SimEnv.applyMotorCommand t c.1 c.2 dt) acc.1
       let st2 := match r.2 with
         | some e => SimEnv.recordControllerError st1 rid' (some e)
         | none => st1
       (st2, acc.2 ++ [rid'])) := by
  simp only [SimEnv.tickRobot]
  rcases he with he | he <;> rw [he] <;> simp [hhc]

/-- A recorded truthy error for `rid` survives the whole controller loop. -/
theorem tick_fold_error_persists (hc : String → Bool) (ctrl : SimEnv.ControllerFun)
    (rbr : String → List (String × ℝ)) (dt : ℝ) (rid e : String) (hne : e ≠ "") :
    ∀ (L : List String) (acc : SimEnv.SimState × List String),
      SimEnv.alistLookup acc.1.last_controller_errors rid = some e →
      SimEnv.alistLookup
        (L.foldl (SimEnv.tickRobot hc ctrl rbr dt) acc).1.last_controller_errors rid = some e := by
  intro L
  induction L with
  | nil => intro acc h1; exact h1
  | cons hd tl ih =>
    intro acc h1
    rw [List.foldl_cons]
    by_cases hd_eq : hd = rid
    · subst hd_eq
      rw [tickRobot_skip hc ctrl rbr dt acc hd e h1 hne]
      exact ih acc h1
    · apply ih
      rw [tickRobot_errors_ne hc ctrl rbr dt acc hd rid (fun hh => hd_eq hh.symm)]
      exact h1

/-- Robots already invoked stay invoked through the rest of the loop. -/
theorem tick_fold_invoked_mono (hc : String → Bool) (ctrl : SimEnv.ControllerFun)
    (rbr : String → List (String × ℝ)) (dt : ℝ) (rid : String) :
    ∀ (L : List String) (acc : SimEnv.SimState × List String),
      rid ∈ acc.2 → rid ∈ (L.foldl (SimEnv.tickRobot hc ctrl rbr dt) acc).2 := by
  intro L
  induction L with
  | nil => intro acc h; exact h
  | cons hd tl ih =>
    intro acc h
    rw [List.foldl_cons]
    apply ih
    rcases tickRobot_invoked hc ctrl rbr dt acc hd with hi | hi
    · rw [hi]; exact h
    · rw [hi]; exact List.mem_append.mpr (Or.inl h)

/-- A robot with a recorded truthy error is never invoked by the loop. -/
theorem tick_fold_not_invoked (hc : String → Bool) (ctrl : SimEnv.ControllerFun)
    (rbr : String → List (String × ℝ)) (dt : ℝ) (rid e : String) (hne : e ≠ "") :
    ∀ (L : List String) (acc : SimEnv.SimState × List String),
      SimEnv.alistLookup acc.1.last_controller_errors rid = some e → rid ∉ acc.2 →
      rid ∉ (L.foldl (SimEnv.tickRobot hc ctrl rbr dt) acc).2 := by
  intro L
  induction L with
  | nil => intro acc h1 h2; exact h2
  | cons hd tl ih =>
    intro acc h1 h2
    rw [List.foldl_cons]
    by_cases hd_eq : hd = rid
    · subst hd_eq
      rw [tickRobot_skip hc ctrl rbr dt acc hd e h1 hne]
      exact ih acc h1 h2
    · apply ih
      · rw [tickRobot_errors_ne hc ctrl rbr dt acc hd rid (fun hh => hd_eq hh.symm)]
        exact h1
      · intro hmem
        rcases tickRobot_invoked hc ctrl rbr dt acc hd with hi | hi
        · rw [hi] at hmem; exact h2 hmem
        · rw [hi] at hmem
          rcases List.mem_append.mp hmem with hm | hm
          · exact h2 hm
          · simp at hm
            exact hd_eq hm.symm

/-- A robot with a controller and no (truthy) recorded error is invoked by
the loop. -/
theorem tick_fold_invoked (hc : String → Bool) (ctrl : SimEnv.ControllerFun)
    (rbr : String → List (String × ℝ)) (dt : ℝ) (rid : String) (hhc : hc rid = true) :
    ∀ (L : List String) (acc : SimEnv.SimState × List String),
      rid ∈ L →
      (SimEnv.alistLookup acc.1.last_controller_errors rid = none ∨
       SimEnv.alistLookup acc.1.last_controller_errors rid = some "") →
      rid ∈ (L.foldl (SimEnv.tickRobot hc ctrl rbr dt) acc).2 := by
  intro L
  induction L with
  | nil => intro acc h _; exact absurd h (List.not_mem_nil rid)
  | cons hd tl ih =>
    intro acc hmem he
    rw [List.foldl_cons]
    by_cases hd_eq : hd = rid
    · subst hd_eq
      rw [tickRobot_invoke hc ctrl rbr dt acc hd hhc he]
      apply tick_fold_invoked_mono
      exact List.mem_append.mpr (Or.inr (by simp))
    · rcases List.mem_cons.mp hmem with hm | hm
      · exact absurd hm.symm hd_eq
      · apply ih _ hm
        rcases he with he | he
        · left
          rw [tickRobot_errors_ne hc ctrl rbr dt acc hd rid (fun hh => hd_eq hh.symm)]
          exact he
        · right
          rw [tickRobot_errors_ne hc ctrl rbr dt acc hd rid (fun hh => hd_eq hh.symm)]
          exact he

/-- When an invoked controller raises a (truthy) message, the loop records it
under the robot's id and keeps it. -/
theorem tick_fold_records (hc : String → Bool) (ctrl : SimEnv.ControllerFun)
    (rbr : String → List (String × ℝ)) (dt : ℝ) (rid msg : String)
    (cmds : List (String × ℝ)) (hhc : hc rid = true) (hmsg : msg ≠ "") :
    ∀ (L : List String) (acc : SimEnv.SimState × List String),
      rid ∈ L →
      (SimEnv.alistLookup acc.1.last_controller_errors rid = none ∨
       SimEnv.alistLookup acc.1.last_controller_errors rid = some "") →
      ctrl rid (rbr rid) dt acc.1.step_index = (cmds, some msg) →
      SimEnv.alistLookup
        (L.foldl (SimEnv.tickRobot hc ctrl rbr dt) acc).1.last_controller_errors rid
        = some msg := by
  intro L
  induction L with
  | nil => intro acc h _ _; exact absurd h (List.not_mem_nil rid)
  | cons hd tl ih =>
    intro acc hmem he hctrl
    rw [List.foldl_cons]
    by_cases hd_eq : hd = rid
    · subst hd_eq
      rw [tickRobot_invoke hc ctrl rbr dt acc hd hhc he]
      apply tick_fold_error_persists hc ctrl rbr dt hd msg hmsg
      show SimEnv.alistLookup
        (match (ctrl hd (rbr hd) dt acc.1.step_index).2 with
          | some e => SimEnv.recordControllerError
              ((ctrl hd (rbr hd) dt acc.1.step_index).1.foldl
                (fun (t : SimEnv.SimState) (c : String × ℝ) =>
                  SimEnv.applyMotorCommand t c.1 c.2 dt) acc.1) hd (some e)
          | none => (ctrl hd (rbr hd) dt acc.1.step_index).1.foldl
              (fun (t : SimEnv.SimState) (c : String × ℝ) =>
                SimEnv.applyMotorCommand t c.1 c.2 dt) acc.1).last_controller_errors
        hd = some msg
      rw [hctrl]
      exact recordControllerError_lookup_self _ _ _ hmsg
    · rcases List.mem_cons.mp hmem with hm | hm
      · exact absurd hm.symm hd_eq
      · have hne : rid ≠ hd := fun hh => hd_eq hh.symm
        apply ih _ hm
        · rcases he with he | he
          · left
            rw [tickRobot_errors_ne hc ctrl rbr dt acc hd rid hne]
            exact he
          · right
            rw [tickRobot_errors_ne hc ctrl rbr dt acc hd rid hne]
            exact he
        · rw [(tickRobot_fields hc ctrl rbr dt acc hd).1]
          exact hctrl

/-- The sensor phase does not advance the step counter. -/
theorem updateSensors_step_index (sval : String → SimEnv.SimState → ℝ)
    (noiseFn : ℤ → ℕ → ℝ) (s : SimEnv.SimState) (dt : ℝ) :
    (SimEnv.updateSensors sval noiseFn s dt).1.step_index = s.step_index := rfl

/-- The controller phase does not advance the step counter. -/
theorem tickController_step_index (hc : String → Bool) (ctrl : SimEnv.ControllerFun)
    (s : SimEnv.SimState) (rbr : String → List (String × ℝ)) (dt : ℝ) :
    (SimEnv.tickController hc ctrl s rbr dt).1.step_index = s.step_index := by
  unfold SimEnv.tickController
  exact foldl_preserves (fun acc => acc.1.step_index = s.step_index)
    (SimEnv.tickRobot hc ctrl rbr dt) s.robot_ids
    (fun b a hb => by
      show (SimEnv.tickRobot hc ctrl rbr dt b a).1.step_index = s.step_index
      rw [(tickRobot_fields hc ctrl rbr dt b a).1]
      exact hb)
    (s, []) rfl

/-- The integrate phase does not advance the step counter. -/
theorem integrateBodies_step_index (s : SimEnv.SimState) (dt : ℝ) :
    (SimEnv.integrateBodies s dt).step_index = s.step_index := rfl

/-- One joint iteration does not advance the step counter. -/
theorem solveJointStep_step_index (dt : ℝ) (acc : SimEnv.SimState × List SimEnv.JointRuntime)
    (jr : SimEnv.JointRuntime) :
    (SimEnv.solveJointStep dt acc jr).1.step_index = acc.1.step_index := by
  simp only [SimEnv.solveJointStep]
  repeat' split
  all_goals rfl

/-- The joint phase does not advance the step counter. -/
theorem solveJoints_step_index (s : SimEnv.SimState) (dt : ℝ) :
    (SimEnv.solveJoints s dt).step_index = s.step_index := by
  show (s.joints.foldl (SimEnv.solveJointStep dt) (s, [])).1.step_index = s.step_index
  exact foldl_preserves (fun acc => acc.1.step_index = s.step_index)
    (SimEnv.solveJointStep dt) s.joints
    (fun b a hb => by
      show (SimEnv.solveJointStep dt b a).1.step_index = s.step_index
      rw [solveJointStep_step_index]
      exact hb) (s, []) rfl

/-- One contact pair does not advance the step counter. -/
theorem solveContactPair_step_index (st : SimEnv.SimState) (ni nj : String) :
    (SimEnv.solveContactPair st ni nj).step_index = st.step_index := by
  simp only [SimEnv.solveContactPair]
  repeat' split
  all_goals rfl

/-- The contact phase does not advance the step counter. -/
theorem solveContacts_step_index (s : SimEnv.SimState) :
    (SimEnv.solveContacts s).step_index = s.step_index := by
  unfold SimEnv.solveContacts
  exact foldl_preserves (fun st => st.step_index = s.step_index)
    (fun st p => SimEnv.solveContactPair st p.1 p.2) (SimEnv.allPairs (s.bodies.map Prod.fst))
    (fun b a hb => by
      show (SimEnv.solveContactPair b a.1 a.2).step_index = s.step_index
      rw [solveContactPair_step_index]
      exact hb) s rfl

/-- The anti-tunneling clamp does not advance the step counter. -/
theorem checkStepSanity_step_index (prev : List (String × SimEnv.Pose2D))
    (s : SimEnv.SimState) :
    (SimEnv.checkStepSanity prev s).step_index = s.step_index := by
  unfold SimEnv.checkStepSanity
  split_ifs <;> rfl

/-- C3: a controller exception is contained: (a) while a (truthy) error is
recorded for a robot, its controller is not invoked on a tick and the entry
survives the tick; (b) a robot with a controller and no recorded error is
invoked; (c) if an invoked controller raises a traceback message, the message
is recorded in `last_controller_errors` keyed by the robot id (and kept for
the rest of the loop); (d) `clear_controller_error` removes the entry, after
which the controller is invoked again; (e) the fault never propagates:
`step` is a total function that applies the sensor, controller, integrate,
joint, contact and sanity phases unconditionally and completes the tick,
advancing the step counter.  (Recorded tracebacks are nonempty strings, hence
the `≠ ""` truthiness side conditions.) -/
theorem controller_error_containment (sval : String → SimEnv.SimState → ℝ)
    (noiseFn : ℤ → ℕ → ℝ) (hasC : String → Bool) (ctrl : SimEnv.ControllerFun)
    (s : SimEnv.SimState) (rbr : String → List (String × ℝ)) (dt : ℝ) (rid : String) :
    (∀ e, e ≠ "" → SimEnv.alistLookup s.last_controller_errors rid = some e →
      rid ∉ (SimEnv.tickController hasC ctrl s rbr dt).2 ∧
      SimEnv.alistLookup
        (SimEnv.tickController hasC ctrl s rbr dt).1.last_controller_errors rid = some e) ∧
    (hasC rid = true → rid ∈ s.robot_ids →
      SimEnv.alistLookup s.last_controller_errors rid = none →
      rid ∈ (SimEnv.tickController hasC ctrl s rbr dt).2) ∧
    (∀ cmds msg, msg ≠ "" → hasC rid = true → rid ∈ s.robot_ids →
      SimEnv.alistLookup s.last_controller_errors rid = none →
      ctrl rid (rbr rid) dt s.step_index = (cmds, some msg) →
      SimEnv.alistLookup
        (SimEnv.tickController hasC ctrl s rbr dt).1.last_controller_errors rid = some msg) ∧
    (SimEnv.alistLookup
      (SimEnv.clearControllerError s (some rid)).last_controller_errors rid = none) ∧
    (hasC rid = true → rid ∈ s.robot_ids →
      rid ∈ (SimEnv.tickController hasC ctrl (SimEnv.clearControllerError s (some rid))
        rbr dt).2) ∧
    ((SimEnv.simStep sval noiseFn hasC ctrl s (some dt)).step_index = s.step_index + 1) := by
  refine ⟨?_, ?_, ?_, ?_, ?_, ?_⟩
  · intro e hne he
    constructor
    · exact tick_fold_not_invoked hasC ctrl rbr dt rid e hne s.robot_ids (s, []) he
        (List.not_mem_nil rid)
    · exact tick_fold_error_persists hasC ctrl rbr dt rid e hne s.robot_ids (s, []) he
  · intro hhc hmem he
    exact tick_fold_invoked hasC ctrl rbr dt rid hhc s.robot_ids (s, []) hmem (Or.inl he)
  · intro cmds msg hmsg hhc hmem he hctrl
    exact tick_fold_records hasC ctrl rbr dt rid msg cmds hhc hmsg s.robot_ids (s, []) hmem
      (Or.inl he) hctrl
  · unfold SimEnv.clearControllerError
    exact alistLookup_erase_self _ _
  · intro hhc hmem
    apply tick_fold_invoked hasC ctrl rbr dt rid hhc _ _ hmem
    left
    unfold SimEnv.clearControllerError
    exact alistLookup_erase_self _ _
  · show (SimEnv.simStep sval noiseFn hasC ctrl s (some dt)).step_index = s.step_index + 1
    simp only [SimEnv.simStep]
    rw [checkStepSanity_step_index, solveContacts_step_index, solveJoints_step_index,
      integrateBodies_step_index, tickController_step_index, updateSensors_step_index]

/-- C3 witness: a two-robot state where `robot_1` has a recorded error and
every controller raises — `robot_1` is skipped (its entry kept), `robot_2` is
still invoked and its traceback is recorded under its own id. -/
theorem controller_error_containment_witness :
    ("old traceback" ≠ "") ∧
    SimEnv.alistLookup SimEnv.cxStateC3.last_controller_errors "robot_1" =
      some "old traceback" ∧
    "robot_1" ∉ (SimEnv.tickController (fun _ => true) SimEnv.ctrlBoom SimEnv.cxStateC3
      (fun _ => []) (1 / 100)).2 ∧
    SimEnv.alistLookup SimEnv.cxStateC3.last_controller_errors "robot_2" = none ∧
    "robot_2" ∈ (SimEnv.tickController (fun _ => true) SimEnv.ctrlBoom SimEnv.cxStateC3
      (fun _ => []) (1 / 100)).2 ∧
    SimEnv.alistLookup (SimEnv.tickController (fun _ => true) SimEnv.ctrlBoom SimEnv.cxStateC3
      (fun _ => []) (1 / 100)).1.last_controller_errors "robot_2" = some "boom traceback" := by
  have h1 : SimEnv.alistLookup SimEnv.cxStateC3.last_controller_errors "robot_1" =
      some "old traceback" := by
    show SimEnv.alistLookup [("robot_1", "old traceback")] "robot_1" = some "old traceback"
    simp [SimEnv.alistLookup, List.find?]
  have h2 : SimEnv.alistLookup SimEnv.cxStateC3.last_controller_errors "robot_2" = none := by
    show SimEnv.alistLookup [("robot_1", "old traceback")] "robot_2" = none
    simp [SimEnv.alistLookup, List.find?]
  have hmem2 : "robot_2" ∈ SimEnv.cxStateC3.robot_ids := by
    show "robot_2" ∈ ["robot_1", "robot_2"]
    simp
  refine ⟨by decide, h1, ?_, h2, ?_, ?_⟩
  · exact ((controller_error_containment SimEnv.svalZero SimEnv.noiseZero (fun _ => true)
      SimEnv.ctrlBoom SimEnv.cxStateC3 (fun _ => []) (1 / 100) "robot_1").1
      "old traceback" (by decide) h1).1
  · exact (controller_error_containment SimEnv.svalZero SimEnv.noiseZero (fun _ => true)
      SimEnv.ctrlBoom SimEnv.cxStateC3 (fun _ => []) (1 / 100) "robot_2").2.1 rfl hmem2 h2
  · exact (controller_error_containment SimEnv.svalZero SimEnv.noiseZero (fun _ => true)
      SimEnv.ctrlBoom SimEnv.cxStateC3 (fun _ => []) (1 / 100) "robot_2").2.2.1
      [] "boom traceback" (by decide) rfl hmem2 h2 rfl

/-- Updating a key absent from an association list changes nothing. -/
theorem alistUpdate_not_mem {α : Type} (k : String) (f : α → α) :
    ∀ l : List (String × α), (∀ p ∈ l, ¬ p.1 = k) → alistUpdate l k f = l := by
  intro l
  induction l with
  | nil => intro _; rfl
  | cons hd tl ih =>
      intro h
      show (if hd.1 = k then (hd.1, f hd.2) else hd) :: alistUpdate tl k f = hd :: tl
      rw [if_neg (h hd (List.mem_cons_self hd tl)),
        ih (fun p hp => h p (List.mem_cons_of_mem hd hp))]

/-- Updating the unique entry of a key with a function that fixes its stored
value changes nothing (keys assumed distinct). -/
theorem alistUpdate_mem_id {α : Type} (k : String) (b : α) (f : α → α) (hf : f b = b) :
    ∀ l : List (String × α), (l.map Prod.fst).Nodup → (k, b) ∈ l → alistUpdate l k f = l := by
  intro l
  induction l with
  | nil => intro _ hm; exact absurd hm (List.not_mem_nil _)
  | cons hd tl ih =>
      intro hnd hm
      rw [List.map_cons, List.nodup_cons] at hnd
      rcases List.mem_cons.mp hm with he | ht
      · rcases hd with ⟨k0, b0⟩
        injection he with hk hb
        subst hk
        subst hb
        have htl : ∀ p ∈ tl, ¬ p.1 = k :=
          fun p hp hpk => hnd.1 (List.mem_map.mpr ⟨p, hp, hpk⟩)
        show (if k = k then (k, f b) else (k, b)) :: alistUpdate tl k f = (k, b) :: tl
        rw [if_pos rfl, hf, alistUpdate_not_mem k f tl htl]
      · have hne : ¬ hd.1 = k := by
          intro e
          apply hnd.1
          rw [e]
          exact List.mem_map.mpr ⟨(k, b), ht, rfl⟩
        show (if hd.1 = k then (hd.1, f hd.2) else hd) :: alistUpdate tl k f = hd :: tl
        rw [if_neg hne, ih hnd.2 ht]

/-- Looking up a key different from the one updated is unaffected. -/
theorem alistLookup_update_ne {α : Type} (k : String) (f : α → α) (n : String)
    (h : ¬ k = n) :
    ∀ l : List (String × α), alistLookup (alistUpdate l k f) n = alistLookup l n := by
  intro l
  induction l with
  | nil => rfl
  | cons hd tl ih =>
      show alistLookup ((if hd.1 = k then (hd.1, f hd.2) else hd) :: alistUpdate tl k f) n
        = alistLookup (hd :: tl) n
      rw [alistLookup_cons, alistLookup_cons hd tl n, ih]
      by_cases hk : hd.1 = k
      · rw [if_pos hk]
        have hn : ¬ hd.1 = n := fun e => h (hk ▸ e)
        rw [if_neg hn, if_neg hn]
      · rw [if_neg hk]

/-- A fold whose step fixes the accumulator on every mapped element of the
list leaves the accumulator unchanged. -/
theorem foldl_map_fix {α β γ : Type} (g : β → γ) (f : α → γ → α) (a : α) :
    ∀ l : List β, (∀ x ∈ l, f a (g x) = a) → (l.map g).foldl f a = a := by
  intro l
  induction l with
  | nil => intro _; rfl
  | cons hd tl ih =>
      intro h
      rw [List.map_cons, List.foldl_cons, h hd (List.mem_cons_self hd tl)]
      exact ih (fun x hx => h x (List.mem_cons_of_mem hd hx))

/-- The body-restoring fold of `applySnapshot` changes only the `bodies`
field of the simulator state. -/
theorem applySnapshot_fold_shape :
    ∀ (l : List (String × SnapBody)) (s0 : SimState),
      (l.foldl (fun st nb =>
        if (alistLookup st.bodies nb.1).isSome then
          { st with bodies := alistUpdate st.bodies nb.1 (fun b =>
              { b with pose := nb.2.pose, vx := nb.2.lin_vel.1, vy := nb.2.lin_vel.2,
                       omega := nb.2.ang_vel }) }
        else st) s0) =
      { s0 with bodies := (l.foldl (fun st nb =>
        if (alistLookup st.bodies nb.1).isSome then
          { st with bodies := alistUpdate st.bodies nb.1 (fun b =>
              { b with pose := nb.2.pose, vx := nb.2.lin_vel.1, vy := nb.2.lin_vel.2,
                       omega := nb.2.ang_vel }) }
        else st) s0).bodies } := by
  intro l
  induction l with
  | nil => intro s0; rfl
  | cons hd tl ih =>
      intro s0
      rw [List.foldl_cons]
      by_cases hc : (alistLookup s0.bodies hd.1).isSome = true
      · rw [if_pos hc]
        exact ih _
      · rw [if_neg hc]
        exact ih s0

/-- The body-restoring fold of `applySnapshot` leaves the table entry of any
name not mentioned in the snapshot alone. -/
theorem applySnapshot_fold_lookup (n : String) :
    ∀ (l : List (String × SnapBody)) (s0 : SimState), (∀ p ∈ l, ¬ p.1 = n) →
      alistLookup ((l.foldl (fun st nb =>
        if (alistLookup st.bodies nb.1).isSome then
          { st with bodies := alistUpdate st.bodies nb.1 (fun b =>
              { b with pose := nb.2.pose, vx := nb.2.lin_vel.1, vy := nb.2.lin_vel.2,
                       omega := nb.2.ang_vel }) }
        else st) s0).bodies) n = alistLookup s0.bodies n := by
  intro l
  induction l with
  | nil => intro s0 _; rfl
  | cons hd tl ih =>
      intro s0 h
      rw [List.foldl_cons]
      by_cases hc : (alistLookup s0.bodies hd.1).isSome = true
      · rw [if_pos hc]
        refine (ih _ (fun p hp => h p (List.mem_cons_of_mem hd hp))).trans ?_
        exact alistLookup_update_ne hd.1 (fun b =>
          { b with pose := hd.2.pose, vx := hd.2.lin_vel.1, vy := hd.2.lin_vel.2,
                   omega := hd.2.ang_vel }) n (h hd (List.mem_cons_self hd tl)) s0.bodies
      · rw [if_neg hc]
        exact ih s0 (fun p hp => h p (List.mem_cons_of_mem hd hp))

/-- C8: `apply_snapshot(snapshot())` is an identity on the simulator state
(time, step index, every body's pose and velocities, and the controller
state are restored exactly, given the distinct body names a loaded scene
has); and for an arbitrary snapshot, `apply_snapshot` changes nothing but
time, step index, the pose/velocity fields of bodies named in the snapshot,
and (when a controller state is present) the state forwarded to the
controller — bodies not named in the snapshot and every other simulator
field (joints, motor internal speeds, sensor hold state, RNG, tunables)
stay unchanged. -/
theorem snapshot_roundtrip_frame (s : SimState) (snap : SnapshotState)
    (hnd : (s.bodies.map Prod.fst).Nodup) :
    applySnapshot s (snapshot s) = s ∧
    ((applySnapshot s snap).time = snap.time ∧
     (applySnapshot s snap).step_index = snap.step ∧
     (applySnapshot s snap).dt = s.dt ∧
     (applySnapshot s snap).gravity = s.gravity ∧
     (applySnapshot s snap).joints = s.joints ∧
     (applySnapshot s snap).motors = s.motors ∧
     (applySnapshot s snap).sensors = s.sensors ∧
     (applySnapshot s snap).robot_ids = s.robot_ids ∧
     (applySnapshot s snap).last_controller_errors = s.last_controller_errors ∧
     (applySnapshot s snap).last_controller_error = s.last_controller_error ∧
     (applySnapshot s snap).last_physics_warning = s.last_physics_warning ∧
     (applySnapshot s snap).last_sensor_readings = s.last_sensor_readings ∧
     (applySnapshot s snap).rng_seed = s.rng_seed ∧
     (applySnapshot s snap).rng_count = s.rng_count ∧
     (applySnapshot s snap).linear_damping = s.linear_damping ∧
     (applySnapshot s snap).angular_damping = s.angular_damping ∧
     (applySnapshot s snap).max_linear_speed = s.max_linear_speed ∧
     (applySnapshot s snap).max_angular_speed = s.max_angular_speed ∧
     (applySnapshot s snap).contact_correction_percent = s.contact_correction_percent ∧
     (applySnapshot s snap).contact_slop = s.contact_slop ∧
     (applySnapshot s snap).max_penetration_correction = s.max_penetration_correction ∧
     (applySnapshot s snap).max_step_translation = s.max_step_translation ∧
     (∀ n, alistLookup snap.bodies n = none →
       alistLookup (applySnapshot s snap).bodies n = alistLookup s.bodies n) ∧
     (snap.controller_state = none →
       (applySnapshot s snap).controller_internal = s.controller_internal)) := by
  constructor
  · have hone : ∀ p ∈ s.bodies,
        (if (alistLookup s.bodies p.1).isSome then
          { s with bodies := alistUpdate s.bodies p.1 (fun b =>
              { b with pose := p.2.pose, vx := p.2.vx, vy := p.2.vy, omega := p.2.omega }) }
        else s) = s := by
      intro p hp
      have hsome : (alistLookup s.bodies p.1).isSome = true := by
        rcases hfind : s.bodies.find? (fun q => q.1 = p.1) with _ | q
        · have hx := List.find?_eq_none.mp hfind p hp
          simp at hx
        · show (alistLookup s.bodies p.1).isSome = true
          unfold alistLookup
          rw [hfind]
          rfl
      rw [if_pos hsome, alistUpdate_mem_id p.1 p.2 (fun b =>
        { b with pose := p.2.pose, vx := p.2.vx, vy := p.2.vy, omega := p.2.omega }) rfl
        s.bodies hnd hp]
    have hF : (List.map (fun nb : String × Body =>
        ((nb.1 : String), (⟨nb.2.pose, (nb.2.vx, nb.2.vy), nb.2.omega⟩ : SnapBody)))
        s.bodies).foldl
        (fun st nb =>
          if (alistLookup st.bodies nb.1).isSome then
            { st with bodies := alistUpdate st.bodies nb.1 (fun b =>
                { b with pose := nb.2.pose, vx := nb.2.lin_vel.1, vy := nb.2.lin_vel.2,
                         omega := nb.2.ang_vel }) }
          else st) s = s := foldl_map_fix _ _ s s.bodies hone
    have he : ({ s with time := s.time, step_index := s.step_index } : SimState) = s := rfl
    simp only [SimEnv.applySnapshot, SimEnv.snapshot]
    rw [he, hF]
    rcases hci : s.controller_internal with _ | cs
    · simp only [hci]
    · simp only [hci]
      by_cases hz : cs = 0
      · rw [if_pos hz]
      · rw [if_neg hz, ← hci]
  · rcases snap with ⟨t, stp, bds, copt⟩
    have hlook : ∀ n, alistLookup bds n = none →
        alistLookup ((bds.foldl (fun (st : SimState) (nb : String × SnapBody) =>
          if (alistLookup st.bodies nb.1).isSome then
            { st with bodies := alistUpdate st.bodies nb.1 (fun b =>
                { b with pose := nb.2.pose, vx := nb.2.lin_vel.1, vy := nb.2.lin_vel.2,
                         omega := nb.2.ang_vel }) }
          else st) { s with time := t, step_index := stp }).bodies) n
          = alistLookup s.bodies n := by
      intro n hn
      have hfind : bds.find? (fun q => q.1 = n) = none := by
        rcases hf2 : bds.find? (fun q => q.1 = n) with _ | q
        · exact hf2
        · unfold alistLookup at hn
          rw [hf2] at hn
          exact Option.noConfusion hn
      have hall : ∀ p ∈ bds, ¬ p.1 = n := by
        intro p hp hpn
        have hx := List.find?_eq_none.mp hfind p hp
        simp at hx
        exact hx hpn
      exact applySnapshot_fold_lookup n bds { s with time := t, step_index := stp } hall
    rcases copt with _ | cs
    · simp only [SimEnv.applySnapshot]
      rw [applySnapshot_fold_shape bds { s with time := t, step_index := stp }]
      refine ⟨rfl, rfl, rfl, rfl, rfl, rfl, rfl, rfl, rfl, rfl, rfl, rfl, rfl, rfl, rfl,
        rfl, rfl, rfl, rfl, rfl, rfl, rfl, ?_, ?_⟩
      · intro n hn
        exact hlook n hn
      · intro _
        rfl
    · simp only [SimEnv.applySnapshot]
      by_cases hz : cs = 0
      · rw [if_pos hz, applySnapshot_fold_shape bds { s with time := t, step_index := stp }]
        refine ⟨rfl, rfl, rfl, rfl, rfl, rfl, rfl, rfl, rfl, rfl, rfl, rfl, rfl, rfl, rfl,
          rfl, rfl, rfl, rfl, rfl, rfl, rfl, ?_, ?_⟩
        · intro n hn
          exact hlook n hn
        · intro hcn
          exact Option.noConfusion hcn
      · rw [if_neg hz, applySnapshot_fold_shape bds { s with time := t, step_index := stp }]
        refine ⟨rfl, rfl, rfl, rfl, rfl, rfl, rfl, rfl, rfl, rfl, rfl, rfl, rfl, rfl, rfl,
          rfl, rfl, rfl, rfl, rfl, rfl, rfl, ?_, ?_⟩
        · intro n hn
          exact hlook n hn
        · intro hcn
          exact Option.noConfusion hcn

/-- C8 witness: the roundtrip identity evaluated on a concrete one-body
state whose body names are distinct. -/
theorem snapshot_roundtrip_frame_witness :
    ((SimEnv.cxStateC7.bodies.map Prod.fst).Nodup) ∧
    SimEnv.applySnapshot SimEnv.cxStateC7 (SimEnv.snapshot SimEnv.cxStateC7)
      = SimEnv.cxStateC7 := by
  have hnd : (SimEnv.cxStateC7.bodies.map Prod.fst).Nodup := by
    show (["b"] : List String).Nodup
    simp
  exact ⟨hnd,
    (snapshot_roundtrip_frame SimEnv.cxStateC7 ⟨0, 0, [], none⟩ hnd).1⟩

/-- `math.hypot` is nonnegative. -/
theorem hypotR_nonneg (x y : ℝ) : 0 ≤ hypotR x y := Real.sqrt_nonneg _

/-- Squaring `math.hypot` recovers the sum of squares. -/
theorem hypotR_sq (x y : ℝ) : hypotR x y ^ 2 = x ^ 2 + y ^ 2 :=
  Real.sq_sqrt (by positivity)

/-- `math.hypot` vanishes exactly on the zero vector. -/
theorem hypotR_eq_zero_iff (x y : ℝ) : hypotR x y = 0 ↔ x = 0 ∧ y = 0 := by
  unfold hypotR
  rw [Real.sqrt_eq_zero']
  constructor
  · intro h0
    constructor <;> nlinarith [sq_nonneg x, sq_nonneg y]
  · rintro ⟨rfl, rfl⟩
    norm_num

/-- Dividing a nonzero vector by the guarded `math.hypot` length (`or 1.0`
fallback) yields a unit vector. -/
theorem unit_of_div (a b : ℝ) (h : ¬ (a = 0 ∧ b = 0)) :
    (a / (if hypotR a b = 0 then 1 else hypotR a b)) ^ 2 +
      (b / (if hypotR a b = 0 then 1 else hypotR a b)) ^ 2 = 1 := by
  have hz : ¬ hypotR a b = 0 := fun e => h ((hypotR_eq_zero_iff a b).mp e)
  rw [if_neg hz]
  have hsq : a ^ 2 + b ^ 2 = hypotR a b ^ 2 := (hypotR_sq a b).symm
  rw [div_pow, div_pow, div_add_div_same, hsq]
  exact div_self (pow_ne_zero 2 hz)

/-- A unit sum of squares makes the guarded length one. -/
theorem hypotR_eq_one_of (a b : ℝ) (h : a ^ 2 + b ^ 2 = 1) : hypotR a b = 1 := by
  unfold hypotR
  rw [h]
  exact Real.sqrt_one

/-- A fold whose step fixes one accumulator value is constant there. -/
theorem foldl_const_fix {α β : Type} (f : α → β → α) (a : α) (hfa : ∀ x, f a x = a) :
    ∀ l : List β, l.foldl f a = a := by
  intro l
  induction l with
  | nil => rfl
  | cons hd tl ih =>
      rw [List.foldl_cons, hfa hd]
      exact ih

/-- `_project` of the zero axis produces the degenerate interval `(0, 0)`. -/
theorem projectVerts_zero (verts : List (ℝ × ℝ)) : projectVerts (0, 0) verts = (0, 0) := by
  simp only [SimEnv.projectVerts]
  rcases verts with _ | ⟨v, vs⟩
  · rfl
  · simp only [zero_div, mul_zero, add_zero, zero_add]
    exact foldl_const_fix _ _ (fun x => by simp) vs

/-- The candidate `(overlap, axis, point)` stored by `_check_axes` when the
projections overlap: the overlap is positive and the normalized axis is a
unit vector (a zero edge normal would project both polygons to the
degenerate interval and trigger the separation return instead). -/
theorem checkAxes_upd_good (v1 v2 : List (ℝ × ℝ)) (e : (ℝ × ℝ) × (ℝ × ℝ))
    (hov : ¬ (min (projectVerts (-(e.2.2 - e.1.2), e.2.1 - e.1.1) v1).2
          (projectVerts (-(e.2.2 - e.1.2), e.2.1 - e.1.1) v2).2 -
        max (projectVerts (-(e.2.2 - e.1.2), e.2.1 - e.1.1) v1).1
          (projectVerts (-(e.2.2 - e.1.2), e.2.1 - e.1.1) v2).1 ≤ 0)) :
    ∀ pen ax pt,
      (some (min (projectVerts (-(e.2.2 - e.1.2), e.2.1 - e.1.1) v1).2
            (projectVerts (-(e.2.2 - e.1.2), e.2.1 - e.1.1) v2).2 -
          max (projectVerts (-(e.2.2 - e.1.2), e.2.1 - e.1.1) v1).1
            (projectVerts (-(e.2.2 - e.1.2), e.2.1 - e.1.1) v2).1,
          (-(e.2.2 - e.1.2) /
            (if hypotR (-(e.2.2 - e.1.2)) (e.2.1 - e.1.1) = 0 then 1
             else hypotR (-(e.2.2 - e.1.2)) (e.2.1 - e.1.1)),
           (e.2.1 - e.1.1) /
            (if hypotR (-(e.2.2 - e.1.2)) (e.2.1 - e.1.1) = 0 then 1
             else hypotR (-(e.2.2 - e.1.2)) (e.2.1 - e.1.1))), e.1) :
        Option (ℝ × (ℝ × ℝ) × (ℝ × ℝ))) = some (pen, ax, pt) →
      0 < pen ∧ ax.1 ^ 2 + ax.2 ^ 2 = 1 := by
  intro pen ax pt hs
  have hs1 := Option.some.inj hs
  injection hs1 with hpen hrest
  injection hrest with hax hpt
  subst hpen
  subst hax
  refine ⟨not_le.mp hov, ?_⟩
  by_cases hz1 : -(e.2.2 - e.1.2) = 0 ∧ e.2.1 - e.1.1 = 0
  · exfalso
    rw [hz1.1, hz1.2] at hov
    rw [projectVerts_zero, projectVerts_zero] at hov
    simp at hov
  · exact unit_of_div _ _ hz1

/-- Invariant of `_check_axes`: starting from a state whose every stored
`(pen, axis, point)` has positive penetration and a unit axis, any state it
returns (no separating axis found) again stores positive penetration and a
unit axis. -/
theorem checkAxes_inv (v1 v2 : List (ℝ × ℝ)) :
    ∀ (edges : List ((ℝ × ℝ) × (ℝ × ℝ))) (st st' : Option (ℝ × (ℝ × ℝ) × (ℝ × ℝ))),
      (∀ pen ax pt, st = some (pen, ax, pt) → 0 < pen ∧ ax.1 ^ 2 + ax.2 ^ 2 = 1) →
      checkAxes v1 v2 edges st = some st' →
      (∀ pen ax pt, st' = some (pen, ax, pt) → 0 < pen ∧ ax.1 ^ 2 + ax.2 ^ 2 = 1) := by
  intro edges
  induction edges with
  | nil =>
      intro st st' hst heq
      have hss : st = st' := Option.some.inj heq
      rw [← hss]
      exact hst
  | cons e rest ih =>
      intro st st' hst heq
      simp only [SimEnv.checkAxes] at heq
      split at heq
      · exact Option.noConfusion heq
      · rename_i hov
        split at heq
        · exact ih _ st' (checkAxes_upd_good v1 v2 e hov) heq
        · rename_i pen0 ax0 pt0
          split at heq
          · exact ih _ st' (checkAxes_upd_good v1 v2 e hov) heq
          · exact ih _ st' hst heq

/-- Soundness of `_circle_vs_polygon_manifold` under the nondegeneracy
condition that the circle center does not lie exactly on the nearest
boundary feature: a returned manifold has positive penetration and a unit
normal. -/
theorem circleVsPolygonManifold_sound (r : ℝ) (pc : Pose2D) (verts : List (ℝ × ℝ))
    (pp : Pose2D)
    (hnd : ∀ d cp, closestFeature (pc.x, pc.y) (worldVertices verts pp) = some (d, cp) →
      cp ≠ (pc.x, pc.y))
    (m : CollisionManifold) (hm : circleVsPolygonManifold r pc verts pp = some m) :
    0 < m.penetration ∧ m.normal.1 ^ 2 + m.normal.2 ^ 2 = 1 := by
  simp only [SimEnv.circleVsPolygonManifold] at hm
  rcases hcf : closestFeature (pc.x, pc.y) (worldVertices verts pp) with _ | ⟨d, cp⟩
  · rw [hcf] at hm
    exact Option.noConfusion hm
  · rw [hcf] at hm
    have hm' : (if r - d ≤ 0 then none else
        some (⟨((pc.x - cp.1) / (if hypotR (pc.x - cp.1) (pc.y - cp.2) = 0 then 1
            else hypotR (pc.x - cp.1) (pc.y - cp.2)),
          (pc.y - cp.2) / (if hypotR (pc.x - cp.1) (pc.y - cp.2) = 0 then 1
            else hypotR (pc.x - cp.1) (pc.y - cp.2))), r - d, cp⟩ :
          CollisionManifold)) = some m := hm
    split at hm'
    · exact Option.noConfusion hm'
    · rename_i hp
      obtain rfl := (Option.some.inj hm').symm
      refine ⟨not_le.mp hp, ?_⟩
      have hne : cp ≠ (pc.x, pc.y) := hnd d cp hcf
      have hnz : ¬ ((pc.x - cp.1) = 0 ∧ (pc.y - cp.2) = 0) := by
        rintro ⟨h1, h2⟩
        apply hne
        have e1 : cp.1 = pc.x := by linarith
        have e2 : cp.2 = pc.y := by linarith
        exact Prod.ext e1 e2
      exact unit_of_div _ _ hnz

/-- C6 (amended): for every shape pair and poses, `collision_manifold`
either returns `None` or returns a manifold, and under nondegeneracy
(nonnegative circle radii; the circle center not lying exactly on the
nearest polygon boundary feature) the returned penetration is strictly
positive and the normal has unit length.  Totality of the embedding is the
counterpart of "never raises"; purity of "mutates no input". -/
theorem collision_manifold_sound (sa sb : Shape2D) (pa pb : Pose2D)
    (hnd : NondegContact sa pa sb pb) (m : CollisionManifold)
    (hm : collision_manifold sa pa sb pb = some m) :
    0 < m.penetration ∧ hypotR m.normal.1 m.normal.2 = 1 := by
  rcases sa with ra | va <;> rcases sb with rb | vb
  · -- circle versus circle
    obtain ⟨hra, hrb⟩ := hnd
    simp only [SimEnv.collision_manifold, SimEnv.circleVsCircleManifold] at hm
    have h0 : (0:ℝ) ≤ (pb.x - pa.x) * (pb.x - pa.x) + (pb.y - pa.y) * (pb.y - pa.y) := by
      nlinarith [mul_self_nonneg (pb.x - pa.x), mul_self_nonneg (pb.y - pa.y)]
    have hs : Real.sqrt ((pb.x - pa.x) * (pb.x - pa.x) + (pb.y - pa.y) * (pb.y - pa.y)) ^ 2
        = (pb.x - pa.x) * (pb.x - pa.x) + (pb.y - pa.y) * (pb.y - pa.y) := Real.sq_sqrt h0
    have hsn := Real.sqrt_nonneg
      ((pb.x - pa.x) * (pb.x - pa.x) + (pb.y - pa.y) * (pb.y - pa.y))
    split at hm
    · exact Option.noConfusion hm
    · rename_i hsep
      have hlt := not_le.mp hsep
      split at hm
      · split at hm
        · rename_i hd1
          obtain rfl := (Option.some.inj hm).symm
          dsimp only
          refine ⟨by nlinarith [hs, hsn, hlt, hra, hrb], hypotR_eq_one_of _ _ ?_⟩
          have hpos : (0:ℝ) < Real.sqrt
              ((pb.x - pa.x) * (pb.x - pa.x) + (pb.y - pa.y) * (pb.y - pa.y)) :=
            lt_trans (by norm_num) hd1
          have hs' : (pb.x - pa.x) ^ 2 + (pb.y - pa.y) ^ 2 = Real.sqrt
              ((pb.x - pa.x) * (pb.x - pa.x) + (pb.y - pa.y) * (pb.y - pa.y)) ^ 2 := by
            rw [hs]; ring
          rw [div_pow, div_pow, div_add_div_same, hs']
          exact div_self (pow_ne_zero 2 (ne_of_gt hpos))
        · obtain rfl := (Option.some.inj hm).symm
          dsimp only
          exact ⟨by nlinarith [hs, hsn, hlt, hra, hrb], hypotR_eq_one_of 1 0 (by norm_num)⟩
      · split at hm
        · rename_i hd1
          exact absurd hd1 (by norm_num)
        · obtain rfl := (Option.some.inj hm).symm
          dsimp only
          exact ⟨by nlinarith [hlt, h0, hra, hrb], hypotR_eq_one_of 1 0 (by norm_num)⟩
  · -- circle versus polygon
    simp only [SimEnv.collision_manifold] at hm
    have h := circleVsPolygonManifold_sound ra pa vb pb hnd m hm
    exact ⟨h.1, hypotR_eq_one_of _ _ h.2⟩
  · -- polygon versus circle: negated circle-polygon normal
    simp only [SimEnv.collision_manifold] at hm
    rcases hcm : circleVsPolygonManifold rb pb va pa with _ | m'
    · rw [hcm] at hm
      exact Option.noConfusion hm
    · rw [hcm] at hm
      have h := circleVsPolygonManifold_sound rb pb va pa hnd m' hcm
      have hm2 : (some (⟨(-m'.normal.1, -m'.normal.2), m'.penetration,
          m'.contact_point⟩ : CollisionManifold)) = some m := hm
      obtain rfl := (Option.some.inj hm2).symm
      refine ⟨h.1, hypotR_eq_one_of _ _ ?_⟩
      show (-m'.normal.1) ^ 2 + (-m'.normal.2) ^ 2 = 1
      rw [neg_sq, neg_sq]
      exact h.2
  · -- polygon versus polygon
    simp only [SimEnv.collision_manifold, SimEnv.polygonVsPolygonManifold] at hm
    split at hm
    · exact Option.noConfusion hm
    · rename_i st1 hx1
      have hg1 := checkAxes_inv (worldVertices va pa) (worldVertices vb pb)
        (cyclicPairs (worldVertices va pa)) none st1
        (fun pen ax pt hc => Option.noConfusion hc) hx1
      split at hm
      · exact Option.noConfusion hm
      · rename_i w
        split at hm
        · exact Option.noConfusion hm
        · rename_i st2 hx2
          have hg2 := checkAxes_inv (worldVertices vb pb) (worldVertices va pa)
            (cyclicPairs (worldVertices vb pb)) (some w) st2 hg1 hx2
          split at hm
          · exact Option.noConfusion hm
          · rename_i pen axis point
            obtain ⟨hpen, hunit⟩ := hg2 pen axis point rfl
            obtain rfl := (Option.some.inj hm).symm
            refine ⟨hpen, hypotR_eq_one_of _ _ ?_⟩
            dsimp only
            split_ifs with hdir
            · show (-axis.1) ^ 2 + (-axis.2) ^ 2 = 1
              rw [neg_sq, neg_sq]
              exact hunit
            · exact hunit

/-- The vertex loop of `_circle_vs_polygon_manifold` keeps a best distance of
zero: no vertex can beat it. -/
theorem closestVertexStep_keep (center cp v : ℝ × ℝ) :
    closestVertexStep center (some (0, cp)) v = some (0, cp) := by
  simp only [SimEnv.closestVertexStep]
  rw [if_neg (not_lt.mpr (hypotR_nonneg _ _))]

/-- The edge loop of `_circle_vs_polygon_manifold` keeps a best distance of
zero: no segment distance can beat it. -/
theorem closestEdgeStep_keep (center cp : ℝ × ℝ) (seg : (ℝ × ℝ) × (ℝ × ℝ)) :
    closestEdgeStep center (some (0, cp)) seg = some (0, cp) := by
  have hd : ¬ distancePointToSegment center seg.1 seg.2 < 0 := by
    simp only [SimEnv.distancePointToSegment]
    split_ifs <;> exact not_lt.mpr (hypotR_nonneg _ _)
  simp only [SimEnv.closestEdgeStep]
  rw [if_neg hd]

/-- C6 counterexample: a unit circle centered exactly on a vertex of a
triangle.  `collision_manifold` returns a manifold with penetration `1` but
normal `(0, 0)` — the claimed unit-length normal fails (the guarded
normalization `math.hypot(nx, ny) or 1.0` divides the zero vector by one). -/
theorem collision_manifold_zero_normal :
    SimEnv.collision_manifold (.circle 1) SimEnv.Pose2D.ident
        (.poly [(0, 0), (1, 0), (0, 1)]) SimEnv.Pose2D.ident
      = some ⟨(0, 0), 1, (0, 0)⟩ ∧
    SimEnv.hypotR 0 0 ≠ 1 := by
  have h00 : SimEnv.hypotR (0:ℝ) 0 = 0 := by
    unfold SimEnv.hypotR
    norm_num [Real.sqrt_zero]
  have hwv : SimEnv.worldVertices [((0:ℝ), (0:ℝ)), ((1:ℝ), (0:ℝ)), ((0:ℝ), (1:ℝ))]
      ⟨0, 0, 0⟩ = [((0:ℝ), (0:ℝ)), ((1:ℝ), (0:ℝ)), ((0:ℝ), (1:ℝ))] := by
    unfold SimEnv.worldVertices
    norm_num [SimEnv.Pose2D.transform_point, Real.cos_zero, Real.sin_zero]
  have e1 : SimEnv.closestVertexStep ((0:ℝ), (0:ℝ)) none ((0:ℝ), (0:ℝ))
      = some (0, ((0:ℝ), (0:ℝ))) := by
    simp only [SimEnv.closestVertexStep]
    norm_num [SimEnv.hypotR, Real.sqrt_zero]
  have hv : [((0:ℝ), (0:ℝ)), ((1:ℝ), (0:ℝ)), ((0:ℝ), (1:ℝ))].foldl
      (SimEnv.closestVertexStep ((0:ℝ), (0:ℝ))) none = some (0, ((0:ℝ), (0:ℝ))) := by
    rw [List.foldl_cons, e1, List.foldl_cons, closestVertexStep_keep,
      List.foldl_cons, closestVertexStep_keep, List.foldl_nil]
  have hcf : SimEnv.closestFeature ((0:ℝ), (0:ℝ))
      [((0:ℝ), (0:ℝ)), ((1:ℝ), (0:ℝ)), ((0:ℝ), (1:ℝ))] = some (0, ((0:ℝ), (0:ℝ))) := by
    unfold SimEnv.closestFeature
    rw [hv]
    exact foldl_const_fix _ _ (fun x => closestEdgeStep_keep ((0:ℝ), (0:ℝ)) ((0:ℝ), (0:ℝ)) x) _
  constructor
  · simp only [SimEnv.collision_manifold, SimEnv.circleVsPolygonManifold, SimEnv.Pose2D.ident]
    rw [hwv, hcf]
    norm_num [SimEnv.hypotR, Real.sqrt_zero]
  · rw [h00]
    norm_num

/-- C6 witness: two overlapping unit circles produce a manifold, and the
soundness theorem applies to it: penetration `1 > 0` and a unit normal. -/
theorem collision_manifold_sound_witness :
    SimEnv.NondegContact (.circle 1) SimEnv.Pose2D.ident (.circle 1) ⟨1, 0, 0⟩ ∧
    SimEnv.collision_manifold (.circle 1) SimEnv.Pose2D.ident (.circle 1) ⟨1, 0, 0⟩
      = some ⟨(1, 0), 1, (1, 0)⟩ ∧
    (0 < (1:ℝ) ∧ SimEnv.hypotR 1 0 = 1) := by
  have hnd : SimEnv.NondegContact (.circle 1) SimEnv.Pose2D.ident (.circle 1) ⟨1, 0, 0⟩ := by
    show (0:ℝ) ≤ 1 ∧ (0:ℝ) ≤ 1
    norm_num
  have hm : SimEnv.collision_manifold (.circle 1) SimEnv.Pose2D.ident (.circle 1) ⟨1, 0, 0⟩
      = some ⟨(1, 0), 1, (1, 0)⟩ := by
    simp only [SimEnv.collision_manifold, SimEnv.circleVsCircleManifold, SimEnv.Pose2D.ident]
    norm_num [Real.sqrt_one]
  exact ⟨hnd, hm,
    collision_manifold_sound (.circle 1) (.circle 1) SimEnv.Pose2D.ident ⟨1, 0, 0⟩ hnd
      ⟨(1, 0), 1, (1, 0)⟩ hm⟩

/-- `math.hypot` scales absolutely homogeneously. -/
theorem hypotR_scale (a b c : ℝ) : hypotR (a * c) (b * c) = hypotR a b * |c| := by
  unfold hypotR
  rw [show (a * c) ^ 2 + (b * c) ^ 2 = (a ^ 2 + b ^ 2) * c ^ 2 by ring,
    Real.sqrt_mul (by positivity), Real.sqrt_sq_eq_abs]

/-- Triangle inequality for `math.hypot`. -/
theorem hypotR_add_le (a b c d : ℝ) : hypotR (a + c) (b + d) ≤ hypotR a b + hypotR c d := by
  have h1 := hypotR_nonneg a b
  have h2 := hypotR_nonneg c d
  have hs1 := hypotR_sq a b
  have hs2 := hypotR_sq c d
  have hcs : a * c + b * d ≤ hypotR a b * hypotR c d := by
    nlinarith [sq_nonneg (a * d - b * c),
      sq_nonneg (hypotR a b * hypotR c d - (a * c + b * d)), mul_nonneg h1 h2]
  calc hypotR (a + c) (b + d)
      ≤ Real.sqrt ((hypotR a b + hypotR c d) ^ 2) := by
        apply Real.sqrt_le_sqrt
        nlinarith [hcs, hs1, hs2]
    _ = hypotR a b + hypotR c d := Real.sqrt_sq (add_nonneg h1 h2)

/-- `_sanitize_velocity` touches only the velocity fields. -/
theorem sanitizeVelocity_fields (maxL maxA : ℝ) (b : Body) :
    (sanitizeVelocity maxL maxA b).1.can_move = b.can_move ∧
    (sanitizeVelocity maxL maxA b).1.mass = b.mass ∧
    (sanitizeVelocity maxL maxA b).1.moment_of_inertia = b.moment_of_inertia ∧
    (sanitizeVelocity maxL maxA b).1.fx = b.fx ∧
    (sanitizeVelocity maxL maxA b).1.fy = b.fy ∧
    (sanitizeVelocity maxL maxA b).1.torque = b.torque ∧
    (sanitizeVelocity maxL maxA b).1.pose = b.pose := by
  simp only [SimEnv.sanitizeVelocity]
  split_ifs <;> exact ⟨rfl, rfl, rfl, rfl, rfl, rfl, rfl⟩

/-- `_sanitize_velocity` output bounds: with positive speed limits, the
sanitized linear speed is at most `max_linear_speed` and the sanitized
angular speed at most `max_angular_speed`. -/
theorem sanitizeVelocity_bound (maxL maxA : ℝ) (b : Body) (hL : 0 < maxL) (hA : 0 < maxA) :
    hypotR (sanitizeVelocity maxL maxA b).1.vx (sanitizeVelocity maxL maxA b).1.vy ≤ maxL ∧
    |(sanitizeVelocity maxL maxA b).1.omega| ≤ maxA := by
  have hM : (0:ℝ) < max (hypotR b.vx b.vy) (1 / 10 ^ 9) :=
    lt_of_lt_of_le (by norm_num) (le_max_right _ _)
  have hclamp : hypotR (b.vx * (maxL / max (hypotR b.vx b.vy) (1 / 10 ^ 9)))
      (b.vy * (maxL / max (hypotR b.vx b.vy) (1 / 10 ^ 9))) ≤ maxL := by
    rw [hypotR_scale, abs_of_pos (div_pos hL hM)]
    have hle : hypotR b.vx b.vy / max (hypotR b.vx b.vy) (1 / 10 ^ 9) ≤ 1 :=
      (div_le_one hM).mpr (le_max_left _ _)
    calc hypotR b.vx b.vy * (maxL / max (hypotR b.vx b.vy) (1 / 10 ^ 9))
        = hypotR b.vx b.vy / max (hypotR b.vx b.vy) (1 / 10 ^ 9) * maxL := by ring
      _ ≤ 1 * maxL := mul_le_mul_of_nonneg_right hle hL.le
      _ = maxL := one_mul _
  have hnegA : |(-maxA : ℝ)| ≤ maxA := by rw [abs_neg, abs_of_pos hA]
  have hposA : |(maxA : ℝ)| ≤ maxA := le_of_eq (abs_of_pos hA)
  simp only [SimEnv.sanitizeVelocity]
  split_ifs with h1 h2 h3 h4 h5 <;> dsimp only <;> refine ⟨?_, ?_⟩
  · exact hclamp
  · exact hnegA
  · exact hclamp
  · exact hposA
  · exact hclamp
  · exact not_lt.mp (fun hlt => h2 ⟨hA, hlt⟩)
  · exact not_lt.mp (fun hlt => h1 ⟨hL, hlt⟩)
  · exact hnegA
  · exact not_lt.mp (fun hlt => h1 ⟨hL, hlt⟩)
  · exact hposA
  · exact not_lt.mp (fun hlt => h1 ⟨hL, hlt⟩)
  · exact not_lt.mp (fun hlt => h4 ⟨hA, hlt⟩)

/-- `_apply_impulse` leaves the pending-force accumulator alone. -/
theorem applyImpulse_fx (b : Body) (i cp : ℝ × ℝ) : (applyImpulse b i cp).fx = b.fx := by
  simp only [SimEnv.applyImpulse]
  split_ifs <;> rfl

/-- `_apply_impulse` leaves the pending-force accumulator alone. -/
theorem applyImpulse_fy (b : Body) (i cp : ℝ × ℝ) : (applyImpulse b i cp).fy = b.fy := by
  simp only [SimEnv.applyImpulse]
  split_ifs <;> rfl

/-- `_apply_impulse` leaves the pending torque alone. -/
theorem applyImpulse_torque (b : Body) (i cp : ℝ × ℝ) :
    (applyImpulse b i cp).torque = b.torque := by
  simp only [SimEnv.applyImpulse]
  split_ifs <;> rfl

/-- `_apply_impulse` leaves movability alone. -/
theorem applyImpulse_canMove (b : Body) (i cp : ℝ × ℝ) :
    (applyImpulse b i cp).can_move = b.can_move := by
  simp only [SimEnv.applyImpulse]
  split_ifs <;> rfl

/-- `_apply_impulse` leaves the mass alone. -/
theorem applyImpulse_mass (b : Body) (i cp : ℝ × ℝ) : (applyImpulse b i cp).mass = b.mass := by
  simp only [SimEnv.applyImpulse]
  split_ifs <;> rfl

/-- `_solve_wheel_traction` applies only velocity impulses: forces, torque,
movability and mass of the body are untouched. -/
theorem solveWheelTraction_pres (b : Body) (cp fwd : ℝ × ℝ)
    (ps dic ml mlat nl ld dt : ℝ) :
    (solveWheelTraction b cp fwd ps dic ml mlat nl ld dt).1.fx = b.fx ∧
    (solveWheelTraction b cp fwd ps dic ml mlat nl ld dt).1.fy = b.fy ∧
    (solveWheelTraction b cp fwd ps dic ml mlat nl ld dt).1.torque = b.torque ∧
    (solveWheelTraction b cp fwd ps dic ml mlat nl ld dt).1.can_move = b.can_move ∧
    (solveWheelTraction b cp fwd ps dic ml mlat nl ld dt).1.mass = b.mass := by
  simp only [SimEnv.solveWheelTraction]
  split_ifs <;>
    refine ⟨?_, ?_, ?_, ?_, ?_⟩ <;>
    simp only [applyImpulse_fx, applyImpulse_fy, applyImpulse_torque, applyImpulse_canMove,
      applyImpulse_mass]

/-- `Motor.command` on a wheel motor applies only velocity impulses to the
parent body. -/
theorem motorCommand_pres (m : WheelMotor) (v : ℝ) (p : Body) (dt : ℝ) (si : Option ℕ) :
    (WheelMotor.command m v p dt si).2.fx = p.fx ∧
    (WheelMotor.command m v p dt si).2.fy = p.fy ∧
    (WheelMotor.command m v p dt si).2.torque = p.torque ∧
    (WheelMotor.command m v p dt si).2.can_move = p.can_move ∧
    (WheelMotor.command m v p dt si).2.mass = p.mass := by
  simp only [SimEnv.WheelMotor.command, SimEnv.WheelMotor.applyCmd]
  split_ifs <;>
    refine ⟨?_, ?_, ?_, ?_, ?_⟩ <;>
    first
      | rfl
      | exact (solveWheelTraction_pres _ _ _ _ _ _ _ _ _ _).1
      | exact (solveWheelTraction_pres _ _ _ _ _ _ _ _ _ _).2.1
      | exact (solveWheelTraction_pres _ _ _ _ _ _ _ _ _ _).2.2.1
      | exact (solveWheelTraction_pres _ _ _ _ _ _ _ _ _ _).2.2.2.1
      | exact (solveWheelTraction_pres _ _ _ _ _ _ _ _ _ _).2.2.2.2

/-- `Motor.command` preserves C7's clean-body invariant. -/
theorem motorCommand_clean (m : WheelMotor) (v : ℝ) (p : Body) (dt : ℝ) (si : Option ℕ)
    (h : CleanBody p) : CleanBody (WheelMotor.command m v p dt si).2 := by
  obtain ⟨h1, h2, h3, h4⟩ := h
  obtain ⟨g1, g2, g3, g4, g5⟩ := motorCommand_pres m v p dt si
  refine ⟨?_, ?_, ?_, ?_⟩
  · rw [g1]; exact h1
  · rw [g2]; exact h2
  · rw [g3]; exact h3
  · intro hcm
    rw [g5]
    rw [g4] at hcm
    exact h4 hcm

/-- A successful association-list lookup is a member. -/
theorem alistLookup_mem {α : Type} (l : List (String × α)) (k : String) (v : α)
    (h : alistLookup l k = some v) : (k, v) ∈ l := by
  unfold alistLookup at h
  rcases hf : l.find? (fun p => p.1 = k) with _ | q
  · rw [hf] at h
    exact Option.noConfusion h
  · rw [hf] at h
    have hq := List.mem_of_find?_eq_some hf
    have hqk : q.1 = k := by
      have := List.find?_some hf
      simpa using this
    have hv : q.2 = v := Option.some.inj h
    rw [← hqk, ← hv]
    exact hq

/-- Pointwise update preserves a pointwise property of an association
list. -/
theorem alistUpdate_forall {α : Type} (P : α → Prop) (l : List (String × α)) (k : String)
    (f : α → α) (hf : ∀ x, P x → P (f x)) (h : ∀ p ∈ l, P p.2) :
    ∀ p ∈ alistUpdate l k f, P p.2 := by
  intro p hp
  unfold alistUpdate at hp
  obtain ⟨q, hq, he⟩ := List.mem_map.mp hp
  by_cases hk : q.1 = k
  · rw [if_pos hk] at he
    rw [← he]
    exact hf q.2 (h q hq)
  · rw [if_neg hk] at he
    rw [← he]
    exact h q hq

/-- A single motor command preserves the physics tunables, gravity and the
clean-body invariant of the body table. -/
theorem applyMotorCommand_phys (s : SimState) (mn : String) (v dt : ℝ)
    (h : ∀ nb ∈ s.bodies, CleanBody nb.2) :
    (applyMotorCommand s mn v dt).gravity = s.gravity ∧
    (applyMotorCommand s mn v dt).linear_damping = s.linear_damping ∧
    (applyMotorCommand s mn v dt).angular_damping = s.angular_damping ∧
    (applyMotorCommand s mn v dt).max_linear_speed = s.max_linear_speed ∧
    (applyMotorCommand s mn v dt).max_angular_speed = s.max_angular_speed ∧
    (∀ nb ∈ (applyMotorCommand s mn v dt).bodies, CleanBody nb.2) := by
  unfold SimEnv.applyMotorCommand
  split
  · exact ⟨rfl, rfl, rfl, rfl, rfl, h⟩
  · rename_i mp hmp
    split
    · exact ⟨rfl, rfl, rfl, rfl, rfl, h⟩
    · rename_i body hbody
      refine ⟨rfl, rfl, rfl, rfl, rfl, ?_⟩
      have hb : CleanBody body := h (mp.2, body) (alistLookup_mem _ _ _ hbody)
      exact alistUpdate_forall CleanBody s.bodies mp.2 _
        (fun x _ => motorCommand_clean _ _ _ _ _ hb) h

/-- Folding a command list preserves the same facts. -/
theorem cmdsFold_phys (cmds : List (String × ℝ)) (dt : ℝ) :
    ∀ s : SimState, (∀ nb ∈ s.bodies, CleanBody nb.2) →
      (cmds.foldl (fun t c => applyMotorCommand t c.1 c.2 dt) s).gravity = s.gravity ∧
      (cmds.foldl (fun t c => applyMotorCommand t c.1 c.2 dt) s).linear_damping
        = s.linear_damping ∧
      (cmds.foldl (fun t c => applyMotorCommand t c.1 c.2 dt) s).angular_damping
        = s.angular_damping ∧
      (cmds.foldl (fun t c => applyMotorCommand t c.1 c.2 dt) s).max_linear_speed
        = s.max_linear_speed ∧
      (cmds.foldl (fun t c => applyMotorCommand t c.1 c.2 dt) s).max_angular_speed
        = s.max_angular_speed ∧
      (∀ nb ∈ (cmds.foldl (fun t c => applyMotorCommand t c.1 c.2 dt) s).bodies,
        CleanBody nb.2) := by
  induction cmds with
  | nil => intro s h; exact ⟨rfl, rfl, rfl, rfl, rfl, h⟩
  | cons hd tl ih =>
      intro s h
      obtain ⟨g1, g2, g3, g4, g5, g6⟩ := applyMotorCommand_phys s hd.1 hd.2 dt h
      obtain ⟨i1, i2, i3, i4, i5, i6⟩ := ih (applyMotorCommand s hd.1 hd.2 dt) g6
      rw [List.foldl_cons]
      exact ⟨i1.trans g1, i2.trans g2, i3.trans g3, i4.trans g4, i5.trans g5, i6⟩

/-- One controller-loop iteration preserves the physics tunables, gravity and
the clean-body invariant. -/
theorem tickRobot_phys (hc : String → Bool) (ctrl : ControllerFun)
    (rbr : String → List (String × ℝ)) (dt : ℝ) (acc : SimState × List String) (rid : String)
    (h : ∀ nb ∈ acc.1.bodies, CleanBody nb.2) :
    (tickRobot hc ctrl rbr dt acc rid).1.gravity = acc.1.gravity ∧
    (tickRobot hc ctrl rbr dt acc rid).1.linear_damping = acc.1.linear_damping ∧
    (tickRobot hc ctrl rbr dt acc rid).1.angular_damping = acc.1.angular_damping ∧
    (tickRobot hc ctrl rbr dt acc rid).1.max_linear_speed = acc.1.max_linear_speed ∧
    (tickRobot hc ctrl rbr dt acc rid).1.max_angular_speed = acc.1.max_angular_speed ∧
    (∀ nb ∈ (tickRobot hc ctrl rbr dt acc rid).1.bodies, CleanBody nb.2) := by
  simp only [SimEnv.tickRobot]
  split_ifs with h1 h2
  · exact ⟨rfl, rfl, rfl, rfl, rfl, h⟩
  · obtain ⟨g1, g2, g3, g4, g5, g6⟩ :=
      cmdsFold_phys (ctrl rid (rbr rid) dt acc.1.step_index).1 dt acc.1 h
    split
    · exact ⟨g1, g2, g3, g4, g5, g6⟩
    · exact ⟨g1, g2, g3, g4, g5, g6⟩
  · exact ⟨rfl, rfl, rfl, rfl, rfl, h⟩

/-- The controller phase preserves the physics tunables, gravity and the
clean-body invariant. -/
theorem tickController_phys (hc : String → Bool) (ctrl : ControllerFun) (s : SimState)
    (rbr : String → List (String × ℝ)) (dt : ℝ)
    (h : ∀ nb ∈ s.bodies, CleanBody nb.2) :
    (tickController hc ctrl s rbr dt).1.gravity = s.gravity ∧
    (tickController hc ctrl s rbr dt).1.linear_damping = s.linear_damping ∧
    (tickController hc ctrl s rbr dt).1.angular_damping = s.angular_damping ∧
    (tickController hc ctrl s rbr dt).1.max_linear_speed = s.max_linear_speed ∧
    (tickController hc ctrl s rbr dt).1.max_angular_speed = s.max_angular_speed ∧
    (∀ nb ∈ (tickController hc ctrl s rbr dt).1.bodies, CleanBody nb.2) := by
  exact foldl_preserves (fun (acc : SimState × List String) =>
      acc.1.gravity = s.gravity ∧ acc.1.linear_damping = s.linear_damping ∧
      acc.1.angular_damping = s.angular_damping ∧
      acc.1.max_linear_speed = s.max_linear_speed ∧
      acc.1.max_angular_speed = s.max_angular_speed ∧
      ∀ nb ∈ acc.1.bodies, CleanBody nb.2)
    (tickRobot hc ctrl rbr dt) s.robot_ids
    (fun acc rid hacc => by
      obtain ⟨a1, a2, a3, a4, a5, a6⟩ := hacc
      obtain ⟨b1, b2, b3, b4, b5, b6⟩ := tickRobot_phys hc ctrl rbr dt acc rid a6
      exact ⟨b1.trans a1, b2.trans a2, b3.trans a3, b4.trans a4, b5.trans a5, b6⟩)
    (s, []) ⟨rfl, rfl, rfl, rfl, rfl, h⟩

/-- `SimObject.integrate` on a movable positive-mass body: velocities gain
exactly the pending-force contribution. -/
theorem bodyIntegrate_vel (b : Body) (dt : ℝ) (hcan : b.can_move = true) (hm : 0 < b.mass) :
    (bodyIntegrate b dt).vx = b.vx + b.fx / b.mass * dt ∧
    (bodyIntegrate b dt).vy = b.vy + b.fy / b.mass * dt ∧
    (bodyIntegrate b dt).omega = (if 0 < b.moment_of_inertia then
      b.omega + b.torque / b.moment_of_inertia * dt else b.omega) := by
  simp only [SimEnv.bodyIntegrate]
  rw [if_neg (fun hn => hn hcan), if_pos hm, if_pos hm]
  exact ⟨rfl, rfl, rfl⟩

/-- The integrate step keeps a gravity-only forced body within the relaxed
speed bound `max_linear_speed + |gravity| * dt` and within the angular
limit. -/
theorem bodyIntegrate_speed (c : Body) (g : ℝ × ℝ) (dt maxL maxA : ℝ)
    (hdt : 0 ≤ dt) (hcan : c.can_move = true) (hm : 0 < c.mass)
    (hfx : c.fx = g.1 * c.mass) (hfy : c.fy = g.2 * c.mass) (htq : c.torque = 0)
    (hsp : hypotR c.vx c.vy ≤ maxL) (hom : |c.omega| ≤ maxA) :
    hypotR (bodyIntegrate c dt).vx (bodyIntegrate c dt).vy
      ≤ maxL + hypotR g.1 g.2 * dt ∧
    |(bodyIntegrate c dt).omega| ≤ maxA := by
  obtain ⟨hvx, hvy, homega⟩ := bodyIntegrate_vel c dt hcan hm
  rw [hvx, hvy, homega, hfx, hfy, htq]
  constructor
  · have h1 : g.1 * c.mass / c.mass * dt = g.1 * dt := by
      rw [mul_div_assoc, div_self (ne_of_gt hm), mul_one]
    have h2 : g.2 * c.mass / c.mass * dt = g.2 * dt := by
      rw [mul_div_assoc, div_self (ne_of_gt hm), mul_one]
    rw [h1, h2]
    calc hypotR (c.vx + g.1 * dt) (c.vy + g.2 * dt)
        ≤ hypotR c.vx c.vy + hypotR (g.1 * dt) (g.2 * dt) := hypotR_add_le _ _ _ _
      _ = hypotR c.vx c.vy + hypotR g.1 g.2 * |dt| := by rw [hypotR_scale]
      _ = hypotR c.vx c.vy + hypotR g.1 g.2 * dt := by rw [abs_of_nonneg hdt]
      _ ≤ maxL + hypotR g.1 g.2 * dt := by linarith
  · split_ifs with hmoi
    · rw [zero_div, zero_mul, add_zero]
      exact hom
    · exact hom

/-- The per-body integrate step (gravity force, damping, sanitize, integrate)
keeps every clean movable body within the relaxed speed bound. -/
theorem integrateBody_bound (g : ℝ × ℝ) (ld ad maxL maxA dt : ℝ) (b : Body)
    (hL : 0 < maxL) (hA : 0 < maxA) (hdt : 0 ≤ dt) (hb : CleanBody b) :
    SpeedBounded maxA (maxL + hypotR g.1 g.2 * dt)
      (integrateBody g ld ad maxL maxA dt b).1 := by
  obtain ⟨hbfx, hbfy, hbtq, hbmass⟩ := hb
  simp only [SimEnv.integrateBody]
  split_ifs with hguard
  · intro hcm
    exfalso
    rcases hguard with hnc | hm0
    · exact hnc hcm
    · exact absurd (hbmass hcm) (not_lt.mpr hm0)
  · push_neg at hguard
    obtain ⟨hcm0, hm0⟩ := hguard
    intro _
    have hfields := sanitizeVelocity_fields maxL maxA
      { b with fx := b.fx + g.1 * b.mass, fy := b.fy + g.2 * b.mass,
               vx := b.vx * ld, vy := b.vy * ld, omega := b.omega * ad }
    have hbound := sanitizeVelocity_bound maxL maxA
      { b with fx := b.fx + g.1 * b.mass, fy := b.fy + g.2 * b.mass,
               vx := b.vx * ld, vy := b.vy * ld, omega := b.omega * ad } hL hA
    have hcan2 : (sanitizeVelocity maxL maxA
        { b with fx := b.fx + g.1 * b.mass, fy := b.fy + g.2 * b.mass,
                 vx := b.vx * ld, vy := b.vy * ld, omega := b.omega * ad }).1.can_move
        = true := by
      rw [hfields.1]
      exact hcm0
    have hm2 : 0 < (sanitizeVelocity maxL maxA
        { b with fx := b.fx + g.1 * b.mass, fy := b.fy + g.2 * b.mass,
                 vx := b.vx * ld, vy := b.vy * ld, omega := b.omega * ad }).1.mass := by
      rw [hfields.2.1]
      exact hm0
    have hfx2 : (sanitizeVelocity maxL maxA
        { b with fx := b.fx + g.1 * b.mass, fy := b.fy + g.2 * b.mass,
                 vx := b.vx * ld, vy := b.vy * ld, omega := b.omega * ad }).1.fx
        = g.1 * (sanitizeVelocity maxL maxA
        { b with fx := b.fx + g.1 * b.mass, fy := b.fy + g.2 * b.mass,
                 vx := b.vx * ld, vy := b.vy * ld, omega := b.omega * ad }).1.mass := by
      rw [hfields.2.2.2.1, hfields.2.1]
      show b.fx + g.1 * b.mass = g.1 * b.mass
      rw [hbfx, zero_add]
    have hfy2 : (sanitizeVelocity maxL maxA
        { b with fx := b.fx + g.1 * b.mass, fy := b.fy + g.2 * b.mass,
                 vx := b.vx * ld, vy := b.vy * ld, omega := b.omega * ad }).1.fy
        = g.2 * (sanitizeVelocity maxL maxA
        { b with fx := b.fx + g.1 * b.mass, fy := b.fy + g.2 * b.mass,
                 vx := b.vx * ld, vy := b.vy * ld, omega := b.omega * ad }).1.mass := by
      rw [hfields.2.2.2.2.1, hfields.2.1]
      show b.fy + g.2 * b.mass = g.2 * b.mass
      rw [hbfy, zero_add]
    have htq2 : (sanitizeVelocity maxL maxA
        { b with fx := b.fx + g.1 * b.mass, fy := b.fy + g.2 * b.mass,
                 vx := b.vx * ld, vy := b.vy * ld, omega := b.omega * ad }).1.torque = 0 := by
      rw [hfields.2.2.2.2.2.1]
      exact hbtq
    exact bodyIntegrate_speed _ g dt maxL maxA hdt hcan2 hm2 hfx2 hfy2 htq2
      hbound.1 hbound.2

/-- A fold that appends one transformed entry per element (threading an
auxiliary accumulator) produces the mapped list. -/
theorem foldl_append_fst {α β γ : Type} (f : α → β) (k : α → String) (g : γ → α → γ) :
    ∀ (l : List α) (acc : List (String × β) × γ),
      (l.foldl (fun ac nb => (ac.1 ++ [(k nb, f nb)], g ac.2 nb)) acc).1
        = acc.1 ++ l.map (fun nb => (k nb, f nb)) := by
  intro l
  induction l with
  | nil => intro acc; simp
  | cons hd tl ih =>
      intro acc
      rw [List.foldl_cons, ih, List.map_cons]
      simp

/-- `_integrate_bodies` maps the per-body integrate step over the table. -/
theorem integrateBodies_bodies (s : SimState) (dt : ℝ) :
    (integrateBodies s dt).bodies = s.bodies.map (fun nb =>
      (nb.1, (integrateBody s.gravity s.linear_damping s.angular_damping
        s.max_linear_speed s.max_angular_speed dt nb.2).1)) := by
  refine (foldl_append_fst
    (fun nb : String × Body => (integrateBody s.gravity s.linear_damping s.angular_damping
      s.max_linear_speed s.max_angular_speed dt nb.2).1)
    (fun nb => nb.1)
    (fun w nb => match (integrateBody s.gravity s.linear_damping s.angular_damping
      s.max_linear_speed s.max_angular_speed dt nb.2).2 with
      | some m => some m | none => w)
    s.bodies ([], s.last_physics_warning)).trans ?_
  simp

/-- After `_integrate_bodies`, every clean movable body obeys the relaxed
speed bound and the angular limit. -/
theorem integrateBodies_bound (s : SimState) (dt : ℝ) (hL : 0 < s.max_linear_speed)
    (hA : 0 < s.max_angular_speed) (hdt : 0 ≤ dt)
    (hclean : ∀ nb ∈ s.bodies, CleanBody nb.2) :
    ∀ nb ∈ (integrateBodies s dt).bodies,
      SpeedBounded s.max_angular_speed
        (s.max_linear_speed + hypotR s.gravity.1 s.gravity.2 * dt) nb.2 := by
  intro nb hnb
  rw [integrateBodies_bodies] at hnb
  obtain ⟨q, hq, he⟩ := List.mem_map.mp hnb
  rw [← he]
  exact integrateBody_bound s.gravity s.linear_damping s.angular_damping
    s.max_linear_speed s.max_angular_speed dt q.2 hL hA hdt (hclean q hq)

/-- One `_solve_joints` iteration only translates poses: every per-body speed
bound survives. -/
theorem solveJointStep_speed (dt maxA B : ℝ) (acc : SimState × List JointRuntime)
    (jr : JointRuntime) (h : ∀ nb ∈ acc.1.bodies, SpeedBounded maxA B nb.2) :
    ∀ nb ∈ (solveJointStep dt acc jr).1.bodies, SpeedBounded maxA B nb.2 := by
  have hposeupd : ∀ (l : List (String × Body)) (k : String) (d1 d2 : ℝ),
      (∀ nb ∈ l, SpeedBounded maxA B nb.2) →
      ∀ nb ∈ alistUpdate l k (fun b =>
        { b with pose := b.pose.translated d1 d2 }), SpeedBounded maxA B nb.2 := by
    intro l k d1 d2 hl
    exact alistUpdate_forall (fun b => SpeedBounded maxA B b) l k _ (fun x hx => hx) hl
  simp only [SimEnv.solveJointStep]
  split
  · split_ifs <;>
      first
        | exact h
        | exact hposeupd _ _ _ _ h
        | exact hposeupd _ _ _ _ (hposeupd _ _ _ _ h)
  · exact h

/-- `_solve_joints` preserves every per-body speed bound. -/
theorem solveJoints_speed (s : SimState) (dt maxA B : ℝ)
    (h : ∀ nb ∈ s.bodies, SpeedBounded maxA B nb.2) :
    ∀ nb ∈ (solveJoints s dt).bodies, SpeedBounded maxA B nb.2 := by
  exact foldl_preserves (fun (acc : SimState × List JointRuntime) =>
      ∀ nb ∈ acc.1.bodies, SpeedBounded maxA B nb.2)
    (solveJointStep dt) s.joints
    (fun acc jr hacc => solveJointStep_speed dt maxA B acc jr hacc) (s, []) h

/-- One `_solve_joints` iteration keeps the speed limits. -/
theorem solveJointStep_limits (dt : ℝ) (acc : SimState × List JointRuntime)
    (jr : JointRuntime) :
    (solveJointStep dt acc jr).1.max_linear_speed = acc.1.max_linear_speed ∧
    (solveJointStep dt acc jr).1.max_angular_speed = acc.1.max_angular_speed := by
  simp only [SimEnv.solveJointStep]
  split
  · split_ifs <;> exact ⟨rfl, rfl⟩
  · exact ⟨rfl, rfl⟩

/-- `_solve_joints` keeps the speed limits. -/
theorem solveJoints_limits (s : SimState) (dt : ℝ) :
    (solveJoints s dt).max_linear_speed = s.max_linear_speed ∧
    (solveJoints s dt).max_angular_speed = s.max_angular_speed := by
  exact foldl_preserves (fun (acc : SimState × List JointRuntime) =>
      acc.1.max_linear_speed = s.max_linear_speed ∧
      acc.1.max_angular_speed = s.max_angular_speed)
    (solveJointStep dt) s.joints
    (fun acc jr hacc =>
      ⟨(solveJointStep_limits dt acc jr).1.trans hacc.1,
       (solveJointStep_limits dt acc jr).2.trans hacc.2⟩)
    (s, []) ⟨rfl, rfl⟩

/-- One `_solve_contacts` pair iteration: positional corrections only move
poses, and every velocity write is either skipped (separating pair) or
followed by a sanitize, so all per-body speed bounds survive (with
`max_linear_speed ≤ B`). -/
theorem solveContactPair_speed (st : SimState) (ni nj : String) (maxL maxA B : ℝ)
    (hL : 0 < maxL) (hA : 0 < maxA) (hLB : maxL ≤ B)
    (hml : st.max_linear_speed = maxL) (hma : st.max_angular_speed = maxA)
    (h : ∀ nb ∈ st.bodies, SpeedBounded maxA B nb.2) :
    (solveContactPair st ni nj).max_linear_speed = maxL ∧
    (solveContactPair st ni nj).max_angular_speed = maxA ∧
    (∀ nb ∈ (solveContactPair st ni nj).bodies, SpeedBounded maxA B nb.2) := by
  simp only [SimEnv.solveContactPair]
  split
  · rename_i a b ha hb
    have hPa : SpeedBounded maxA B a := h (ni, a) (alistLookup_mem _ _ _ ha)
    have hPb : SpeedBounded maxA B b := h (nj, b) (alistLookup_mem _ _ _ hb)
    split_ifs <;>
      first
        | exact ⟨hml, hma, h⟩
        | (split <;>
            first
              | exact ⟨hml, hma, h⟩
              | (split <;>
                  first
                    | exact ⟨hml, hma, h⟩
                    | (refine ⟨hml, hma, ?_⟩
                       dsimp only
                       refine alistUpdate_forall _ _ _ _ (fun x _ => ?_)
                         (alistUpdate_forall _ _ _ _ (fun x _ => ?_) h) <;>
                         first
                           | exact hPa
                           | exact hPb
                           | (split_ifs <;>
                               first
                                 | exact hPa
                                 | exact hPb
                                 | (intro hcm
                                    exact absurd hcm (by assumption))
                                 | (intro _
                                    refine ⟨((sanitizeVelocity_bound st.max_linear_speed
                                        st.max_angular_speed _ (by rw [hml]; exact hL)
                                        (by rw [hma]; exact hA)).1.trans
                                        (le_of_eq hml)).trans hLB, ?_⟩
                                    rw [← hma]
                                    exact (sanitizeVelocity_bound st.max_linear_speed
                                      st.max_angular_speed _ (by rw [hml]; exact hL)
                                      (by rw [hma]; exact hA)).2)))))
  · exact ⟨hml, hma, h⟩

/-- `_solve_contacts` preserves the speed limits and all per-body speed
bounds. -/
theorem solveContacts_speed (s : SimState) (maxL maxA B : ℝ)
    (hL : 0 < maxL) (hA : 0 < maxA) (hLB : maxL ≤ B)
    (hml : s.max_linear_speed = maxL) (hma : s.max_angular_speed = maxA)
    (h : ∀ nb ∈ s.bodies, SpeedBounded maxA B nb.2) :
    ∀ nb ∈ (solveContacts s).bodies, SpeedBounded maxA B nb.2 := by
  have := foldl_preserves (fun (st : SimState) =>
      st.max_linear_speed = maxL ∧ st.max_angular_speed = maxA ∧
      ∀ nb ∈ st.bodies, SpeedBounded maxA B nb.2)
    (fun st p => solveContactPair st p.1 p.2) (allPairs (s.bodies.map Prod.fst))
    (fun st p hst => solveContactPair_speed st p.1 p.2 maxL maxA B hL hA hLB
      hst.1 hst.2.1 hst.2.2)
    s ⟨hml, hma, h⟩
  exact this.2.2

/-- The `_check_step_sanity` body loop only rewrites poses: every per-body
speed bound survives. -/
theorem checkSanity_fold_speed (prev : List (String × Pose2D)) (limit maxA B : ℝ) :
    ∀ (l : List (String × Body)) (acc : List (String × Body) × Option String),
      (∀ nb ∈ l, SpeedBounded maxA B nb.2) → (∀ nb ∈ acc.1, SpeedBounded maxA B nb.2) →
      ∀ nb ∈ (l.foldl (fun (acc : List (String × Body) × Option String) nb =>
        if ¬ nb.2.can_move then (acc.1 ++ [nb], acc.2)
        else
          match alistLookup prev nb.1 with
          | none => (acc.1 ++ [nb], acc.2)
          | some pv =>
            let dx := nb.2.pose.x - pv.x
            let dy := nb.2.pose.y - pv.y
            let dist := hypotR dx dy
            if limit < dist then
              let body' :=
                if 1 / 10 ^ 9 < dist then
                  { nb.2 with pose := (Pose2D.mk (pv.x + dx * (limit / dist))
                      (pv.y + dy * (limit / dist)) nb.2.pose.theta) }
                else { nb.2 with pose := pv }
              (acc.1 ++ [(nb.1, body')], some "large step clamped")
            else (acc.1 ++ [nb], acc.2)) acc).1, SpeedBounded maxA B nb.2 := by
  intro l
  induction l with
  | nil => intro acc _ hacc nb hnb; exact hacc nb hnb
  | cons hd tl ih =>
      intro acc hl hacc
      rw [List.foldl_cons]
      refine ih _ (fun nb hnb => hl nb (List.mem_cons_of_mem hd hnb)) ?_
      intro nb hnb
      have hhd : SpeedBounded maxA B hd.2 := hl hd (List.mem_cons_self hd tl)
      split at hnb
      · rcases List.mem_append.mp hnb with hx | hx
        · exact hacc nb hx
        · rw [List.mem_singleton] at hx
          rw [hx]
          exact hhd
      · split at hnb
        · rcases List.mem_append.mp hnb with hx | hx
          · exact hacc nb hx
          · rw [List.mem_singleton] at hx
            rw [hx]
            exact hhd
        · simp only [] at hnb
          split at hnb
          · rcases List.mem_append.mp hnb with hx | hx
            · exact hacc nb hx
            · rw [List.mem_singleton] at hx
              rw [hx]
              split_ifs <;> exact hhd
          · rcases List.mem_append.mp hnb with hx | hx
            · exact hacc nb hx
            · rw [List.mem_singleton] at hx
              rw [hx]
              exact hhd

/-- `_check_step_sanity` preserves every per-body speed bound. -/
theorem checkStepSanity_speed (prev : List (String × Pose2D)) (s : SimState) (maxA B : ℝ)
    (h : ∀ nb ∈ s.bodies, SpeedBounded maxA B nb.2) :
    ∀ nb ∈ (checkStepSanity prev s).bodies, SpeedBounded maxA B nb.2 := by
  simp only [SimEnv.checkStepSanity]
  split_ifs with hms
  · exact h
  · exact checkSanity_fold_speed prev s.max_step_translation maxA B
      s.bodies ([], s.last_physics_warning) h (fun nb hnb => absurd hnb (List.not_mem_nil nb))

/-- `_sanitize_velocity` flags every clamp it performs: whenever the linear
or angular speed exceeds its (positive) limit, the returned warning message is
non-`None`. -/
theorem sanitizeVelocity_warn (maxL maxA : ℝ) (b : Body)
    (h : (0 < maxL ∧ maxL < hypotR b.vx b.vy) ∨ (0 < maxA ∧ maxA < |b.omega|)) :
    (sanitizeVelocity maxL maxA b).2 ≠ none := by
  simp only [SimEnv.sanitizeVelocity]
  split_ifs with h1 h2 h3 h4 h5 <;>
    first
      | exact Option.some_ne_none _
      | (rcases h with hlin | hang
         · exact absurd hlin (by assumption)
         · exact absurd hang (by assumption))

/-- The per-body integrate step flags every velocity clamp: on a movable
positive-mass body whose damped speed exceeds a (positive) limit, the
returned warning is non-`None`. -/
theorem integrateBody_warn (g : ℝ × ℝ) (ld ad maxL maxA dt : ℝ) (b : Body)
    (hcan : b.can_move = true) (hm : 0 < b.mass)
    (h : (0 < maxL ∧ maxL < hypotR (b.vx * ld) (b.vy * ld)) ∨
         (0 < maxA ∧ maxA < |b.omega * ad|)) :
    (integrateBody g ld ad maxL maxA dt b).2 ≠ none := by
  have hguard : ¬ (¬ (b.can_move = true) ∨ b.mass ≤ 0) := by
    push_neg
    exact ⟨hcan, hm⟩
  simp only [SimEnv.integrateBody]
  rw [if_neg hguard]
  exact sanitizeVelocity_warn maxL maxA _ h

/-- An append-style fold whose second component keeps or overwrites an
optional message never loses it: if any element produces a message (or one is
already present), the fold result carries a message. -/
theorem foldl_opt_set {α β : Type} (F : α → β) (k : α → String) (G : α → Option String) :
    ∀ (l : List α) (acc : List (String × β) × Option String),
      ((∃ x ∈ l, G x ≠ none) ∨ acc.2 ≠ none) →
      (l.foldl (fun ac nb => (ac.1 ++ [(k nb, F nb)],
        match G nb with | some m => some m | none => ac.2)) acc).2 ≠ none := by
  intro l
  induction l with
  | nil =>
      intro acc h
      rcases h with ⟨x, hx, _⟩ | h2
      · exact absurd hx (List.not_mem_nil x)
      · exact h2
  | cons hd tl ih =>
      intro acc h
      rw [List.foldl_cons]
      refine ih _ ?_
      rcases h with ⟨x, hx, hgx⟩ | h2
      · rcases List.mem_cons.mp hx with hx1 | hx2
        · right
          subst hx1
          cases hG : G x with
          | none => exact absurd hG hgx
          | some m => exact Option.some_ne_none m
        · left
          exact ⟨x, hx2, hgx⟩
      · right
        cases hG : G hd with
        | none => exact h2
        | some m => exact Option.some_ne_none m

/-- `_integrate_bodies` records a physics warning whenever some body's
integrate step produced one. -/
theorem integrateBodies_warn (s : SimState) (dt : ℝ)
    (h : ∃ nb ∈ s.bodies,
      (integrateBody s.gravity s.linear_damping s.angular_damping
        s.max_linear_speed s.max_angular_speed dt nb.2).2 ≠ none) :
    (integrateBodies s dt).last_physics_warning ≠ none := by
  exact foldl_opt_set
    (fun nb : String × Body => (integrateBody s.gravity s.linear_damping s.angular_damping
      s.max_linear_speed s.max_angular_speed dt nb.2).1)
    (fun nb => nb.1)
    (fun nb => (integrateBody s.gravity s.linear_damping s.angular_damping
      s.max_linear_speed s.max_angular_speed dt nb.2).2)
    s.bodies ([], s.last_physics_warning) (Or.inl h)

/-- One `_solve_joints` iteration never touches the physics warning. -/
theorem solveJointStep_warn (dt : ℝ) (acc : SimState × List JointRuntime)
    (jr : JointRuntime) :
    (solveJointStep dt acc jr).1.last_physics_warning = acc.1.last_physics_warning := by
  simp only [SimEnv.solveJointStep]
  split
  · split_ifs <;> rfl
  · rfl

/-- `_solve_joints` never touches the physics warning. -/
theorem solveJoints_warn (s : SimState) (dt : ℝ) :
    (solveJoints s dt).last_physics_warning = s.last_physics_warning := by
  exact foldl_preserves (fun (acc : SimState × List JointRuntime) =>
      acc.1.last_physics_warning = s.last_physics_warning)
    (solveJointStep dt) s.joints
    (fun acc jr hacc => (solveJointStep_warn dt acc jr).trans hacc)
    (s, []) rfl

/-- One `_solve_contacts` pair iteration never clears a recorded physics
warning: its only write keeps the incoming message when its own sanitize
produced none. -/
theorem solveContactPair_warn (st : SimState) (ni nj : String)
    (h : st.last_physics_warning ≠ none) :
    (solveContactPair st ni nj).last_physics_warning ≠ none := by
  simp only [SimEnv.solveContactPair]
  split
  · split_ifs <;>
      first
        | exact h
        | (split <;>
            first
              | exact h
              | (split <;>
                  first
                    | exact h
                    | (dsimp only
                       split <;>
                         first
                           | exact Option.some_ne_none _
                           | (split <;>
                               first
                                 | exact Option.some_ne_none _
                                 | exact h))))
  · exact h

/-- `_solve_contacts` never clears a recorded physics warning. -/
theorem solveContacts_warn (s : SimState) (h : s.last_physics_warning ≠ none) :
    (solveContacts s).last_physics_warning ≠ none := by
  exact foldl_preserves (fun (st : SimState) => st.last_physics_warning ≠ none)
    (fun st p => solveContactPair st p.1 p.2) (allPairs (s.bodies.map Prod.fst))
    (fun st p hst => solveContactPair_warn st p.1 p.2 hst) s h

/-- The `_check_step_sanity` body loop never clears a recorded warning. -/
theorem checkSanity_fold_warn (prev : List (String × Pose2D)) (limit : ℝ) :
    ∀ (l : List (String × Body)) (acc : List (String × Body) × Option String),
      acc.2 ≠ none →
      (l.foldl (fun (acc : List (String × Body) × Option String) nb =>
        if ¬ nb.2.can_move then (acc.1 ++ [nb], acc.2)
        else
          match alistLookup prev nb.1 with
          | none => (acc.1 ++ [nb], acc.2)
          | some pv =>
            let dx := nb.2.pose.x - pv.x
            let dy := nb.2.pose.y - pv.y
            let dist := hypotR dx dy
            if limit < dist then
              let body' :=
                if 1 / 10 ^ 9 < dist then
                  { nb.2 with pose := (Pose2D.mk (pv.x + dx * (limit / dist))
                      (pv.y + dy * (limit / dist)) nb.2.pose.theta) }
                else { nb.2 with pose := pv }
              (acc.1 ++ [(nb.1, body')], some "large step clamped")
            else (acc.1 ++ [nb], acc.2)) acc).2 ≠ none := by
  intro l
  induction l with
  | nil => intro acc h2; exact h2
  | cons hd tl ih =>
      intro acc h2
      rw [List.foldl_cons]
      refine ih _ ?_
      split
      · exact h2
      · split
        · exact h2
        · simp only []
          split
          · exact Option.some_ne_none _
          · exact h2

/-- `_check_step_sanity` never clears a recorded physics warning. -/
theorem checkStepSanity_warn (prev : List (String × Pose2D)) (s : SimState)
    (h : s.last_physics_warning ≠ none) :
    (checkStepSanity prev s).last_physics_warning ≠ none := by
  simp only [SimEnv.checkStepSanity]
  split_ifs with hms
  · exact h
  · exact checkSanity_fold_warn prev s.max_step_translation s.bodies
      ([], s.last_physics_warning) h

/-- C7 (amended): after a completed `Simulator.step` on a state whose bodies
carry no pending forces and whose movable bodies have positive mass (as in
any freshly loaded scene), every movable body's linear speed is at most
`max_linear_speed + |gravity| * dt` — gravity is integrated after the
sanitize clamp, so the configured limit itself can be exceeded by one
gravity increment — and its angular speed is within `max_angular_speed`;
whenever the integrate phase's velocity sanitize clamps a speed this tick
(some movable positive-mass body entering `_integrate_bodies` has damped
linear speed above `max_linear_speed` or damped angular speed above
`max_angular_speed`), `last_physics_warning` is non-`None` at the end of the
step — the sanitize flags the clamp and the joint, contact and step-sanity
phases never clear the flag within the tick; the step always completes
(`step_index` advances through all phases), which is the embedded
counterpart of "no exception propagates out of step()".  Finiteness is
trivial over ℝ. -/
theorem post_step_velocity_invariants (sval : String → SimState → ℝ)
    (noiseFn : ℤ → ℕ → ℝ) (hasC : String → Bool) (ctrl : ControllerFun)
    (s : SimState) (dt : ℝ) (hdt : 0 ≤ dt) (hL : 0 < s.max_linear_speed)
    (hA : 0 < s.max_angular_speed) (hclean : ∀ nb ∈ s.bodies, CleanBody nb.2) :
    (∀ nb ∈ (simStep sval noiseFn hasC ctrl s (some dt)).bodies,
      SpeedBounded s.max_angular_speed
        (s.max_linear_speed + hypotR s.gravity.1 s.gravity.2 * dt) nb.2) ∧
    ((∃ nb ∈ (tickController hasC ctrl
        (updateSensors sval noiseFn { s with last_physics_warning := none } dt).1
        (fun rid => ((updateSensors sval noiseFn { s with last_physics_warning := none } dt).2.filter
          (fun t => t.2.2 = rid)).map (fun t => (t.1, t.2.1))) dt).1.bodies,
        nb.2.can_move = true ∧ 0 < nb.2.mass ∧
          (s.max_linear_speed < hypotR (nb.2.vx * s.linear_damping)
              (nb.2.vy * s.linear_damping) ∨
           s.max_angular_speed < |nb.2.omega * s.angular_damping|)) →
      (simStep sval noiseFn hasC ctrl s (some dt)).last_physics_warning ≠ none) ∧
    (simStep sval noiseFn hasC ctrl s (some dt)).step_index = s.step_index + 1 := by
  refine ⟨?_, ?_, ?_⟩
  · intro nb hnb
    simp only [SimEnv.simStep] at hnb
    have hcleanSens : ∀ nb ∈ (updateSensors sval noiseFn
        { s with last_physics_warning := none } dt).1.bodies, CleanBody nb.2 := hclean
    have hctrl := tickController_phys hasC ctrl
      (updateSensors sval noiseFn { s with last_physics_warning := none } dt).1
      (fun rid => ((updateSensors sval noiseFn { s with last_physics_warning := none } dt).2.filter
        (fun t => t.2.2 = rid)).map (fun t => (t.1, t.2.1))) dt hcleanSens
    obtain ⟨hg, hld, had, hml, hma, hcl⟩ := hctrl
    have hLB : s.max_linear_speed ≤ s.max_linear_speed +
        hypotR s.gravity.1 s.gravity.2 * dt :=
      le_add_of_nonneg_right (mul_nonneg (hypotR_nonneg _ _) hdt)
    have hint := integrateBodies_bound
      (tickController hasC ctrl
        (updateSensors sval noiseFn { s with last_physics_warning := none } dt).1
        (fun rid => ((updateSensors sval noiseFn { s with last_physics_warning := none } dt).2.filter
          (fun t => t.2.2 = rid)).map (fun t => (t.1, t.2.1))) dt).1 dt
      (by rw [hml]; exact hL) (by rw [hma]; exact hA) hdt hcl
    rw [hml, hma, hg] at hint
    have hjl := solveJoints_limits
      (integrateBodies (tickController hasC ctrl
        (updateSensors sval noiseFn { s with last_physics_warning := none } dt).1
        (fun rid => ((updateSensors sval noiseFn { s with last_physics_warning := none } dt).2.filter
          (fun t => t.2.2 = rid)).map (fun t => (t.1, t.2.1))) dt).1 dt) dt
    have hjoints := solveJoints_speed
      (integrateBodies (tickController hasC ctrl
        (updateSensors sval noiseFn { s with last_physics_warning := none } dt).1
        (fun rid => ((updateSensors sval noiseFn { s with last_physics_warning := none } dt).2.filter
          (fun t => t.2.2 = rid)).map (fun t => (t.1, t.2.1))) dt).1 dt) dt
      s.max_angular_speed
      (s.max_linear_speed + hypotR s.gravity.1 s.gravity.2 * dt) hint
    have hcontacts := solveContacts_speed _ s.max_linear_speed s.max_angular_speed
      (s.max_linear_speed + hypotR s.gravity.1 s.gravity.2 * dt) hL hA hLB
      (hjl.1.trans hml) (hjl.2.trans hma) hjoints
    exact checkStepSanity_speed _ _ _ _ hcontacts nb hnb
  · intro hW
    obtain ⟨nb, hmem, hcan, hmass, hcond⟩ := hW
    have hcleanSens : ∀ nb ∈ (updateSensors sval noiseFn
        { s with last_physics_warning := none } dt).1.bodies, CleanBody nb.2 := hclean
    obtain ⟨hg, hld, had, hml, hma, hcl⟩ := tickController_phys hasC ctrl
      (updateSensors sval noiseFn { s with last_physics_warning := none } dt).1
      (fun rid => ((updateSensors sval noiseFn { s with last_physics_warning := none } dt).2.filter
        (fun t => t.2.2 = rid)).map (fun t => (t.1, t.2.1))) dt hcleanSens
    show (SimEnv.simStep sval noiseFn hasC ctrl s (some dt)).last_physics_warning ≠ none
    simp only [SimEnv.simStep]
    apply checkStepSanity_warn
    apply solveContacts_warn
    rw [solveJoints_warn]
    apply integrateBodies_warn
    refine ⟨nb, hmem, ?_⟩
    refine integrateBody_warn _ _ _ _ _ _ _ hcan hmass ?_
    rcases hcond with hlin | hang
    · left
      rw [hml, hld]
      exact ⟨hL, hlin⟩
    · right
      rw [hma, had]
      exact ⟨hA, hang⟩
  · show (SimEnv.simStep sval noiseFn hasC ctrl s (some dt)).step_index = s.step_index + 1
    simp only [SimEnv.simStep]
    rw [checkStepSanity_step_index, solveContacts_step_index, solveJoints_step_index,
      integrateBodies_step_index, tickController_step_index, updateSensors_step_index]

/-- C7 witness: the amended invariants evaluated on the concrete one-body
gravity state (clean body of mass `2` at the linear speed limit). -/
theorem post_step_velocity_invariants_witness :
    ((0:ℝ) ≤ 1 / 120) ∧ (0 < SimEnv.cxStateC7.max_linear_speed) ∧
    (0 < SimEnv.cxStateC7.max_angular_speed) ∧
    (∀ nb ∈ SimEnv.cxStateC7.bodies, SimEnv.CleanBody nb.2) ∧
    ((∀ nb ∈ (SimEnv.simStep SimEnv.svalZero SimEnv.noiseZero (fun _ => false)
        SimEnv.ctrlIdle SimEnv.cxStateC7 (some (1 / 120))).bodies,
      SimEnv.SpeedBounded SimEnv.cxStateC7.max_angular_speed
        (SimEnv.cxStateC7.max_linear_speed +
          SimEnv.hypotR SimEnv.cxStateC7.gravity.1 SimEnv.cxStateC7.gravity.2 * (1 / 120))
        nb.2) ∧
     ((∃ nb ∈ (SimEnv.tickController (fun _ => false) SimEnv.ctrlIdle
         (SimEnv.updateSensors SimEnv.svalZero SimEnv.noiseZero
           { SimEnv.cxStateC7 with last_physics_warning := none } (1 / 120)).1
         (fun rid => ((SimEnv.updateSensors SimEnv.svalZero SimEnv.noiseZero
             { SimEnv.cxStateC7 with last_physics_warning := none } (1 / 120)).2.filter
           (fun t => t.2.2 = rid)).map (fun t => (t.1, t.2.1))) (1 / 120)).1.bodies,
         nb.2.can_move = true ∧ 0 < nb.2.mass ∧
           (SimEnv.cxStateC7.max_linear_speed < SimEnv.hypotR
               (nb.2.vx * SimEnv.cxStateC7.linear_damping)
               (nb.2.vy * SimEnv.cxStateC7.linear_damping) ∨
            SimEnv.cxStateC7.max_angular_speed <
              |nb.2.omega * SimEnv.cxStateC7.angular_damping|)) →
       (SimEnv.simStep SimEnv.svalZero SimEnv.noiseZero (fun _ => false)
          SimEnv.ctrlIdle SimEnv.cxStateC7 (some (1 / 120))).last_physics_warning ≠ none) ∧
     (SimEnv.simStep SimEnv.svalZero SimEnv.noiseZero (fun _ => false)
        SimEnv.ctrlIdle SimEnv.cxStateC7 (some (1 / 120))).step_index
       = SimEnv.cxStateC7.step_index + 1) := by
  have h1 : (0:ℝ) ≤ 1 / 120 := by norm_num
  have h2 : 0 < SimEnv.cxStateC7.max_linear_speed := by
    show (0:ℝ) < 15
    norm_num
  have h3 : 0 < SimEnv.cxStateC7.max_angular_speed := by
    show (0:ℝ) < 40
    norm_num
  have h4 : ∀ nb ∈ SimEnv.cxStateC7.bodies, SimEnv.CleanBody nb.2 := by
    intro nb hnb
    have hnb' : nb ∈ [("b", { SimEnv.sampleBody with mass := 2, vy := -15 })] := hnb
    rw [List.mem_singleton] at hnb'
    rw [hnb']
    refine ⟨rfl, rfl, rfl, fun _ => ?_⟩
    show (0:ℝ) < 2
    norm_num
  exact ⟨h1, h2, h3, h4, post_step_velocity_invariants SimEnv.svalZero SimEnv.noiseZero
    (fun _ => false) SimEnv.ctrlIdle SimEnv.cxStateC7 (1 / 120) h1 h2 h3 h4⟩

/-- `_update_sensors` over an empty sensor table is a no-op. -/
theorem updateSensors_nil (sval : String → SimState → ℝ) (noiseFn : ℤ → ℕ → ℝ)
    (s : SimState) (dt : ℝ) (h : s.sensors = []) :
    updateSensors sval noiseFn s dt
      = ({ s with sensors := [], last_sensor_readings := [] }, []) := by
  unfold SimEnv.updateSensors
  rw [h]
  rfl

/-- `_tick_controller` over an empty robot list is a no-op. -/
theorem tickController_nil (hc : String → Bool) (ctrl : ControllerFun) (s : SimState)
    (rbr : String → List (String × ℝ)) (dt : ℝ) (h : s.robot_ids = []) :
    tickController hc ctrl s rbr dt = (s, []) := by
  unfold SimEnv.tickController
  rw [h]
  rfl

/-- `_integrate_bodies` over a one-body table. -/
theorem integrateBodies_single (s : SimState) (dt : ℝ) (n : String) (b b' : Body)
    (h : s.bodies = [(n, b)])
    (hib : integrateBody s.gravity s.linear_damping s.angular_damping
      s.max_linear_speed s.max_angular_speed dt b = (b', none)) :
    integrateBodies s dt = { s with bodies := [(n, b')] } := by
  unfold SimEnv.integrateBodies
  rw [h]
  simp only [List.foldl_cons, List.foldl_nil, hib, List.nil_append]

/-- `_solve_joints` with no joints is a no-op. -/
theorem solveJoints_nil (s : SimState) (dt : ℝ) (h : s.joints = []) :
    solveJoints s dt = { s with joints := [] } := by
  unfold SimEnv.solveJoints
  rw [h]
  rfl

/-- `_solve_contacts` with a single body has no pairs and is a no-op. -/
theorem solveContacts_single (s : SimState) (n : String) (b : Body)
    (h : s.bodies = [(n, b)]) : solveContacts s = s := by
  unfold SimEnv.solveContacts
  rw [h]
  rfl

/-- Evaluating the integrate step of the C7 counterexample: damping brings
the body just under the limit, then the gravity increment (added after the
sanitize clamp) pushes it past it. -/
theorem integrateBody_cxC7 :
    SimEnv.integrateBody ((0:ℝ), -981 / 100) (995 / 1000) (995 / 1000) 15 40 (1 / 120)
      { SimEnv.sampleBody with mass := 2, vy := -15 }
    = (SimEnv.cxBodyC7, none) := by
  have h1600 : Real.sqrt (1600:ℝ) = 40 := by
    rw [show (1600:ℝ) = 40 ^ 2 by norm_num, Real.sqrt_sq (by norm_num : (0:ℝ) ≤ 40)]
  have hs6 : Real.sqrt (356409:ℝ) ≤ 600 := by
    calc Real.sqrt (356409:ℝ) ≤ Real.sqrt ((600:ℝ) ^ 2) :=
          Real.sqrt_le_sqrt (by norm_num)
      _ = 600 := Real.sqrt_sq (by norm_num)
  have hnlt : ¬ ((15:ℝ) < Real.sqrt (356409:ℝ) / Real.sqrt (1600:ℝ)) := by
    rw [h1600]
    exact not_lt.mpr ((div_le_iff₀ (by norm_num)).mpr (by linarith))
  norm_num [SimEnv.integrateBody, SimEnv.sanitizeVelocity, SimEnv.bodyIntegrate,
    SimEnv.sampleBody, SimEnv.cxBodyC7, SimEnv.Pose2D.ident, SimEnv.Pose2D.translated,
    SimEnv.Pose2D.rotated, SimEnv.hypotR, hnlt]

/-- The step-sanity pass leaves the C7 counterexample body untouched: its
translation this tick is far below the max_step_translation threshold. -/
theorem checkStepSanity_cxC7 (s : SimEnv.SimState)
    (hms : s.max_step_translation = 1 / 2)
    (hb : s.bodies = [("b", SimEnv.cxBodyC7)]) :
    (SimEnv.checkStepSanity [("b", SimEnv.Pose2D.ident)] s).bodies
      = [("b", SimEnv.cxBodyC7)] := by
  have h256 : Real.sqrt (25600000000:ℝ) = 160000 := by
    rw [show (25600000000:ℝ) = 160000 ^ 2 by norm_num,
      Real.sqrt_sq (by norm_num : (0:ℝ) ≤ 160000)]
  have hs4 : Real.sqrt (400360081:ℝ) ≤ 80000 := by
    calc Real.sqrt (400360081:ℝ) ≤ Real.sqrt ((80000:ℝ) ^ 2) :=
          Real.sqrt_le_sqrt (by norm_num)
      _ = 80000 := Real.sqrt_sq (by norm_num)
  have hd : ¬ ((1:ℝ) / 2 < Real.sqrt (400360081:ℝ) / Real.sqrt (25600000000:ℝ)) := by
    rw [h256]
    exact not_lt.mpr ((div_le_iff₀ (by norm_num)).mpr (by linarith))
  unfold SimEnv.checkStepSanity
  rw [hms, hb]
  norm_num [List.foldl_cons, List.foldl_nil, SimEnv.cxBodyC7, SimEnv.Pose2D.ident,
    SimEnv.alistLookup, List.find?, SimEnv.hypotR, hd]

/-- C7 counterexample: in cxStateC7 (default limits, gravity (0, -9.81),
one movable body of mass 2 falling at the speed limit 15), a single step
with dt = 1/120 leaves the body with linear speed 60027/4000 = 15.00675,
strictly above max_linear_speed: gravity is integrated after the sanitize
clamp, so the post-step speed bound claimed by the spec fails. -/
theorem post_step_speed_exceeds_limit :
    ∃ nb ∈ (SimEnv.simStep SimEnv.svalZero SimEnv.noiseZero (fun _ => false)
        SimEnv.ctrlIdle SimEnv.cxStateC7 (some (1 / 120))).bodies,
      nb.2.can_move = true ∧
      SimEnv.cxStateC7.max_linear_speed < SimEnv.hypotR nb.2.vx nb.2.vy := by
  have hbodies : (SimEnv.simStep SimEnv.svalZero SimEnv.noiseZero (fun _ => false)
      SimEnv.ctrlIdle SimEnv.cxStateC7 (some (1 / 120))).bodies
      = [("b", SimEnv.cxBodyC7)] := by
    simp only [SimEnv.simStep]
    rw [updateSensors_nil SimEnv.svalZero SimEnv.noiseZero
      { SimEnv.cxStateC7 with last_physics_warning := none } (1 / 120) rfl]
    dsimp only
    rw [tickController_nil (fun _ => false) SimEnv.ctrlIdle _ _ (1 / 120) (by rfl)]
    dsimp only
    rw [integrateBodies_single _ (1 / 120) "b" _ SimEnv.cxBodyC7 (by rfl)
      integrateBody_cxC7]
    rw [solveJoints_nil _ (1 / 120) (by rfl)]
    rw [solveContacts_single _ "b" SimEnv.cxBodyC7 (by rfl)]
    rw [show List.map (fun nb : String × SimEnv.Body => (nb.1, nb.2.pose))
      SimEnv.cxStateC7.bodies = [("b", SimEnv.Pose2D.ident)] from rfl]
    exact checkStepSanity_cxC7 _ (by rfl) (by rfl)
  refine ⟨("b", SimEnv.cxBodyC7), by rw [hbodies]; exact List.mem_singleton.mpr rfl,
    rfl, ?_⟩
  show (15:ℝ) < SimEnv.hypotR 0 (-60027 / 4000)
  unfold SimEnv.hypotR
  rw [show ((0:ℝ) ^ 2 + (-60027 / 4000) ^ 2) = (60027 / 4000) ^ 2 by norm_num,
    Real.sqrt_sq (by norm_num : (0:ℝ) ≤ 60027 / 4000)]
  norm_num
